import Mathlib

/-!
# The sound manager of `sound/sound.cpp`

A shallow embedding of `Sound::SoundManager` (file `src/sound/sound.cpp`).

* The manager's members become the fields of `SoundManager`; every operation is a
  function from the state before the call to the result of the call and the state
  after it.  A C++ exception is an `Except.error`; the state returned next to it is
  the state the exception leaves behind.
* `Channel *` values are represented by the index of the slot of `_channels` that
  owns the object; the iterator `typeIt` is represented by a flag telling whether it
  differs from `list.end()`.
* OpenAL and the audio streams are collaborators of the manager.  They are modelled
  by the small state machines `OpenAL` and `AudioStream` below.
* `kChannelCount` and `kSoundTypeMAX` are declared in `sound/sound.h`, which is not
  part of the sources at hand; they are carried as parameters inside the state and
  no operation changes them.
* `uint16` values are natural numbers, reduced modulo `2 ^ 16` where the code can
  overflow.  `ALfloat` values are only stored and copied by the manager, never
  computed with; they are carried as bit patterns.
-/

namespace Sound

/-! ## Constants -/

/-- Number of buffers per sound (`kOpenALBufferCount`, sound.cpp line 33). -/
def kOpenALBufferCount : Nat := 5

/-- Number of bytes per OpenAL buffer (`kOpenALBufferSize`, sound.cpp line 40). -/
def kOpenALBufferSize : Nat := 32768

/-! OpenAL names (`ALuint`) and enumeration values (`ALenum`, `ALint`) are natural
numbers. -/

def AL_NO_ERROR : Nat := 0
def AL_INVALID_NAME : Nat := 0xA001
def AL_INVALID_VALUE : Nat := 0xA003
def AL_SOURCE_STATE : Nat := 0x1010
def AL_INITIAL : Nat := 0x1011
def AL_PLAYING : Nat := 0x1012
def AL_PAUSED : Nat := 0x1013
def AL_STOPPED : Nat := 0x1014
def AL_BUFFERS_QUEUED : Nat := 0x1015
def AL_BUFFERS_PROCESSED : Nat := 0x1016
def AL_FORMAT_MONO16 : Nat := 0x1101
def AL_FORMAT_STEREO16 : Nat := 0x1103

/-- A float as the manager sees it: a value that is stored and handed on. -/
structure ALfloat where
  bits : Nat
deriving DecidableEq, Repr

/-- The float `1.0`. -/
def ALfloat.one : ALfloat := ⟨0x3F800000⟩

/-- The float `0.0`. -/
def ALfloat.zero : ALfloat := ⟨0⟩

/-- The exceptions of the manager, told apart by their message.  `outOfBounds` is not
an exception: it marks a read of `_channels` outside `[0, kChannelCount)`, whose
behaviour C++ leaves undefined. `assertion` marks a failed `assert`. -/
inductive Error where
  | notReady            -- "SoundManager not ready"
  | noStream            -- "No audio stream", "No stream"
  | allChannelsOccupied -- "All sound channels occupied"
  | invalidChannel      -- "Invalid channel"
  | unsupportedOnStereo -- "Cannot set/get position on a stereo sound."
  | hardware            -- "OpenAL error while ..."
  | device              -- errors of init()
  | assertion
  | outOfBounds
  | corruptFormat       -- "Broken WAVE file", "Found invalid tag in WAVE file: ..."
  | unknownFormat       -- "Unknown sound format"
deriving DecidableEq, Repr

deriving instance DecidableEq for Except

/-! ## Audio streams -/

/-- Modelled from the spec: `AudioStream` is declared in `sound/audiostream.h`, which
is not among the sources.  This is an audio stream as far as the manager can observe
it through `isStereo`, `getRate`, `readBuffer`, `endOfData` and `endOfStream`
(section 4.1 of the specification).  `ident` stands for the address of the object. -/
structure AudioStream where
  ident : Nat
  stereo : Bool
  rate : Nat
  /-- samples that `readBuffer` can still deliver -/
  remaining : Nat
  /-- more data may still be appended to the stream later on -/
  pending : Bool := false
  /-- number of `readBuffer` calls made so far -/
  reads : Nat := 0
  /-- the object is a `RewindableAudioStream` -/
  rewindable : Bool := false
deriving DecidableEq, Repr

def AudioStream.isStereo (s : AudioStream) : Bool := s.stereo

def AudioStream.getRate (s : AudioStream) : Nat := s.rate

def AudioStream.endOfData (s : AudioStream) : Bool := s.remaining == 0

def AudioStream.endOfStream (s : AudioStream) : Bool := s.endOfData && !s.pending

/-- The call `readBuffer(buffer, numSamples)`: the number of samples read and the
stream afterwards. -/
def AudioStream.readBuffer (s : AudioStream) (numSamples : Nat) : Nat × AudioStream :=
  (min numSamples s.remaining,
   { s with remaining := s.remaining - min numSamples s.remaining, reads := s.reads + 1 })

/-! ## OpenAL -/

/-- An OpenAL source (a hardware voice). -/
structure Source where
  state : Nat := AL_INITIAL
  gain : ALfloat := ALfloat.one
  position : ALfloat × ALfloat × ALfloat := (ALfloat.zero, ALfloat.zero, ALfloat.zero)
  /-- the buffers queued on the source, oldest first -/
  queue : List Nat := []
  /-- how many buffers at the head of the queue have been played -/
  processed : Nat := 0
deriving DecidableEq, Repr

/-- An OpenAL buffer. -/
structure Buffer where
  format : Nat := 0
  size : Nat := 0
  freq : Nat := 0
deriving DecidableEq, Repr

/-- The commands the manager sends to OpenAL. -/
inductive ALCall where
  | genSources
  | genBuffers
  | deleteSources (source : Nat)
  | deleteBuffers (buffer : Nat)
  | bufferData (buffer : Nat) (size : Nat)
  | sourceQueueBuffers (source buffer : Nat)
  | sourceUnqueueBuffers (source : Nat)
  | sourcePlay (source : Nat)
  | sourcePause (source : Nat)
  | sourcef (source : Nat) (gain : ALfloat)
  | source3f (source : Nat) (x y z : ALfloat)
  | listenerf (gain : ALfloat)
deriving DecidableEq, Repr

/-- The state of the OpenAL context.

`faults` is the script of the device: each of the commands whose outcome the manager
checks with `alGetError` (`alGenSources`, `alGenBuffers`, `alBufferData`,
`alSourceQueueBuffers`, `alSourcePause`) takes the head of the script and fails with
that error when it is not `AL_NO_ERROR`; with an empty script nothing fails.
`error` is the error flag read and cleared by `alGetError`.
`calls` records the commands in the order they were sent. -/
structure OpenAL where
  sources : Nat → Option Source
  buffers : Nat → Option Buffer
  /-- the highest name handed out so far; new names are above it, hence never `0` -/
  lastName : Nat
  error : Nat
  faults : List Nat
  listenerGain : ALfloat
  calls : List ALCall

namespace OpenAL

/-- Set the error flag; OpenAL keeps the first error until it is read. -/
def raise (al : OpenAL) (e : Nat) : OpenAL :=
  if al.error = AL_NO_ERROR then { al with error := e } else al

def record (al : OpenAL) (c : ALCall) : OpenAL :=
  { al with calls := al.calls ++ [c] }

/-- Take the next entry of the device's script. -/
def attempt (al : OpenAL) : Nat × OpenAL :=
  match al.faults with
  | [] => (AL_NO_ERROR, al)
  | e :: rest => (e, { al with faults := rest })

end OpenAL

/-- The call `alGetError()`. -/
def alGetError (al : OpenAL) : Nat × OpenAL :=
  (al.error, { al with error := AL_NO_ERROR })

/-- The call `alGenSources(1, &out)`: the value of `out` afterwards and the new state. -/
def alGenSources (al : OpenAL) (out : Nat) : Nat × OpenAL :=
  let (e, al) := (al.record .genSources).attempt
  if e ≠ AL_NO_ERROR then (out, al.raise e)
  else (al.lastName + 1,
        { al with sources := Function.update al.sources (al.lastName + 1) (some {}),
                  lastName := al.lastName + 1 })

/-- The call `alGenBuffers(1, &out)`. -/
def alGenBuffers (al : OpenAL) (out : Nat) : Nat × OpenAL :=
  let (e, al) := (al.record .genBuffers).attempt
  if e ≠ AL_NO_ERROR then (out, al.raise e)
  else (al.lastName + 1,
        { al with buffers := Function.update al.buffers (al.lastName + 1) (some {}),
                  lastName := al.lastName + 1 })

/-- The call `alDeleteSources(1, &source)`. -/
def alDeleteSources (al : OpenAL) (source : Nat) : OpenAL :=
  let al := al.record (.deleteSources source)
  match al.sources source with
  | none => al.raise AL_INVALID_NAME
  | some _ => { al with sources := Function.update al.sources source none }

/-- The call `alDeleteBuffers(1, &buffer)`. -/
def alDeleteBuffers (al : OpenAL) (buffer : Nat) : OpenAL :=
  let al := al.record (.deleteBuffers buffer)
  match al.buffers buffer with
  | none => al.raise AL_INVALID_NAME
  | some _ => { al with buffers := Function.update al.buffers buffer none }

/-- The call `alBufferData(buffer, format, data, size, freq)`. -/
def alBufferData (al : OpenAL) (buffer : Nat) (format : Nat) (size freq : Nat) : OpenAL :=
  let (e, al) := (al.record (.bufferData buffer size)).attempt
  if e ≠ AL_NO_ERROR then al.raise e
  else match al.buffers buffer with
    | none => al.raise AL_INVALID_NAME
    | some _ =>
      { al with buffers := Function.update al.buffers buffer (some ⟨format, size, freq⟩) }

/-- The call `alSourceQueueBuffers(source, 1, &buffer)`. -/
def alSourceQueueBuffers (al : OpenAL) (source buffer : Nat) : OpenAL :=
  let (e, al) := (al.record (.sourceQueueBuffers source buffer)).attempt
  if e ≠ AL_NO_ERROR then al.raise e
  else match al.sources source, al.buffers buffer with
    | some s, some _ =>
      { al with sources :=
          Function.update al.sources source (some { s with queue := s.queue ++ [buffer] }) }
    | _, _ => al.raise AL_INVALID_NAME

/-- The call `alSourceUnqueueBuffers(source, 1, &out)`: only a processed buffer can be
taken off the queue. -/
def alSourceUnqueueBuffers (al : OpenAL) (source : Nat) (out : Nat) : Nat × OpenAL :=
  let al := al.record (.sourceUnqueueBuffers source)
  match al.sources source with
  | none => (out, al.raise AL_INVALID_NAME)
  | some s =>
    match s.queue, s.processed with
    | b :: rest, p + 1 =>
      (b, { al with sources :=
              Function.update al.sources source (some { s with queue := rest, processed := p }) })
    | _, _ => (out, al.raise AL_INVALID_VALUE)

/-- The call `alSourcePlay(source)`. -/
def alSourcePlay (al : OpenAL) (source : Nat) : OpenAL :=
  let al := al.record (.sourcePlay source)
  match al.sources source with
  | none => al.raise AL_INVALID_NAME
  | some s =>
    { al with sources := Function.update al.sources source (some { s with state := AL_PLAYING }) }

/-- The call `alSourcePause(source)`: a playing source becomes paused, any other
source keeps its state. -/
def alSourcePause (al : OpenAL) (source : Nat) : OpenAL :=
  let (e, al) := (al.record (.sourcePause source)).attempt
  if e ≠ AL_NO_ERROR then al.raise e
  else match al.sources source with
    | none => al.raise AL_INVALID_NAME
    | some s =>
      if s.state = AL_PLAYING then
        { al with sources :=
            Function.update al.sources source (some { s with state := AL_PAUSED }) }
      else al

/-- The call `alSourcef(source, AL_GAIN, gain)`. -/
def alSourcef (al : OpenAL) (source : Nat) (gain : ALfloat) : OpenAL :=
  let al := al.record (.sourcef source gain)
  match al.sources source with
  | none => al.raise AL_INVALID_NAME
  | some s =>
    { al with sources := Function.update al.sources source (some { s with gain := gain }) }

/-- The call `alSource3f(source, AL_POSITION, x, y, z)`. -/
def alSource3f (al : OpenAL) (source : Nat) (x y z : ALfloat) : OpenAL :=
  let al := al.record (.source3f source x y z)
  match al.sources source with
  | none => al.raise AL_INVALID_NAME
  | some s =>
    { al with sources :=
        Function.update al.sources source (some { s with position := (x, y, z) }) }

/-- The call `alGetSource3f(source, AL_POSITION, &x, &y, &z)`: the values of the three
variables afterwards. -/
def alGetSource3f (al : OpenAL) (source : Nat) (out : ALfloat × ALfloat × ALfloat) :
    (ALfloat × ALfloat × ALfloat) × OpenAL :=
  match al.sources source with
  | none => (out, al.raise AL_INVALID_NAME)
  | some s => (s.position, al)

/-- The call `alGetSourcei(source, param, &out)` for the three parameters the manager
asks for. -/
def alGetSourcei (al : OpenAL) (source : Nat) (param : Nat) (out : Nat) : Nat × OpenAL :=
  match al.sources source with
  | none => (out, al.raise AL_INVALID_NAME)
  | some s =>
    if param = AL_SOURCE_STATE then (s.state, al)
    else if param = AL_BUFFERS_QUEUED then (s.queue.length, al)
    else if param = AL_BUFFERS_PROCESSED then (s.processed, al)
    else (out, al.raise AL_INVALID_VALUE)

/-- The call `alListenerf(AL_GAIN, gain)`. -/
def alListenerf (al : OpenAL) (gain : ALfloat) : OpenAL :=
  { al.record (.listenerf gain) with listenerGain := gain }

/-! ## The manager -/

/-- Modelled from the spec: `ChannelHandle` is declared in `sound/sound.h`, which is
not among the sources; it is the pair of a slot index and a generation id, two
`uint16` values. -/
structure ChannelHandle where
  channel : Nat
  id : Nat
deriving DecidableEq, Repr

/-- A sound channel (`SoundManager::Channel`). -/
structure Channel where
  id : Nat
  state : Nat
  stream : Option AudioStream
  source : Nat
  disposeAfterUse : Bool
  type : Nat
  /-- whether `typeIt` differs from `_types[type].list.end()` -/
  typeIt : Bool
  buffers : List Nat := []
  freeBuffers : List Nat := []
deriving DecidableEq, Repr

/-- An entry of `_types`: the gain of the sound type and the list of its channels. -/
structure TypeEntry where
  gain : ALfloat
  list : List Nat
deriving DecidableEq, Repr

/-- The members of `SoundManager`, the OpenAL context it talks to, and the addresses
of the streams it has deleted. -/
structure SoundManager where
  kChannelCount : Nat
  kSoundTypeMAX : Nat
  ready : Bool
  channels : Nat → Option Channel
  types : Nat → TypeEntry
  curChannel : Nat
  curID : Nat
  /-- `_dev` is not null -/
  dev : Bool
  /-- `_ctx` is not null -/
  ctx : Bool
  /-- the sound thread is running -/
  thread : Bool
  /-- number of `_needUpdate.signal()` calls -/
  needUpdate : Nat
  al : OpenAL
  deletedStreams : List Nat

namespace SoundManager

/-- The read `_channels[i]`. -/
def slot (m : SoundManager) (i : Nat) : Except Error (Option Channel) :=
  if i < m.kChannelCount then .ok (m.channels i) else .error .outOfBounds

/-- The assignment `_channels[i] = c`. -/
def setSlot (m : SoundManager) (i : Nat) (c : Option Channel) : SoundManager :=
  { m with channels := Function.update m.channels i c }

/-- An assignment to `_types[t].list`. -/
def setList (m : SoundManager) (t : Nat) (l : List Nat) : SoundManager :=
  { m with types := Function.update m.types t { m.types t with list := l } }

/-- `SoundManager::checkReady` (lines 471-474). -/
def checkReady (m : SoundManager) : Except Error Unit :=
  if !m.ready then .error .notReady else .ok ()

/-- `SoundManager::triggerUpdate` (lines 93-97). -/
def triggerUpdate (m : SoundManager) : Except Error Unit × SoundManager :=
  match m.checkReady with
  | .error e => (.error e, m)
  | .ok _ => (.ok (), { m with needUpdate := m.needUpdate + 1 })

/-- `SoundManager::isValidChannel` (lines 99-107). -/
def isValidChannel (m : SoundManager) (handle : ChannelHandle) : Except Error Bool :=
  if handle.channel = 0 ∨ handle.id = 0 then .ok false
  else match m.slot handle.channel with
    | .error e => .error e
    | .ok none => .ok false
    | .ok (some c) => if c.id ≠ handle.id then .ok false else .ok true

/-- `SoundManager::getChannel` (lines 294-305): the channel of the handle, if any. -/
def getChannel (m : SoundManager) (handle : ChannelHandle) : Except Error (Option Channel) :=
  if handle.channel = 0 ∨ handle.id = 0 then .ok none
  else match m.slot handle.channel with
    | .error e => .error e
    | .ok none => .ok none
    | .ok (some c) => if c.id ≠ handle.id then .ok none else .ok (some c)

/-- `SoundManager::freeChannel(uint16)` (lines 531-559).  Its callers pass an index
inside the table. -/
def freeChannel (m : SoundManager) (channel : Nat) : SoundManager :=
  if channel = 0 then m
  else match m.channels channel with
    | none => m
    | some c =>
      -- Discard the stream, if requested
      let deleted := match c.disposeAfterUse, c.stream with
        | true, some s => m.deletedStreams ++ [s.ident]
        | _, _ => m.deletedStreams
      -- Delete the channel's OpenAL source
      let al := if c.source ≠ 0 then alDeleteSources m.al c.source else m.al
      -- Delete the OpenAL buffers
      let al := c.buffers.foldl alDeleteBuffers al
      -- Remove the channel from the type list
      let types := if c.typeIt then
          Function.update m.types c.type
            { m.types c.type with list := (m.types c.type).list.erase channel }
        else m.types
      -- And finally delete the channel itself
      { m with deletedStreams := deleted, al := al, types := types,
               channels := Function.update m.channels channel none }

/-- `SoundManager::freeChannel(ChannelHandle &)` (lines 520-529): the outcome, the
handle afterwards and the state afterwards. -/
def freeChannelHandle (m : SoundManager) (handle : ChannelHandle) :
    Except Error Unit × ChannelHandle × SoundManager :=
  if handle.channel ≠ 0 ∧ handle.id ≠ 0 then
    match m.slot handle.channel with
    | .error e => (.error e, handle, m)
    | .ok none => (.ok (), ⟨0, 0⟩, m)
    | .ok (some c) =>
      if handle.id = c.id then (.ok (), ⟨0, 0⟩, m.freeChannel handle.channel)
      else (.ok (), ⟨0, 0⟩, m)
  else (.ok (), ⟨0, 0⟩, m)

/-- `SoundManager::stopChannel` (lines 339-343). -/
def stopChannel (m : SoundManager) (handle : ChannelHandle) :
    Except Error Unit × ChannelHandle × SoundManager :=
  m.freeChannelHandle handle

/-- The loop of `newChannel` (lines 497-503), from index `i` on with `fuel` slots left:
the values of `foundChannel` and `_curChannel` when it ends. -/
def newChannelScan (m : SoundManager) : Nat → Nat → Nat → Nat → Nat × Nat
  | 0, _, foundChannel, curChannel => (foundChannel, curChannel)
  | fuel + 1, i, foundChannel, curChannel =>
    if foundChannel ≠ 0 then (foundChannel, curChannel)
    else
      let foundChannel := if (m.channels i).isNone then i % 65536 else foundChannel
      -- Channel 0 is reserved for "invalid channel"
      let curChannel := if curChannel ≥ m.kChannelCount then 1 else (curChannel + 1) % 65536
      newChannelScan m fuel (i + 1) foundChannel curChannel

/-- `SoundManager::newChannel` (lines 494-518). -/
def newChannel (m : SoundManager) : Except Error ChannelHandle × SoundManager :=
  let (foundChannel, curChannel) := m.newChannelScan m.kChannelCount 0 0 m.curChannel
  let m := { m with curChannel := curChannel }
  if foundChannel = 0 then (.error .allChannelsOccupied, m)
  else
    let handle : ChannelHandle := ⟨foundChannel, m.curID⟩
    let curID := (m.curID + 1) % 65536
    -- ID 0 is reserved for "invalid ID"
    let curID := if curID = 0 then (curID + 1) % 65536 else curID
    (.ok handle, { m with curID := curID })

end SoundManager

/-- `SoundManager::fillBuffer` (lines 408-433): the outcome, the stream afterwards and
the OpenAL state afterwards. -/
def fillBuffer (al : OpenAL) (source alBuffer : Nat) (stream : Option AudioStream) :
    Except Error Bool × Option AudioStream × OpenAL :=
  let _ := source
  match stream with
  | none => (.error .noStream, none, al)
  | some s =>
    if s.endOfData then (.ok false, some s, al)
    else
      -- Read in the required amount of samples
      let numSamples := kOpenALBufferSize / 2
      let numSamples := if s.isStereo then numSamples / 2 else numSamples
      let (numSamples, s) := s.readBuffer numSamples
      let bufferSize := numSamples * 2
      let al := alBufferData al alBuffer
        (if s.isStereo then AL_FORMAT_STEREO16 else AL_FORMAT_MONO16) bufferSize s.getRate
      let (error, al) := alGetError al
      (if error ≠ AL_NO_ERROR then .error .hardware else .ok true, some s, al)

/-- The loop "Create all needed buffers" of `playAudioStream` (lines 239-258) with
`n` rounds to go, working on the channel under construction. -/
def createBuffers : Nat → Channel → OpenAL → Except Error Unit × Channel × OpenAL
  | 0, channel, al => (.ok (), channel, al)
  | n + 1, channel, al =>
    let (buffer, al) := alGenBuffers al 0
    let (error, al) := alGetError al
    if error ≠ AL_NO_ERROR then (.error .hardware, channel, al)
    else
      match fillBuffer al channel.source buffer channel.stream with
      | (.error e, stream, al) => (.error e, { channel with stream := stream }, al)
      | (.ok true, stream, al) =>
        -- If we could fill the buffer with data, queue it
        let al := alSourceQueueBuffers al channel.source buffer
        let (error, al) := alGetError al
        if error ≠ AL_NO_ERROR then (.error .hardware, { channel with stream := stream }, al)
        else
          createBuffers n
            { channel with stream := stream, buffers := channel.buffers ++ [buffer] } al
      | (.ok false, stream, al) =>
        -- If not, put it into our free list
        createBuffers n
          { channel with stream := stream,
                         freeBuffers := channel.freeBuffers ++ [buffer],
                         buffers := channel.buffers ++ [buffer] } al

namespace SoundManager

/-- The `try` block of `playAudioStream` (lines 226-265), working on the channel that
was put into slot `index`. -/
def setupChannel (m : SoundManager) (index : Nat) (channel : Channel) :
    Except Error Unit × SoundManager :=
  match channel.stream with
  | none => (.error .noStream, m)
  | some _ =>
    -- Create the source
    let (source, al) := alGenSources m.al channel.source
    let channel := { channel with source := source }
    let (error, al) := alGetError al
    if error ≠ AL_NO_ERROR then
      (.error .hardware, { m with al := al }.setSlot index (some channel))
    else
      -- Create all needed buffers
      match createBuffers kOpenALBufferCount channel al with
      | (.error e, channel, al) => (.error e, { m with al := al }.setSlot index (some channel))
      | (.ok _, channel, al) =>
        -- Set the gain to the current sound type gain
        let al := alSourcef al channel.source (m.types channel.type).gain
        -- Add the channel to the correct type list
        let m := { m with al := al }.setList channel.type ((m.types channel.type).list ++ [index])
        (.ok (), m.setSlot index (some { channel with typeIt := true }))

/-- `SoundManager::playAudioStream` (lines 203-273). -/
def playAudioStream (m : SoundManager) (audStream : Option AudioStream) (type : Nat)
    (disposeAfterUse : Bool) : Except Error ChannelHandle × SoundManager :=
  if ¬ type < m.kSoundTypeMAX then (.error .assertion, m)
  else match m.checkReady with
  | .error e => (.error e, m)
  | .ok _ =>
    match audStream with
    | none => (.error .noStream, m)
    | some _ =>
      match m.newChannel with
      | (.error e, m) => (.error e, m)
      | (.ok handle, m) =>
        let channel : Channel :=
          { id := handle.id, state := AL_PAUSED, stream := audStream, source := 0,
            disposeAfterUse := disposeAfterUse, type := type, typeIt := false }
        let m := m.setSlot handle.channel (some channel)
        match m.setupChannel handle.channel channel with
        | (.error e, m) => (.error e, (m.freeChannelHandle handle).2.2)
        | (.ok _, m) => (.ok handle, m)

/-- `SoundManager::startChannel` (lines 307-317). -/
def startChannel (m : SoundManager) (handle : ChannelHandle) : Except Error Unit × SoundManager :=
  match m.getChannel handle with
  | .error e => (.error e, m)
  | .ok none => (.error .invalidChannel, m)
  | .ok (some channel) =>
    if channel.stream.isNone then (.error .invalidChannel, m)
    else (m.setSlot handle.channel (some { channel with state := AL_PLAYING })).triggerUpdate

/-- `SoundManager::pauseChannel` (lines 319-337). -/
def pauseChannel (m : SoundManager) (handle : ChannelHandle) (pause : Bool) :
    Except Error Unit × SoundManager :=
  match m.getChannel handle with
  | .error e => (.error e, m)
  | .ok none => (.error .invalidChannel, m)
  | .ok (some channel) =>
    if channel.stream.isNone then (.error .invalidChannel, m)
    else if pause then
      let al := alSourcePause m.al channel.source
      let (error, al) := alGetError al
      if error ≠ AL_NO_ERROR then (.error .hardware, { m with al := al })
      else
        ({ m with al := al }.setSlot handle.channel
          (some { channel with state := AL_PAUSED })).triggerUpdate
    else (m.setSlot handle.channel (some { channel with state := AL_PLAYING })).triggerUpdate

/-- `SoundManager::setListenerGain` (lines 345-351). -/
def setListenerGain (m : SoundManager) (gain : ALfloat) : Except Error Unit × SoundManager :=
  match m.checkReady with
  | .error e => (.error e, m)
  | .ok _ => (.ok (), { m with al := alListenerf m.al gain })

/-- `SoundManager::setChannelPosition` (lines 353-364). -/
def setChannelPosition (m : SoundManager) (handle : ChannelHandle) (x y z : ALfloat) :
    Except Error Unit × SoundManager :=
  match m.getChannel handle with
  | .error e => (.error e, m)
  | .ok none => (.error .invalidChannel, m)
  | .ok (some channel) =>
    match channel.stream with
    | none => (.error .invalidChannel, m)
    | some stream =>
      if stream.isStereo then (.error .unsupportedOnStereo, m)
      else (.ok (), { m with al := alSource3f m.al channel.source x y z })

/-- `SoundManager::getChannelPosition` (lines 366-377): `out` holds the values of the
caller's `x`, `y`, `z` before the call, the result their values after it. -/
def getChannelPosition (m : SoundManager) (handle : ChannelHandle)
    (out : ALfloat × ALfloat × ALfloat) :
    Except Error (ALfloat × ALfloat × ALfloat) × SoundManager :=
  match m.getChannel handle with
  | .error e => (.error e, m)
  | .ok none => (.error .invalidChannel, m)
  | .ok (some channel) =>
    match channel.stream with
    | none => (.error .invalidChannel, m)
    | some stream =>
      if stream.isStereo then (.error .unsupportedOnStereo, m)
      else
        let (xyz, al) := alGetSource3f m.al channel.source out
        (.ok xyz, { m with al := al })

/-- `SoundManager::setChannelGain` (lines 379-390). -/
def setChannelGain (m : SoundManager) (handle : ChannelHandle) (gain : ALfloat) :
    Except Error Unit × SoundManager :=
  match m.getChannel handle with
  | .error e => (.error e, m)
  | .ok none => (.error .invalidChannel, m)
  | .ok (some channel) =>
    match channel.stream with
    | none => (.error .invalidChannel, m)
    | some stream =>
      if stream.isStereo then (.error .unsupportedOnStereo, m)
      else (.ok (), { m with al := alSourcef m.al channel.source gain })

/-- The loop of `setTypeGain` (lines 401-405) over the entries of the type list.  An
entry whose slot is empty would be a dangling pointer; it is passed over. -/
def applyTypeGain (channels : Nat → Option Channel) (gain : ALfloat) :
    List Nat → OpenAL → OpenAL
  | [], al => al
  | t :: rest, al =>
    match channels t with
    | none => applyTypeGain channels gain rest al
    | some c => applyTypeGain channels gain rest (alSourcef al c.source gain)

/-- `SoundManager::setTypeGain` (lines 392-406). -/
def setTypeGain (m : SoundManager) (type : Nat) (gain : ALfloat) :
    Except Error Unit × SoundManager :=
  if ¬ type < m.kSoundTypeMAX then (.error .assertion, m)
  else
    -- Set the new type gain
    let m := { m with types := Function.update m.types type { m.types type with gain := gain } }
    -- Update all currently playing channels of that type
    (.ok (), { m with al := applyTypeGain m.channels gain (m.types type).list m.al })

/-- `SoundManager::isPlaying(uint16)` (lines 121-145).  The function is `const`, yet it
can send `alSourcePlay`; the state afterwards is returned with the answer. -/
def isPlayingChannel (m : SoundManager) (channel : Nat) : Bool × SoundManager :=
  if channel = 0 then (false, m)
  else match m.channels channel with
    | none => (false, m)
    | some c =>
      let (val, al) := alGetSourcei m.al c.source AL_SOURCE_STATE 0
      if val ≠ AL_PLAYING then
        let (done, al) :=
          if c.stream.isNone || (c.stream.any AudioStream.endOfStream) then
            let (buffersQueued, al) := alGetSourcei al c.source AL_BUFFERS_QUEUED 0
            let (buffersProcessed, al) := alGetSourcei al c.source AL_BUFFERS_PROCESSED 0
            (decide (buffersQueued = buffersProcessed), al)
          else (false, al)
        if done then (false, { m with al := al })
        else if c.state ≠ AL_PLAYING then (true, { m with al := al })
        else (true, { m with al := alSourcePlay al c.source })
      else (true, { m with al := al })

/-- `SoundManager::isPlaying(const ChannelHandle &)` (lines 109-119). -/
def isPlaying (m : SoundManager) (handle : ChannelHandle) : Except Error Bool × SoundManager :=
  if handle.channel = 0 ∨ handle.id = 0 then (.ok false, m)
  else match m.slot handle.channel with
    | .error e => (.error e, m)
    | .ok none => (.ok false, m)
    | .ok (some c) =>
      if c.id ≠ handle.id then (.ok false, m)
      else
        let (r, m) := m.isPlayingChannel handle.channel
        (.ok r, m)

end SoundManager

/-- The first loop of `bufferData(Channel &)` (lines 451-457): `n` processed buffers
are taken off the queue of the source and appended to the free list. -/
def unqueueProcessed : Nat → Nat → List Nat → OpenAL → List Nat × OpenAL
  | 0, _, freeBuffers, al => (freeBuffers, al)
  | n + 1, source, freeBuffers, al =>
    let (alBuffer, al) := alSourceUnqueueBuffers al source 0
    unqueueProcessed n source (freeBuffers ++ [alBuffer]) al

/-- The second loop of `bufferData(Channel &)` (lines 460-468) over the free list:
the outcome, what is left of the free list, the stream and the OpenAL state. -/
def refillBuffers : List Nat → Nat → Option AudioStream → OpenAL →
    Except Error Unit × List Nat × Option AudioStream × OpenAL
  | [], _, stream, al => (.ok (), [], stream, al)
  | buffer :: rest, source, stream, al =>
    match fillBuffer al source buffer stream with
    | (.error e, stream, al) => (.error e, buffer :: rest, stream, al)
    | (.ok false, stream, al) => (.ok (), buffer :: rest, stream, al)
    | (.ok true, stream, al) =>
      refillBuffers rest source stream (alSourceQueueBuffers al source buffer)

/-- `SoundManager::bufferData(Channel &)` (lines 442-469). -/
def bufferDataChannel (channel : Channel) (al : OpenAL) : Except Error Unit × Channel × OpenAL :=
  if channel.stream.isNone || channel.stream.any AudioStream.endOfData then (.ok (), channel, al)
  else
    -- Get the number of buffers that have been processed
    let (buffersProcessed, al) := alGetSourcei al channel.source AL_BUFFERS_PROCESSED 0
    -- Pull all processed buffers from the queue and put them into our free list
    let (freeBuffers, al) := unqueueProcessed buffersProcessed channel.source channel.freeBuffers al
    -- Buffer as long as we still have data and free buffers
    let (r, freeBuffers, stream, al) := refillBuffers freeBuffers channel.source channel.stream al
    (r, { channel with freeBuffers := freeBuffers, stream := stream }, al)

namespace SoundManager

/-- `SoundManager::bufferData(uint16)` (lines 435-440). -/
def bufferData (m : SoundManager) (channel : Nat) : Except Error Unit × SoundManager :=
  if channel = 0 then (.ok (), m)
  else match m.channels channel with
    | none => (.ok (), m)
    | some c =>
      let (r, c, al) := bufferDataChannel c m.al
      (r, { m with al := al }.setSlot channel (some c))

/-- The loop of `update` (lines 479-491) from slot `i` on, with `fuel` slots to go. -/
def updateLoop : Nat → Nat → SoundManager → Except Error Unit × SoundManager
  | 0, _, m => (.ok (), m)
  | fuel + 1, i, m =>
    match m.channels i with
    | none => updateLoop fuel (i + 1) m
    | some _ =>
      -- Free the channel if it is no longer playing
      let (playing, m) := m.isPlayingChannel i
      if !playing then updateLoop fuel (i + 1) (m.freeChannel i)
      else
        -- Try to buffer some more data
        match m.bufferData i with
        | (.error e, m) => (.error e, m)
        | (.ok _, m) => updateLoop fuel (i + 1) m

/-- `SoundManager::update` (lines 476-492). -/
def update (m : SoundManager) : Except Error Unit × SoundManager :=
  updateLoop (m.kChannelCount - 1) 1 m

/-- The loop of `deinit` (lines 79-80) from slot `i` on, with `fuel` slots to go. -/
def freeAll : Nat → Nat → SoundManager → SoundManager
  | 0, _, m => m
  | fuel + 1, i, m => freeAll fuel (i + 1) (m.freeChannel i)

/-- `SoundManager::init` (lines 47-70).  `devOk`, `ctxOk` and `threadOk` tell whether
`alcOpenDevice`, `alcCreateContext` and `createThread` succeed. -/
def init (m : SoundManager) (devOk ctxOk threadOk : Bool) : Except Error Unit × SoundManager :=
  let m := { m with
    channels := fun i => if i < m.kChannelCount then none else m.channels i,
    types := fun i => if i < m.kSoundTypeMAX then { m.types i with gain := ALfloat.one }
                      else m.types i,
    curChannel := 1,
    curID := 1,
    dev := devOk }
  if !devOk then (.error .device, m)
  else
    let m := { m with ctx := ctxOk }
    if !ctxOk then (.error .device, m)
    else if !threadOk then (.error .device, m)
    else (.ok (), { m with thread := true, ready := true })

/-- `SoundManager::deinit` (lines 72-87).  The loop variable is a `uint16`; the loop
ends because `kChannelCount` fits into one. -/
def deinit (m : SoundManager) : SoundManager :=
  if !m.ready then m
  else
    let m := { m with thread := false }
    let m := m.freeAll (m.kChannelCount - 1) 1
    { m with dev := false, ctx := false, ready := false }

end SoundManager

/-! ## Format dispatch -/

/-- Modelled from the spec: `Common::SeekableReadStream` is declared in
`common/stream.h`, which is not among the sources.  It is an opened, seekable byte
stream with a known length (section 6 of the specification): the bytes and the read
position.  A read past the end delivers zero bytes. -/
structure SeekableReadStream where
  bytes : List Nat
  position : Nat := 0
deriving DecidableEq, Repr

namespace SeekableReadStream

def size (s : SeekableReadStream) : Nat := s.bytes.length

def pos (s : SeekableReadStream) : Nat := s.position

def seek (s : SeekableReadStream) (offset : Nat) : SeekableReadStream :=
  { s with position := offset }

def skip (s : SeekableReadStream) (offset : Nat) : SeekableReadStream :=
  { s with position := s.position + offset }

/-- The byte at offset `i`. -/
def byteAt (s : SeekableReadStream) (i : Nat) : Nat := s.bytes.getD i 0 % 256

/-- The big-endian 32-bit value at offset `i`. -/
def be32At (s : SeekableReadStream) (i : Nat) : Nat :=
  s.byteAt i * 2 ^ 24 + s.byteAt (i + 1) * 2 ^ 16 + s.byteAt (i + 2) * 2 ^ 8 + s.byteAt (i + 3)

/-- The little-endian 32-bit value at offset `i`. -/
def le32At (s : SeekableReadStream) (i : Nat) : Nat :=
  s.byteAt i + s.byteAt (i + 1) * 2 ^ 8 + s.byteAt (i + 2) * 2 ^ 16 + s.byteAt (i + 3) * 2 ^ 24

def readUint32BE (s : SeekableReadStream) : Nat × SeekableReadStream :=
  (s.be32At s.position, { s with position := s.position + 4 })

def readUint32LE (s : SeekableReadStream) : Nat × SeekableReadStream :=
  (s.le32At s.position, { s with position := s.position + 4 })

end SeekableReadStream

/-- Modelled from the spec: `Common::SeekableSubReadStream(stream, begin, end, true)`,
the sub-stream of the bytes from offset `begin` up to offset `end`, read from its
start. -/
def SeekableSubReadStream (stream : SeekableReadStream) (begin_ end_ : Nat) :
    SeekableReadStream :=
  { bytes := (stream.bytes.take end_).drop begin_, position := 0 }

/-- The four-character tags `MKID_BE('....')` of `makeAudioStream`. -/
def tagRIFF : Nat := 0x52494646
def tagFmt : Nat := 0x666D7420
def tagFact : Nat := 0x66616374
def tagData : Nat := 0x64617461
def tagBMU : Nat := 0x424D5520
def tagV10 : Nat := 0x56312E30
def tagOggS : Nat := 0x4F676753

/-- The functions of `sound/decoders/mp3.h`, `vorbis.h`, `wave.h` and
`sound/audiostream.h` that the manager calls.  These files are not among the sources;
the functions are parameters.  A decoder returns the stream it built, or null. -/
structure AudioLibrary where
  makeMP3Stream : SeekableReadStream → Option AudioStream
  makeVorbisStream : SeekableReadStream → Option AudioStream
  makeWAVStream : SeekableReadStream → Option AudioStream
  makeLoopingAudioStream : AudioStream → Nat → AudioStream

/-- The chunk walk of the `RIFF` branch of `makeAudioStream` (lines 156-181): the value
of `isMP3` and the stream handed on, or the exception. -/
def walkRIFF (stream : SeekableReadStream) : Except Error (Bool × SeekableReadStream) :=
  let stream := stream.seek 12
  let (tag, stream) := stream.readUint32BE
  if tag ≠ tagFmt then .error .corruptFormat
  else
    -- Skip fmt chunk
    let (fmtSize, stream) := stream.readUint32LE
    let stream := stream.skip fmtSize
    let (tag, stream) := stream.readUint32BE
    let (tag, stream) :=
      if tag = tagFact then
        -- Skip useless chunk and dummied 'data' header
        let (factSize, stream) := stream.readUint32LE
        let stream := stream.skip factSize
        stream.readUint32BE
      else (tag, stream)
    if tag ≠ tagData then .error .corruptFormat
    else
      let (dataSize, stream) := stream.readUint32LE
      if dataSize = 0 then .ok (true, SeekableSubReadStream stream stream.pos stream.size)
      else
        -- Just a regular WAVE
        .ok (false, stream.seek 0)

/-- `SoundManager::makeAudioStream` (lines 147-201). -/
def makeAudioStream (lib : AudioLibrary) (stream : SeekableReadStream) :
    Except Error (Option AudioStream) :=
  let (tag, stream) := stream.readUint32BE
  let branch : Except Error (Option (Bool × SeekableReadStream)) :=
    if tag = 0xfff360c4 then
      -- Modified WAVE file; isMP3 keeps its initial value false
      .ok (some (false, SeekableSubReadStream stream 0x1D6 stream.size))
    else if tag = tagRIFF then
      (walkRIFF stream).map some
    else
      let (isBMU, stream) :=
        if tag = tagBMU then
          let (version, stream) := stream.readUint32BE
          (decide (version = tagV10), stream)
        else (false, stream)
      if isBMU then
        -- BMU files: MP3 with extra header
        .ok (some (true, SeekableSubReadStream stream stream.pos stream.size))
      else if tag = tagOggS then .ok none
      else .error .unknownFormat
  match branch with
  | .error e => .error e
  | .ok none => .ok (lib.makeVorbisStream (stream.seek 0))
  | .ok (some (isMP3, stream)) =>
    if isMP3 then .ok (lib.makeMP3Stream stream) else .ok (lib.makeWAVStream stream)

/-- `SoundManager::playSoundFile` (lines 275-292).  The call of `playAudioStream` in
line 291 leaves out the third argument; its default value is declared in
`sound/sound.h`, and the specification says that the ownership of the stream goes to
the channel, so the argument is `true`. -/
def SoundManager.playSoundFile (m : SoundManager) (lib : AudioLibrary)
    (wavStream : Option SeekableReadStream) (type : Nat) (loop : Bool) :
    Except Error ChannelHandle × SoundManager :=
  match m.checkReady with
  | .error e => (.error e, m)
  | .ok _ =>
    match wavStream with
    | none => (.error .noStream, m)
    | some stream =>
      match makeAudioStream lib stream with
      | .error e => (.error e, m)
      | .ok audioStream =>
        let audioStream :=
          if loop then
            match audioStream with
            | some a =>
              if a.rewindable then some (lib.makeLoopingAudioStream a 0)
              else some a -- warning: cannot be rewound, this will not loop
            | none => none
          else audioStream
        m.playAudioStream audioStream type true

/-! ## Sequences of operations -/

/-- The operations of the manager with their arguments, `update` as run by the sound
thread, and `hardware`: the device moves on to another state behind the manager's
back (sources finish buffers, stop, and so on). -/
inductive Op where
  | init (devOk ctxOk threadOk : Bool)
  | deinit
  | triggerUpdate
  | playAudioStream (audStream : Option AudioStream) (type : Nat) (disposeAfterUse : Bool)
  | startChannel (handle : ChannelHandle)
  | pauseChannel (handle : ChannelHandle) (pause : Bool)
  | stopChannel (handle : ChannelHandle)
  | isPlaying (handle : ChannelHandle)
  | setListenerGain (gain : ALfloat)
  | setChannelPosition (handle : ChannelHandle) (x y z : ALfloat)
  | getChannelPosition (handle : ChannelHandle)
  | setChannelGain (handle : ChannelHandle) (gain : ALfloat)
  | setTypeGain (type : Nat) (gain : ALfloat)
  | update
  | hardware (al : OpenAL)

def Op.isInit : Op → Bool
  | .init _ _ _ => true
  | _ => false

def Op.isPlay : Op → Bool
  | .playAudioStream _ _ _ => true
  | _ => false

/-- The state after one operation. -/
def step (m : SoundManager) : Op → SoundManager
  | .init d c t => (m.init d c t).2
  | .deinit => m.deinit
  | .triggerUpdate => m.triggerUpdate.2
  | .playAudioStream s t d => (m.playAudioStream s t d).2
  | .startChannel h => (m.startChannel h).2
  | .pauseChannel h p => (m.pauseChannel h p).2
  | .stopChannel h => (m.stopChannel h).2.2
  | .isPlaying h => (m.isPlaying h).2
  | .setListenerGain g => (m.setListenerGain g).2
  | .setChannelPosition h x y z => (m.setChannelPosition h x y z).2
  | .getChannelPosition h => (m.getChannelPosition h (ALfloat.zero, ALfloat.zero, ALfloat.zero)).2
  | .setChannelGain h g => (m.setChannelGain h g).2
  | .setTypeGain t g => (m.setTypeGain t g).2
  | .update => m.update.2
  | .hardware al => { m with al := al }

/-- The state after a sequence of operations. -/
def run (m : SoundManager) (ops : List Op) : SoundManager :=
  ops.foldl step m

/-! ## Concrete states -/

/-- An OpenAL context without sources and buffers, on a device that never fails. -/
def OpenAL.idle : OpenAL :=
  { sources := fun _ => none, buffers := fun _ => none, lastName := 0, error := AL_NO_ERROR,
    faults := [], listenerGain := ALfloat.one, calls := [] }

/-- A manager as the constructor leaves it (`_ready(false)`), with empty tables. -/
def SoundManager.constructed (kChannelCount kSoundTypeMAX : Nat) : SoundManager :=
  { kChannelCount := kChannelCount, kSoundTypeMAX := kSoundTypeMAX, ready := false,
    channels := fun _ => none, types := fun _ => ⟨ALfloat.zero, []⟩, curChannel := 0,
    curID := 0, dev := false, ctx := false, thread := false, needUpdate := 0,
    al := OpenAL.idle, deletedStreams := [] }

/-- A manager with four slots and three sound types after a successful `init()`. -/
def smallManager : SoundManager :=
  ((SoundManager.constructed 4 3).init true true true).2

/-- A mono stream of 40000 samples. -/
def monoStream : AudioStream := { ident := 7, stereo := false, rate := 22050, remaining := 40000 }

/-- A stereo stream of 40000 samples. -/
def stereoStream : AudioStream := { ident := 8, stereo := true, rate := 44100, remaining := 40000 }

/-- A stream that has no data left. -/
def emptyStream : AudioStream := { ident := 9, stereo := false, rate := 22050, remaining := 0 }

/-- The small manager after `playAudioStream(monoStream, 1, true)`: slot 1 holds the
channel `playingChannel`. -/
def playingManager : SoundManager :=
  (smallManager.playAudioStream (some monoStream) 1 true).2

/-- The channel in slot 1 of `playingManager`: three buffers were filled and queued,
two are on the free list. -/
def playingChannel : Channel :=
  { id := 1, state := AL_PAUSED,
    stream := some { ident := 7, stereo := false, rate := 22050, remaining := 0, reads := 3 },
    source := 1, disposeAfterUse := true, type := 1, typeIt := true,
    buffers := [2, 3, 4, 5, 6], freeBuffers := [5, 6] }

/-- The small manager after `playAudioStream(emptyStream, 1, true)` and
`startChannel` on the handle (1, 1) it returned: the desired state of the channel in
slot 1 is `AL_PLAYING`, its source was never started and has nothing queued, its
stream is at its end. -/
def startedManager : SoundManager :=
  run smallManager [.playAudioStream (some emptyStream) 1 true, .startChannel ⟨1, 1⟩]

/-- The channel in slot 1 of `startedManager`. -/
def startedChannel : Channel :=
  { id := 1, state := AL_PLAYING, stream := some emptyStream,
    source := 1, disposeAfterUse := true, type := 1, typeIt := true,
    buffers := [2, 3, 4, 5, 6], freeBuffers := [2, 3, 4, 5, 6] }

def AL_INVALID_OPERATION : Nat := 0xA004

/-- The manager `playingManager` after `startChannel` on the handle (1, 1), talking to
a device whose next checked command fails with `AL_INVALID_OPERATION`. -/
def faultyManager : SoundManager :=
  run playingManager
    [.startChannel ⟨1, 1⟩,
     .hardware { (playingManager.startChannel ⟨1, 1⟩).2.al with faults := [AL_INVALID_OPERATION] }]

def AL_OUT_OF_MEMORY : Nat := 0xA005

/-- The small manager on a device that creates a source, creates a buffer, accepts its
data and then fails the first `alSourceQueueBuffers` with `AL_OUT_OF_MEMORY`. -/
def queueFaultManager : SoundManager :=
  { smallManager with
    al := { smallManager.al with
      faults := [AL_NO_ERROR, AL_NO_ERROR, AL_NO_ERROR, AL_OUT_OF_MEMORY] } }

/-- The manager `playingManager` after `playAudioStream(stereoStream, 2, false)`: slot 2
holds the channel `mixedChannel`. -/
def mixedManager : SoundManager :=
  (playingManager.playAudioStream (some stereoStream) 2 false).2

/-- The channel in slot 2 of `mixedManager`: all five buffers were filled and queued. -/
def mixedChannel : Channel :=
  { id := 2, state := AL_PAUSED,
    stream := some { ident := 8, stereo := true, rate := 44100, remaining := 0, reads := 5 },
    source := 7, disposeAfterUse := false, type := 2, typeIt := true,
    buffers := [8, 9, 10, 11, 12], freeBuffers := [] }

/-! ## Generations -/

/-- The id that `newChannel` leaves in `_curID` when it hands out the id `c`
(lines 511-515): one more modulo `2 ^ 16`, and one more again if that is 0. -/
def nextID (c : Nat) : Nat :=
  if (c + 1) % 65536 = 0 then ((c + 1) % 65536 + 1) % 65536 else (c + 1) % 65536

/-- The number of ids `newChannel` hands out before it hands out `x`, when `_curID`
is `cur` (both between 1 and 65535). -/
def idDistance (cur x : Nat) : Nat := (x + 65535 - cur) % 65535

/-- The number of `playAudioStream` calls in a sequence of operations. -/
def countPlays (ops : List Op) : Nat := ops.countP Op.isPlay

/-- The step from `m` to `m'` keeps the size of the table and `_curID`, and creates
no channel: every slot is empty afterwards or holds the id it held before. -/
def KeepsIds (m m' : SoundManager) : Prop :=
  m'.kChannelCount = m.kChannelCount ∧ m'.curID = m.curID ∧
  ∀ i, m'.channels i = none ∨ (m'.channels i).map Channel.id = (m.channels i).map Channel.id

/-- `playAudioStream` on `emptyStream` followed by `update`, `n` times over. -/
def playAndReclaim : Nat → List Op
  | 0 => []
  | n + 1 => .playAudioStream (some emptyStream) 1 true :: .update :: playAndReclaim n

/-- A ready manager without channels, with room for at least one channel and with a
sound type 1, on a device that does not fail and has no error pending. -/
def Idle (m : SoundManager) : Prop :=
  m.ready = true ∧ 2 ≤ m.kChannelCount ∧ 1 < m.kSoundTypeMAX ∧
  (∀ i, 1 ≤ i → m.channels i = none) ∧ m.al.faults = [] ∧ m.al.error = AL_NO_ERROR

/-- The number of occupied slots of the channel table. -/
def liveChannels (m : SoundManager) : Nat :=
  ((List.range m.kChannelCount).filter (fun i => (m.channels i).isSome)).length

/-- A ready manager with two slots, of which slot 1 is occupied: no slot is free. -/
def fullManager : SoundManager :=
  (((SoundManager.constructed 2 3).init true true true).2.playAudioStream
    (some monoStream) 1 true).2

/-- The offset of the tag that follows the `fmt ` chunk of a `RIFF` stream and, if
that tag is `fact`, the `fact` chunk too: the place where `makeAudioStream` wants to
find `data`. -/
def riffDataOffset (s : SeekableReadStream) : Nat :=
  if s.be32At (20 + s.le32At 16) = tagFact then
    28 + s.le32At 16 + s.le32At (24 + s.le32At 16)
  else 20 + s.le32At 16

/-- A library whose decoders answer with streams that tell them apart: `ident` is 1
for the MP3 decoder, 2 for the Vorbis decoder and 3 for the WAVE decoder, `remaining`
is the length of the byte stream they were given; only the streams of the WAVE decoder
can be rewound.  The looping wrapper marks the stream by adding 100 to `ident`. -/
def tracingLibrary : AudioLibrary :=
  { makeMP3Stream := fun s =>
      some { ident := 1, stereo := false, rate := 44100, remaining := s.size }
    makeVorbisStream := fun s =>
      some { ident := 2, stereo := false, rate := 44100, remaining := s.size }
    makeWAVStream := fun s =>
      some { ident := 3, stereo := false, rate := 22050, remaining := s.size,
             rewindable := true }
    makeLoopingAudioStream := fun a _ => { a with ident := a.ident + 100 } }

/-- A stream of 480 bytes that begins with the bytes FF F3 60 C4. -/
def sentinelStream : SeekableReadStream :=
  { bytes := [0xFF, 0xF3, 0x60, 0xC4] ++ List.replicate 476 0 }

/-- A `RIFF` stream with a `fmt ` chunk of 16 bytes, a `fact` chunk of 4 bytes and a
`data` chunk that declares the size 0, followed by 3 bytes. -/
def riffMP3Stream : SeekableReadStream :=
  { bytes := [0x52, 0x49, 0x46, 0x46, 0, 0, 0, 0, 0x57, 0x41, 0x56, 0x45,
              0x66, 0x6D, 0x74, 0x20, 16, 0, 0, 0] ++ List.replicate 16 0 ++
             [0x66, 0x61, 0x63, 0x74, 4, 0, 0, 0, 0, 0, 0, 0,
              0x64, 0x61, 0x74, 0x61, 0, 0, 0, 0, 0xFF, 0xFB, 0x90] }

/-- A `RIFF` stream with a `fmt ` chunk of 16 bytes and a `data` chunk that declares
the size 4. -/
def riffWAVStream : SeekableReadStream :=
  { bytes := [0x52, 0x49, 0x46, 0x46, 0, 0, 0, 0, 0x57, 0x41, 0x56, 0x45,
              0x66, 0x6D, 0x74, 0x20, 16, 0, 0, 0] ++ List.replicate 16 0 ++
             [0x64, 0x61, 0x74, 0x61, 4, 0, 0, 0, 1, 2, 3, 4] }

/-- A `RIFF` stream whose tag at offset 12 is `fmtX`. -/
def brokenRiffStream : SeekableReadStream :=
  { bytes := [0x52, 0x49, 0x46, 0x46, 0, 0, 0, 0, 0x57, 0x41, 0x56, 0x45,
              0x66, 0x6D, 0x74, 0x58, 16, 0, 0, 0] }

/-- A stream that begins with `BMU V1.0`, followed by 2 bytes. -/
def bmuStream : SeekableReadStream :=
  { bytes := [0x42, 0x4D, 0x55, 0x20, 0x56, 0x31, 0x2E, 0x30, 0xFF, 0xFB] }

/-- A stream that begins with `BMU V2.0`. -/
def bmu2Stream : SeekableReadStream :=
  { bytes := [0x42, 0x4D, 0x55, 0x20, 0x56, 0x32, 0x2E, 0x30, 0xFF, 0xFB] }

/-- A stream that begins with `OggS`. -/
def oggStream : SeekableReadStream :=
  { bytes := [0x4F, 0x67, 0x67, 0x53, 0, 2] }

/-! ## Play commands -/

/-- The commands sent between the OpenAL states `al` and `al'` were appended to the
log, and every `alSourcePlay` among them went to a source that satisfies `P`. -/
def PlaysWithin (P : Nat → Prop) (al al' : OpenAL) : Prop :=
  ∃ extra, al'.calls = al.calls ++ extra ∧ ∀ s, ALCall.sourcePlay s ∈ extra → P s

/-- The terminal condition of `isPlaying` (lines 129-135) for the channel `c` on the
source `src`: no stream or a stream at its end, and as many buffers processed as
queued. -/
def Channel.terminal (c : Channel) (src : Source) : Bool :=
  (c.stream.isNone || c.stream.any AudioStream.endOfStream) &&
    decide (src.queue.length = src.processed)

/-- The number of samples `fillBuffer` asks the stream for (lines 416-419). -/
def samplesPerBuffer (s : AudioStream) : Nat :=
  if s.isStereo then kOpenALBufferSize / 2 / 2 else kOpenALBufferSize / 2

/-- The stream `s` is asked for data by `n` buffers one after the other; a buffer
reads once if the stream is not at the end of its data when its turn comes, and then
the next buffer has its turn.  The result is the number of buffers that got data and
the stream afterwards. -/
def readRounds : Nat → AudioStream → Nat × AudioStream
  | 0, s => (0, s)
  | n + 1, s =>
    if s.endOfData then (0, s)
    else
      ((readRounds n (s.readBuffer (samplesPerBuffer s)).2).1 + 1,
       (readRounds n (s.readBuffer (samplesPerBuffer s)).2).2)

/-! ## Refilling -/

/-- The free list of the channel `c` when the second loop of `bufferData` starts: the
free list of before, followed by the processed buffers taken off the queue of the
source `src`. -/
def refillList (c : Channel) (src : Source) : List Nat :=
  c.freeBuffers ++ src.queue.take src.processed

/-- A mono stream of 100000 samples. -/
def longStream : AudioStream :=
  { ident := 10, stereo := false, rate := 22050, remaining := 100000 }

/-- The small manager after `playAudioStream(longStream, 1, true)`, which queued all
five buffers, at a moment when the source is playing and has finished the first two
buffers. -/
def streamingManager : SoundManager :=
  { (smallManager.playAudioStream (some longStream) 1 true).2 with
    al := { (smallManager.playAudioStream (some longStream) 1 true).2.al with
      sources := Function.update (smallManager.playAudioStream (some longStream) 1 true).2.al.sources
        1 (some { state := AL_PLAYING, queue := [2, 3, 4, 5, 6], processed := 2 }) } }

/-- The channel in slot 1 of `streamingManager`: five reads took 81920 samples. -/
def streamingChannel : Channel :=
  { id := 1, state := AL_PAUSED,
    stream := some { ident := 10, stereo := false, rate := 22050, remaining := 18080, reads := 5 },
    source := 1, disposeAfterUse := true, type := 1, typeIt := true,
    buffers := [2, 3, 4, 5, 6], freeBuffers := [] }

/-- The manager `playingManager`, whose stream has no data left, at a moment when the
source is playing and has finished the first two of its three buffers. -/
def drainingManager : SoundManager :=
  { playingManager with
    al := { playingManager.al with
      sources := Function.update playingManager.al.sources 1
        (some { state := AL_PLAYING, queue := [2, 3, 4], processed := 2 }) } }

/-! ## The type lists -/

/-- In the sequence `ops`, run from `m`, `init()` is only called while the manager is
not ready: before the first `init()`, after a failed one, or after `deinit()`. -/
def lifecycle : SoundManager → List Op → Bool
  | _, [] => true
  | m, op :: rest => (!op.isInit || !m.ready) && lifecycle (step m op) rest

/-- The type lists agree with the table: the list of a type holds exactly the occupied
slots whose channel has that type, none twice; every channel of the table is linked
into its list and sits in a slot from 1 to `kChannelCount - 1`; a manager that is not
ready has no channels. -/
def TypeListsOk (m : SoundManager) : Prop :=
  (∀ T i, i ∈ (m.types T).list ↔ ∃ c, m.channels i = some c ∧ c.type = T) ∧
  (∀ T, (m.types T).list.Nodup) ∧
  (∀ i c, m.channels i = some c → c.typeIt = true ∧ 1 ≤ i ∧ i < m.kChannelCount) ∧
  (m.ready = false → ∀ i, m.channels i = none) ∧
  (m.ready = true → 1 ≤ m.curID ∧ m.curID ≤ 65535) ∧
  m.kChannelCount ≤ 65536

/-! ## Threads and the mutex -/

/-- What the application thread has found out inside `isValidChannel`: nothing yet,
the value it returns, or that it has dereferenced a null pointer. -/
inductive Answer where
  | pending
  | returned (b : Bool)
  | nullDereference
  | outsideTable
deriving DecidableEq, Repr

/-- Modelled from the spec: `_mutex` and `Common::StackLock` are declared in headers
that are not among the sources; the mutex is the single mutual-exclusion lock of
section 5 of the specification.  A statement of a thread takes the mutex (the
constructor of a `StackLock`), releases it (its destructor), or is a piece of code
that works on the manager and on the answer of the application thread. -/
inductive Stmt where
  | lock
  | unlock
  | act (f : SoundManager × Answer → SoundManager × Answer)

/-- The application thread and the sound thread with the code they still have to run,
the state they share, and the thread that holds the mutex (`false` is the application
thread, `true` the sound thread). -/
structure Threads where
  shared : SoundManager × Answer
  owner : Option Bool
  app : List Stmt
  sound : List Stmt

/-- Thread `t` runs its next statement.  There is no result when the thread has
finished, when it asks for the mutex while the mutex is taken, or when it releases a
mutex it does not hold. -/
def Threads.step (c : Threads) (t : Bool) : Option Threads :=
  match (if t then c.sound else c.app) with
  | [] => none
  | .lock :: rest =>
    if c.owner = none then
      some (if t then { c with owner := some t, sound := rest }
            else { c with owner := some t, app := rest })
    else none
  | .unlock :: rest =>
    if c.owner = some t then
      some (if t then { c with owner := none, sound := rest }
            else { c with owner := none, app := rest })
    else none
  | .act f :: rest =>
    some (if t then { c with shared := f c.shared, sound := rest }
          else { c with shared := f c.shared, app := rest })

/-- The threads run in the order given by the schedule. -/
def Threads.run : List Bool → Threads → Option Threads
  | [], c => some c
  | t :: ts, c =>
    match c.step t with
    | none => none
    | some c' => Threads.run ts c'

/-- Line 100 of `isValidChannel`: the test of the handle and of the pointer in the
table. -/
def isValidChannelTest (handle : ChannelHandle) (s : SoundManager × Answer) :
    SoundManager × Answer :=
  if handle.channel = 0 ∨ handle.id = 0 then (s.1, .returned false)
  else match s.1.slot handle.channel with
    | .error _ => (s.1, .outsideTable)
    | .ok none => (s.1, .returned false)
    | .ok (some _) => (s.1, .pending)

/-- Lines 103-106 of `isValidChannel`: `_channels[handle.channel]->id` reads the
pointer in the table again and dereferences it. -/
def isValidChannelCompare (handle : ChannelHandle) (s : SoundManager × Answer) :
    SoundManager × Answer :=
  match s.2 with
  | .pending =>
    match s.1.slot handle.channel with
    | .error _ => (s.1, .outsideTable)
    | .ok none => (s.1, .nullDereference)
    | .ok (some c) => if c.id ≠ handle.id then (s.1, .returned false) else (s.1, .returned true)
  | _ => s

/-- `isValidChannel` (lines 99-107) as the application thread runs it: it takes no
lock. -/
def isValidChannelProgram (handle : ChannelHandle) : List Stmt :=
  [.act (isValidChannelTest handle), .act (isValidChannelCompare handle)]

/-- `update` (lines 476-492) as the sound thread runs it: the `StackLock` of line 477
holds the mutex for the whole body. -/
def updateProgram : List Stmt :=
  [.lock, .act (fun s => (s.1.update.2, s.2)), .unlock]

/-- `stopChannel` (lines 339-343) as the application thread runs it: the `StackLock`
of line 340 holds the mutex for the whole body. -/
def stopChannelProgram (handle : ChannelHandle) : List Stmt :=
  [.lock, .act (fun s => ((s.1.stopChannel handle).2.2, s.2)), .unlock]

/-- What can be observed of the threads: the answer of the application thread, the
numbers of statements the threads still have to run, and the holder of the mutex. -/
def Threads.observe (c : Threads) : Answer × Nat × Nat × Option Bool :=
  (c.shared.2, c.app.length, c.sound.length, c.owner)

/-! ## The buffers of a channel -/

/-- A move of the device behind the back of the manager: sources play and finish
buffers.  The sets of sources and buffers, the queues, the name counter, the error
flag and the script of the device stay as they are; a source may change its state and
the number of buffers it has processed, which stays within the length of its queue. -/
def HardwareMove (al al' : OpenAL) : Prop :=
  al'.buffers = al.buffers ∧ al'.lastName = al.lastName ∧ al'.faults = al.faults ∧
  al'.error = al.error ∧
  ∀ s, (al.sources s = none ∧ al'.sources s = none) ∨
    ∃ a b, al.sources s = some a ∧ al'.sources s = some b ∧ b.queue = a.queue ∧
      b.processed ≤ b.queue.length

/-- The sequence `ops`, run from `m`, moves the device by `HardwareMove` only. -/
def SaneRun : SoundManager → List Op → Prop
  | _, [] => True
  | m, op :: rest =>
    (match op with
      | .hardware al => HardwareMove m.al al
      | _ => True) ∧ SaneRun (step m op) rest

/-- The channel `c` owns `kOpenALBufferCount` distinct buffers, all of which exist; its
source exists; and the free list and the queue of the source together hold each buffer
of the channel once. -/
def ChannelOk (al : OpenAL) (c : Channel) : Prop :=
  c.source ≠ 0 ∧ c.source ≤ al.lastName ∧ c.stream.isSome = true ∧
  c.buffers.length = kOpenALBufferCount ∧ c.buffers.Nodup ∧
  (∀ b ∈ c.buffers, b ≤ al.lastName ∧ (al.buffers b).isSome = true) ∧
  ∃ src, al.sources c.source = some src ∧ src.processed ≤ src.queue.length ∧
    (c.freeBuffers ++ src.queue).Perm c.buffers

/-- The device has not failed, every channel of the table is in order, and no two
channels share a source or a buffer. -/
def BuffersOk (m : SoundManager) : Prop :=
  m.al.faults = [] ∧ m.al.error = AL_NO_ERROR ∧ m.kChannelCount ≤ 65536 ∧
  (∀ i c, m.channels i = some c → ChannelOk m.al c) ∧
  (∀ i j c c', i ≠ j → m.channels i = some c → m.channels j = some c' →
    c.source ≠ c'.source ∧ ∀ b, b ∈ c.buffers → b ∉ c'.buffers)

/-- The OpenAL state `al'` differs from `al` in the states, gains and positions of
sources, the listener and the log only. -/
def Gentle (al al' : OpenAL) : Prop :=
  al'.faults = al.faults ∧ al'.error = al.error ∧ al'.lastName = al.lastName ∧
  al'.buffers = al.buffers ∧
  ∀ s, (al'.sources s).map (fun x => (x.queue, x.processed))
    = (al.sources s).map (fun x => (x.queue, x.processed))

/-- The small manager after `playAudioStream(longStream, 1, true)`, `startChannel` on
the handle (1, 1) it returned and one `update()`: the source of the channel in slot 1
plays, all five buffers are in its queue. -/
def startedStreaming : SoundManager :=
  run smallManager [.playAudioStream (some longStream) 1 true, .startChannel ⟨1, 1⟩, .update]

/-- The manager `startedStreaming` at a moment when the source has finished the first
buffer of its queue, on a device that accepts the data of the next buffer and then
fails the next `alSourceQueueBuffers` with `AL_OUT_OF_MEMORY`. -/
def droppingManager : SoundManager :=
  step startedStreaming
    (.hardware { startedStreaming.al with
      sources := Function.update startedStreaming.al.sources 1
        ((startedStreaming.al.sources 1).map fun s => { s with processed := 1 }),
      faults := [AL_NO_ERROR, AL_OUT_OF_MEMORY] })

/-! ## The scan of `update` -/

/-- Every channel of the table has a source that exists, and no two slots share a
source. -/
def VoicesOk (m : SoundManager) : Prop :=
  (∀ i c, m.channels i = some c → (m.al.sources c.source).isSome = true) ∧
  (∀ i j c c', i ≠ j → m.channels i = some c → m.channels j = some c' →
    c.source ≠ c'.source)

/-- C1: for a handle whose channel index lies inside the table, `isValidChannel`
returns a result, and the result is true if and only if neither field of the handle is
0 and the slot of the handle holds a channel whose id is the id of the handle; a handle
whose id differs from the id of the channel in its slot is not valid. -/
theorem isValidChannel_spec (m : SoundManager) (h : ChannelHandle)
    (hin : h.channel < m.kChannelCount) :
    (m.isValidChannel h = .ok true ∨ m.isValidChannel h = .ok false) ∧
    (m.isValidChannel h = .ok true ↔
      h.channel ≠ 0 ∧ h.id ≠ 0 ∧ ∃ c, m.channels h.channel = some c ∧ c.id = h.id) ∧
    (∀ c, m.channels h.channel = some c → c.id ≠ h.id → m.isValidChannel h = .ok false) := by
  unfold SoundManager.isValidChannel SoundManager.slot
  simp only [hin, if_true]
  by_cases h0 : h.channel = 0 ∨ h.id = 0
  · rcases h0 with h0 | h0 <;> simp [h0]
  · simp only [h0, if_false]
    push_neg at h0
    cases hc : m.channels h.channel with
    | none => simp [h0.1, h0.2]
    | some c =>
      by_cases hid : c.id = h.id
      · simp [hid, h0.1, h0.2]
      · simp [hid, h0.1, h0.2]

/-- C1, witness: the handle (1, 1) after `playAudioStream` on the small manager. -/
theorem isValidChannel_spec_witness :
    ((smallManager.playAudioStream (some monoStream) 1 true).2.isValidChannel ⟨1, 1⟩ = .ok true ∨
      (smallManager.playAudioStream (some monoStream) 1 true).2.isValidChannel ⟨1, 1⟩ = .ok false) ∧
    ((smallManager.playAudioStream (some monoStream) 1 true).2.isValidChannel ⟨1, 1⟩ = .ok true ↔
      (1 : Nat) ≠ 0 ∧ (1 : Nat) ≠ 0 ∧
        ∃ c, (smallManager.playAudioStream (some monoStream) 1 true).2.channels 1 = some c ∧
          c.id = 1) ∧
    (∀ c, (smallManager.playAudioStream (some monoStream) 1 true).2.channels 1 = some c →
      c.id ≠ 1 →
      (smallManager.playAudioStream (some monoStream) 1 true).2.isValidChannel ⟨1, 1⟩ = .ok false) :=
  isValidChannel_spec (smallManager.playAudioStream (some monoStream) 1 true).2 ⟨1, 1⟩ (by decide)

/-! ### Deleting sources and buffers -/

theorem OpenAL.raise_sources (al : OpenAL) (e : Nat) : (al.raise e).sources = al.sources := by
  unfold OpenAL.raise; split <;> rfl

theorem OpenAL.raise_buffers (al : OpenAL) (e : Nat) : (al.raise e).buffers = al.buffers := by
  unfold OpenAL.raise; split <;> rfl

theorem OpenAL.raise_calls (al : OpenAL) (e : Nat) : (al.raise e).calls = al.calls := by
  unfold OpenAL.raise; split <;> rfl

theorem OpenAL.raise_lastName (al : OpenAL) (e : Nat) : (al.raise e).lastName = al.lastName := by
  unfold OpenAL.raise; split <;> rfl

theorem OpenAL.raise_faults (al : OpenAL) (e : Nat) : (al.raise e).faults = al.faults := by
  unfold OpenAL.raise; split <;> rfl

theorem alDeleteSources_sources (al : OpenAL) (source : Nat) :
    (alDeleteSources al source).sources = Function.update al.sources source none := by
  unfold alDeleteSources
  simp only [OpenAL.record]
  cases h : al.sources source with
  | none =>
    simp only [OpenAL.raise_sources]
    funext n
    by_cases hn : n = source
    · subst hn; simp [h]
    · simp [hn]
  | some s => rfl

theorem alDeleteSources_buffers (al : OpenAL) (source : Nat) :
    (alDeleteSources al source).buffers = al.buffers := by
  unfold alDeleteSources
  simp only [OpenAL.record]
  cases h : al.sources source <;> simp [OpenAL.raise_buffers]

theorem alDeleteSources_calls (al : OpenAL) (source : Nat) :
    (alDeleteSources al source).calls = al.calls ++ [.deleteSources source] := by
  unfold alDeleteSources
  simp only [OpenAL.record]
  cases h : al.sources source <;> simp [OpenAL.raise_calls]

theorem alDeleteBuffers_sources (al : OpenAL) (buffer : Nat) :
    (alDeleteBuffers al buffer).sources = al.sources := by
  unfold alDeleteBuffers
  simp only [OpenAL.record]
  cases h : al.buffers buffer <;> simp [OpenAL.raise_sources]

theorem alDeleteBuffers_buffers (al : OpenAL) (buffer : Nat) :
    (alDeleteBuffers al buffer).buffers = Function.update al.buffers buffer none := by
  unfold alDeleteBuffers
  simp only [OpenAL.record]
  cases h : al.buffers buffer with
  | none =>
    simp only [OpenAL.raise_buffers]
    funext n
    by_cases hn : n = buffer
    · subst hn; simp [h]
    · simp [hn]
  | some s => rfl

theorem alDeleteBuffers_calls (al : OpenAL) (buffer : Nat) :
    (alDeleteBuffers al buffer).calls = al.calls ++ [.deleteBuffers buffer] := by
  unfold alDeleteBuffers
  simp only [OpenAL.record]
  cases h : al.buffers buffer <;> simp [OpenAL.raise_calls]

theorem deleteAll_sources (l : List Nat) (al : OpenAL) :
    (l.foldl alDeleteBuffers al).sources = al.sources := by
  induction l generalizing al with
  | nil => rfl
  | cons b l ih => simp [List.foldl, ih, alDeleteBuffers_sources]

theorem deleteAll_calls (l : List Nat) (al : OpenAL) :
    (l.foldl alDeleteBuffers al).calls = al.calls ++ l.map ALCall.deleteBuffers := by
  induction l generalizing al with
  | nil => simp
  | cons b l ih => simp [List.foldl, ih, alDeleteBuffers_calls]

theorem deleteAll_buffers (l : List Nat) (al : OpenAL) (n : Nat) :
    (l.foldl alDeleteBuffers al).buffers n = if n ∈ l then none else al.buffers n := by
  induction l generalizing al with
  | nil => simp
  | cons b l ih =>
    simp only [List.foldl, ih, alDeleteBuffers_buffers, List.mem_cons]
    by_cases hl : n ∈ l
    · simp [hl]
    · by_cases hb : n = b
      · subst hb; simp [hl]
      · simp [hl, hb]

/-! ### freeChannel -/

theorem freeChannel_zero (m : SoundManager) : m.freeChannel 0 = m := by
  simp [SoundManager.freeChannel]

theorem freeChannel_empty (m : SoundManager) (i : Nat) (h : m.channels i = none) :
    m.freeChannel i = m := by
  unfold SoundManager.freeChannel
  split
  · rfl
  · simp [h]

theorem freeChannel_channels (m : SoundManager) (i : Nat) (hi : i ≠ 0) :
    (m.freeChannel i).channels = Function.update m.channels i none := by
  unfold SoundManager.freeChannel
  simp only [hi, if_false]
  cases h : m.channels i with
  | none =>
    funext n
    by_cases hn : n = i
    · subst hn; simp [h]
    · simp [hn]
  | some c => rfl

theorem freeChannel_channels_apply (m : SoundManager) (i j : Nat) :
    (m.freeChannel i).channels j = none ∨ (m.freeChannel i).channels j = m.channels j := by
  by_cases hi : i = 0
  · subst hi; rw [freeChannel_zero]; exact Or.inr rfl
  · rw [freeChannel_channels m i hi]
    by_cases hj : j = i
    · subst hj; left; simp
    · right; simp [hj]

/-- C6: releasing an occupied slot empties the slot and no other, sends one
`alDeleteSources` for the channel's source and then one `alDeleteBuffers` for every
entry of the channel's buffer list (so that neither the source nor any of the buffers
exists afterwards), erases the channel from the list of its type, and deletes the
stream exactly when `disposeAfterUse` is set; releasing slot 0 or an empty slot does
nothing. -/
theorem freeChannel_spec (m : SoundManager) (i : Nat) (c : Channel)
    (hi : i ≠ 0) (hc : m.channels i = some c) :
    (m.freeChannel i).channels i = none ∧
    (∀ j, j ≠ i → (m.freeChannel i).channels j = m.channels j) ∧
    (m.freeChannel i).al.calls =
      m.al.calls ++ (if c.source ≠ 0 then [ALCall.deleteSources c.source] else [])
        ++ c.buffers.map ALCall.deleteBuffers ∧
    (c.source ≠ 0 → (m.freeChannel i).al.sources c.source = none) ∧
    (∀ b ∈ c.buffers, (m.freeChannel i).al.buffers b = none) ∧
    (c.typeIt = true →
      ((m.freeChannel i).types c.type).list = ((m.types c.type).list).erase i ∧
      ((m.types c.type).list.Nodup → i ∉ ((m.freeChannel i).types c.type).list)) ∧
    (∀ t, t ≠ c.type → (m.freeChannel i).types t = m.types t) ∧
    (∀ t, ((m.freeChannel i).types t).gain = (m.types t).gain) ∧
    (∀ s, c.stream = some s →
      (m.freeChannel i).deletedStreams =
        if c.disposeAfterUse then m.deletedStreams ++ [s.ident] else m.deletedStreams) ∧
    m.freeChannel 0 = m ∧
    (∀ m0 : SoundManager, ∀ j, m0.channels j = none → m0.freeChannel j = m0) := by
  refine ⟨?_, ?_, ?_, ?_, ?_, ?_, ?_, ?_, ?_, freeChannel_zero m, freeChannel_empty⟩
  · rw [freeChannel_channels m i hi]; simp
  · intro j hj; rw [freeChannel_channels m i hi]; simp [hj]
  · unfold SoundManager.freeChannel
    simp only [hi, if_false, hc, deleteAll_calls]
    by_cases hs : c.source = 0
    · simp [hs]
    · simp [hs, alDeleteSources_calls]
  · intro hs
    unfold SoundManager.freeChannel
    simp only [hi, if_false, hc, deleteAll_sources, hs, ne_eq, not_false_eq_true, if_true,
      alDeleteSources_sources, Function.update_same]
  · intro b hb
    unfold SoundManager.freeChannel
    simp only [hi, if_false, hc, deleteAll_buffers, hb, if_true]
  · intro ht
    have hl : ((m.freeChannel i).types c.type).list = ((m.types c.type).list).erase i := by
      unfold SoundManager.freeChannel
      simp [hi, hc, ht]
    refine ⟨hl, fun hnd => ?_⟩
    rw [hl]
    exact fun hmem => (List.Nodup.mem_erase_iff hnd).1 hmem |>.1 rfl
  · intro t ht
    unfold SoundManager.freeChannel
    simp only [hi, if_false, hc]
    by_cases hl : c.typeIt = true
    · simp [hl, ht]
    · simp [hl]
  · intro t
    unfold SoundManager.freeChannel
    simp only [hi, if_false, hc]
    by_cases hl : c.typeIt = true
    · by_cases ht : t = c.type
      · subst ht; simp [hl]
      · simp [hl, ht]
    · simp [hl]
  · intro s hs
    unfold SoundManager.freeChannel
    simp only [hi, if_false, hc, hs]
    cases c.disposeAfterUse <;> simp

/-- C6, witness: releasing slot 1 of `playingManager`. -/
theorem freeChannel_spec_witness :
    (playingManager.freeChannel 1).channels 1 = none ∧
      (playingManager.freeChannel 1).al.calls =
        playingManager.al.calls ++ [ALCall.deleteSources 1] ++
          [2, 3, 4, 5, 6].map ALCall.deleteBuffers :=
  ⟨(freeChannel_spec playingManager 1 playingChannel (by decide) (by decide)).1,
   (freeChannel_spec playingManager 1 playingChannel (by decide) (by decide)).2.2.1⟩

theorem isValidChannel_true_iff (m : SoundManager) (h : ChannelHandle)
    (hin : h.channel < m.kChannelCount) :
    m.isValidChannel h = .ok true ↔
      h.channel ≠ 0 ∧ h.id ≠ 0 ∧ ∃ c, m.channels h.channel = some c ∧ c.id = h.id := by
  unfold SoundManager.isValidChannel SoundManager.slot
  simp only [hin, if_true]
  by_cases h0 : h.channel = 0 ∨ h.id = 0
  · rcases h0 with h0 | h0 <;> simp [h0]
  · simp only [h0, if_false]
    push_neg at h0
    cases hc : m.channels h.channel with
    | none => simp [h0.1, h0.2]
    | some c =>
      by_cases hid : c.id = h.id
      · simp [hid, h0.1, h0.2]
      · simp [hid, h0.1, h0.2]

theorem isValidChannel_false_iff (m : SoundManager) (h : ChannelHandle)
    (hin : h.channel < m.kChannelCount) :
    m.isValidChannel h = .ok false ↔
      (h.channel = 0 ∨ h.id = 0 ∨ ∀ c, m.channels h.channel = some c → c.id ≠ h.id) := by
  unfold SoundManager.isValidChannel SoundManager.slot
  simp only [hin, if_true]
  by_cases h0 : h.channel = 0 ∨ h.id = 0
  · rcases h0 with h0 | h0 <;> simp [h0]
  · simp only [h0, if_false]
    push_neg at h0
    cases hc : m.channels h.channel with
    | none => simp [h0.1, h0.2]
    | some c =>
      by_cases hid : c.id = h.id
      · simp [hid, h0.1, h0.2]
      · simp [hid, h0.1, h0.2]

theorem isValidChannel_total (m : SoundManager) (h : ChannelHandle)
    (hin : h.channel < m.kChannelCount) :
    m.isValidChannel h = .ok true ∨ m.isValidChannel h = .ok false := by
  unfold SoundManager.isValidChannel SoundManager.slot
  simp only [hin, if_true]
  split
  · exact Or.inr rfl
  · split
    · rename_i heq; cases heq
    · exact Or.inr rfl
    · split
      · exact Or.inr rfl
      · exact Or.inl rfl

theorem stopChannel_valid (m : SoundManager) (h : ChannelHandle)
    (hv : m.isValidChannel h = .ok true) (hin : h.channel < m.kChannelCount) :
    m.stopChannel h = (.ok (), ⟨0, 0⟩, m.freeChannel h.channel) := by
  obtain ⟨h1, h2, c, hc, hid⟩ := (isValidChannel_true_iff m h hin).1 hv
  unfold SoundManager.stopChannel SoundManager.freeChannelHandle SoundManager.slot
  simp [h1, h2, hin, hc, hid]

theorem stopChannel_invalid (m : SoundManager) (h : ChannelHandle)
    (hv : m.isValidChannel h = .ok false) (hin : h.channel < m.kChannelCount) :
    m.stopChannel h = (.ok (), ⟨0, 0⟩, m) := by
  have hv := (isValidChannel_false_iff m h hin).1 hv
  unfold SoundManager.stopChannel SoundManager.freeChannelHandle SoundManager.slot
  by_cases h0 : h.channel ≠ 0 ∧ h.id ≠ 0
  · rcases hv with hv | hv | hv
    · exact absurd hv h0.1
    · exact absurd hv h0.2
    · cases hc : m.channels h.channel with
      | none => simp [h0, hin]
      | some c =>
        have := hv c hc
        simp [h0, hin, Ne.symm this]
  · simp only [h0, if_false]

theorem stopChannel_null (m : SoundManager) :
    m.stopChannel ⟨0, 0⟩ = (.ok (), ⟨0, 0⟩, m) := by
  simp [SoundManager.stopChannel, SoundManager.freeChannelHandle]

/-- C5: for a handle whose channel index lies inside the table, `stopChannel` does not
fail and leaves the handle at (0, 0); if the handle is valid the state afterwards is
the one `freeChannel(h.channel)` produces: slot `h.channel` is empty and every other
slot is as before; if the handle is not valid the whole state (channel table, type
lists, OpenAL) is unchanged, in particular the occupant of the slot of a stale handle
stays; a second `stopChannel` with the handle left by the first changes nothing. -/
theorem stopChannel_spec (m : SoundManager) (h : ChannelHandle)
    (hin : h.channel < m.kChannelCount) :
    (m.stopChannel h).1 = .ok () ∧
    (m.stopChannel h).2.1 = ⟨0, 0⟩ ∧
    (m.isValidChannel h = .ok true →
      (m.stopChannel h).2.2 = m.freeChannel h.channel ∧
      (m.stopChannel h).2.2.channels h.channel = none ∧
      ∀ j, j ≠ h.channel → (m.stopChannel h).2.2.channels j = m.channels j) ∧
    (m.isValidChannel h = .ok false → (m.stopChannel h).2.2 = m) ∧
    (∀ c, m.channels h.channel = some c → c.id ≠ h.id →
      (m.stopChannel h).2.2.channels h.channel = some c) ∧
    (m.stopChannel h).2.2.stopChannel (m.stopChannel h).2.1 =
      (.ok (), ⟨0, 0⟩, (m.stopChannel h).2.2) := by
  rcases isValidChannel_total m h hin with hv | hv
  · have h1 := (isValidChannel_true_iff m h hin).1 hv
    rw [stopChannel_valid m h hv hin]
    refine ⟨rfl, rfl, fun _ => ⟨rfl, ?_, ?_⟩, ?_, ?_, stopChannel_null _⟩
    · simp [freeChannel_channels m h.channel h1.1]
    · intro j hj; simp [freeChannel_channels m h.channel h1.1, hj]
    · intro hf; rw [hv] at hf; cases hf
    · intro c hc hid
      obtain ⟨_, _, c', hc', hid'⟩ := h1
      rw [hc] at hc'; cases hc'; exact absurd hid' hid
  · rw [stopChannel_invalid m h hv hin]
    refine ⟨rfl, rfl, ?_, fun _ => rfl, fun c hc _ => hc, stopChannel_null _⟩
    intro ht; rw [hv] at ht; cases ht

/-- C5, witness: `stopChannel` on the handle (1, 1) in `playingManager`. -/
theorem stopChannel_spec_witness :
    (playingManager.stopChannel ⟨1, 1⟩).1 = .ok () ∧
      (playingManager.stopChannel ⟨1, 1⟩).2.1 = ⟨0, 0⟩ :=
  ⟨(stopChannel_spec playingManager ⟨1, 1⟩ (by decide)).1,
   (stopChannel_spec playingManager ⟨1, 1⟩ (by decide)).2.1⟩

theorem alGetSourcei_state (al : OpenAL) (source : Nat) (src : Source) (out : Nat)
    (h : al.sources source = some src) :
    alGetSourcei al source AL_SOURCE_STATE out = (src.state, al) := by
  simp [alGetSourcei, h]

theorem alGetSourcei_queued (al : OpenAL) (source : Nat) (src : Source) (out : Nat)
    (h : al.sources source = some src) :
    alGetSourcei al source AL_BUFFERS_QUEUED out = (src.queue.length, al) := by
  simp [alGetSourcei, h, AL_SOURCE_STATE, AL_BUFFERS_QUEUED]

theorem alGetSourcei_processed (al : OpenAL) (source : Nat) (src : Source) (out : Nat)
    (h : al.sources source = some src) :
    alGetSourcei al source AL_BUFFERS_PROCESSED out = (src.processed, al) := by
  simp [alGetSourcei, h, AL_SOURCE_STATE, AL_BUFFERS_QUEUED, AL_BUFFERS_PROCESSED]

/-- C7, counterexample: in `startedManager` slot 1 is occupied by a channel whose
desired state is `AL_PLAYING`, and `isPlaying(1)` returns false. -/
theorem isPlaying_desired_playing_false :
    startedManager.channels 1 = some startedChannel ∧
    startedChannel.state = AL_PLAYING ∧
    startedManager.al.sources startedChannel.source = some {} ∧
    (startedManager.isPlayingChannel 1).1 = false := by
  decide

/-- C7, amended: for an occupied slot whose source exists, `isPlaying(slot)` returns
true if and only if the source's state is playing, or the channel has a stream that
has not reached `endOfStream`, or the number of queued buffers differs from the
number of processed buffers. -/
theorem isPlayingChannel_iff (m : SoundManager) (i : Nat) (c : Channel) (src : Source)
    (hi : i ≠ 0) (hc : m.channels i = some c) (hs : m.al.sources c.source = some src) :
    (m.isPlayingChannel i).1 = true ↔
      (src.state = AL_PLAYING ∨ (∃ s, c.stream = some s ∧ s.endOfStream = false) ∨
        src.queue.length ≠ src.processed) := by
  unfold SoundManager.isPlayingChannel
  simp only [hi, if_false, hc, alGetSourcei_state _ _ _ _ hs, alGetSourcei_queued _ _ _ _ hs,
    alGetSourcei_processed _ _ _ _ hs]
  by_cases hp : src.state = AL_PLAYING
  · simp [hp]
  · cases hst : c.stream with
    | none =>
      by_cases hq : src.queue.length = src.processed
      · simp [hp, hq]
      · by_cases hd : c.state = AL_PLAYING <;> simp [hp, hq, hd]
    | some s =>
      by_cases he : s.endOfStream = true
      · by_cases hq : src.queue.length = src.processed
        · simp [hp, hq, he]
        · by_cases hd : c.state = AL_PLAYING <;> simp [hp, hq, hd, he]
      · by_cases hd : c.state = AL_PLAYING <;> simp [hp, hd, he]

/-- C7, witness: slot 1 of `playingManager`, whose source has three buffers queued. -/
theorem isPlayingChannel_iff_witness :
    (playingManager.isPlayingChannel 1).1 = true ↔
      (AL_INITIAL = AL_PLAYING ∨
        (∃ s, playingChannel.stream = some s ∧ s.endOfStream = false) ∨
        [2, 3, 4].length ≠ 0) :=
  isPlayingChannel_iff playingManager 1 playingChannel
    { queue := [2, 3, 4] } (by decide) (by decide) (by decide)

theorem getChannel_valid (m : SoundManager) (h : ChannelHandle)
    (hin : h.channel < m.kChannelCount) (hv : m.isValidChannel h = .ok true) :
    ∃ c, m.channels h.channel = some c ∧ c.id = h.id ∧ m.getChannel h = .ok (some c) := by
  obtain ⟨h1, h2, c, hc, hid⟩ := (isValidChannel_true_iff m h hin).1 hv
  refine ⟨c, hc, hid, ?_⟩
  simp [SoundManager.getChannel, SoundManager.slot, h1, h2, hin, hc, hid]

theorem getChannel_invalid (m : SoundManager) (h : ChannelHandle)
    (hin : h.channel < m.kChannelCount) (hv : m.isValidChannel h = .ok false) :
    m.getChannel h = .ok none := by
  have hv := (isValidChannel_false_iff m h hin).1 hv
  unfold SoundManager.getChannel SoundManager.slot
  by_cases h0 : h.channel = 0 ∨ h.id = 0
  · simp [h0]
  · push_neg at h0
    rcases hv with hv | hv | hv
    · exact absurd hv h0.1
    · exact absurd hv h0.2
    · cases hc : m.channels h.channel with
      | none => simp [h0, hin]
      | some c => simp [h0, hin, hv c hc]

theorem alSource3f_sources (al : OpenAL) (source : Nat) (src : Source) (x y z : ALfloat)
    (h : al.sources source = some src) :
    (alSource3f al source x y z).sources =
      Function.update al.sources source (some { src with position := (x, y, z) }) := by
  simp [alSource3f, OpenAL.record, h]

theorem alSourcef_sources (al : OpenAL) (source : Nat) (src : Source) (g : ALfloat)
    (h : al.sources source = some src) :
    (alSourcef al source g).sources =
      Function.update al.sources source (some { src with gain := g }) := by
  simp [alSourcef, OpenAL.record, h]

/-- C9: for a handle inside the table, `setChannelPosition`, `getChannelPosition` and
`setChannelGain` fail with "Invalid channel" and change nothing when the handle is not
valid; for a valid handle whose channel has a stream and a source they fail with the
stereo error and change nothing when the stream is stereo, and otherwise succeed:
the position of the source becomes the one given, the position of the source is
returned, the gain of the source becomes the one given; no other source and no slot
changes. -/
theorem channel_position_gain_spec (m : SoundManager) (h : ChannelHandle)
    (hin : h.channel < m.kChannelCount) (x y z g : ALfloat) (out : ALfloat × ALfloat × ALfloat) :
    (m.isValidChannel h = .ok false →
      m.setChannelPosition h x y z = (.error .invalidChannel, m) ∧
      m.getChannelPosition h out = (.error .invalidChannel, m) ∧
      m.setChannelGain h g = (.error .invalidChannel, m)) ∧
    (m.isValidChannel h = .ok true →
      ∀ c s src, m.channels h.channel = some c → c.stream = some s →
        m.al.sources c.source = some src →
        (s.isStereo = true →
          m.setChannelPosition h x y z = (.error .unsupportedOnStereo, m) ∧
          m.getChannelPosition h out = (.error .unsupportedOnStereo, m) ∧
          m.setChannelGain h g = (.error .unsupportedOnStereo, m)) ∧
        (s.isStereo = false →
          (m.setChannelPosition h x y z).1 = .ok () ∧
          (m.setChannelPosition h x y z).2.al.sources =
            Function.update m.al.sources c.source (some { src with position := (x, y, z) }) ∧
          (m.setChannelPosition h x y z).2.channels = m.channels ∧
          m.getChannelPosition h out = (.ok src.position, m) ∧
          (m.setChannelGain h g).1 = .ok () ∧
          (m.setChannelGain h g).2.al.sources =
            Function.update m.al.sources c.source (some { src with gain := g }) ∧
          (m.setChannelGain h g).2.channels = m.channels)) := by
  constructor
  · intro hv
    have hg := getChannel_invalid m h hin hv
    simp [SoundManager.setChannelPosition, SoundManager.getChannelPosition,
      SoundManager.setChannelGain, hg]
  · intro hv c s src hc hs hsrc
    obtain ⟨c', hc', -, hg⟩ := getChannel_valid m h hin hv
    rw [hc] at hc'; cases hc'
    constructor
    · intro hst
      simp [SoundManager.setChannelPosition, SoundManager.getChannelPosition,
        SoundManager.setChannelGain, hg, hs, hst]
    · intro hst
      simp [SoundManager.setChannelPosition, SoundManager.getChannelPosition,
        SoundManager.setChannelGain, hg, hs, hst, alSource3f_sources _ _ _ _ _ _ hsrc,
        alSourcef_sources _ _ _ _ hsrc, alGetSource3f, hsrc]

/-- C9, witness: `setChannelPosition` on the mono channel of `playingManager`. -/
theorem channel_position_gain_spec_witness :
    (playingManager.setChannelPosition ⟨1, 1⟩ ⟨1⟩ ⟨2⟩ ⟨3⟩).1 = .ok () ∧
    (playingManager.setChannelPosition ⟨1, 1⟩ ⟨1⟩ ⟨2⟩ ⟨3⟩).2.al.sources =
      Function.update playingManager.al.sources 1
        (some { queue := [2, 3, 4], position := (⟨1⟩, ⟨2⟩, ⟨3⟩) }) :=
  ⟨(((channel_position_gain_spec playingManager ⟨1, 1⟩ (by decide) ⟨1⟩ ⟨2⟩ ⟨3⟩ ⟨4⟩
      (⟨0⟩, ⟨0⟩, ⟨0⟩)).2 (by decide) playingChannel _ { queue := [2, 3, 4] }
      (by decide) rfl (by decide)).2 (by decide)).1,
   (((channel_position_gain_spec playingManager ⟨1, 1⟩ (by decide) ⟨1⟩ ⟨2⟩ ⟨3⟩ ⟨4⟩
      (⟨0⟩, ⟨0⟩, ⟨0⟩)).2 (by decide) playingChannel _ { queue := [2, 3, 4] }
      (by decide) rfl (by decide)).2 (by decide)).2.1⟩

/-- C10, counterexample: the handle (1, 1) is valid in `faultyManager` and the desired
state of its channel is `AL_PLAYING`; `pauseChannel(h, true)` sends the pause, OpenAL
reports an error, the call fails and the desired state is still `AL_PLAYING`. -/
theorem pauseChannel_hardware_error :
    faultyManager.isValidChannel ⟨1, 1⟩ = .ok true ∧
    (faultyManager.pauseChannel ⟨1, 1⟩ true).1 = .error .hardware ∧
    ((faultyManager.pauseChannel ⟨1, 1⟩ true).2.channels 1).map Channel.state
      = some AL_PLAYING ∧
    AL_PLAYING ≠ AL_PAUSED := by
  decide

theorem triggerUpdate_channels (m : SoundManager) : m.triggerUpdate.2.channels = m.channels := by
  unfold SoundManager.triggerUpdate
  cases h : m.checkReady <;> rfl

theorem triggerUpdate_al (m : SoundManager) : m.triggerUpdate.2.al = m.al := by
  unfold SoundManager.triggerUpdate
  cases h : m.checkReady <;> rfl

theorem alSourcePause_calls (al : OpenAL) (source : Nat) :
    (alGetError (alSourcePause al source)).2.calls = al.calls ++ [.sourcePause source] := by
  unfold alSourcePause alGetError OpenAL.attempt OpenAL.record
  cases hf : al.faults with
  | nil =>
    simp only [AL_NO_ERROR, ne_eq, not_true_eq_false, if_false]
    cases hs : al.sources source with
    | none => simp [OpenAL.raise_calls]
    | some s => simp only []; split <;> rfl
  | cons e rest =>
    simp only []
    split
    · simp [OpenAL.raise_calls]
    · cases hs : al.sources source with
      | none => simp [OpenAL.raise_calls]
      | some s => simp only []; split <;> rfl

/-- C10, amended: for a valid handle inside the table whose channel has a stream,
`startChannel(h)` and `pauseChannel(h, false)` set the desired state to `AL_PLAYING`;
`pauseChannel(h, true)` sends `alSourcePause` for the channel's source and, when
OpenAL reports no error, sets the desired state to `AL_PAUSED`, while it fails with
the hardware error and leaves the channel as it was when OpenAL reports an error;
none of the three changes which slots are occupied or a stored id.  For a handle
that is not valid each of them fails with "Invalid channel" and changes nothing. -/
theorem start_pause_spec (m : SoundManager) (h : ChannelHandle)
    (hin : h.channel < m.kChannelCount) :
    (m.isValidChannel h = .ok true →
      ∀ c, m.channels h.channel = some c → c.stream.isSome = true →
        (m.startChannel h).2.channels h.channel = some { c with state := AL_PLAYING } ∧
        (m.pauseChannel h false).2.channels h.channel = some { c with state := AL_PLAYING } ∧
        (m.pauseChannel h true).2.al.calls = m.al.calls ++ [ALCall.sourcePause c.source] ∧
        ((alGetError (alSourcePause m.al c.source)).1 = AL_NO_ERROR →
          (m.pauseChannel h true).2.channels h.channel = some { c with state := AL_PAUSED }) ∧
        ((alGetError (alSourcePause m.al c.source)).1 ≠ AL_NO_ERROR →
          (m.pauseChannel h true).1 = .error .hardware ∧
          (m.pauseChannel h true).2.channels = m.channels) ∧
        (∀ p j, ((m.startChannel h).2.channels j).map Channel.id = (m.channels j).map Channel.id ∧
          ((m.pauseChannel h p).2.channels j).map Channel.id
            = (m.channels j).map Channel.id)) ∧
    (m.isValidChannel h = .ok false →
      m.startChannel h = (.error .invalidChannel, m) ∧
      ∀ p, m.pauseChannel h p = (.error .invalidChannel, m)) := by
  constructor
  · intro hv c hc hs
    obtain ⟨c', hc', -, hg⟩ := getChannel_valid m h hin hv
    rw [hc] at hc'; cases hc'
    have hs' : c.stream.isNone = false := by
      cases hst : c.stream with
      | none => rw [hst] at hs; cases hs
      | some s => rfl
    have hstart : (m.startChannel h).2.channels
        = Function.update m.channels h.channel (some { c with state := AL_PLAYING }) := by
      simp [SoundManager.startChannel, hg, hs', triggerUpdate_channels, SoundManager.setSlot]
    have hresume : (m.pauseChannel h false).2.channels
        = Function.update m.channels h.channel (some { c with state := AL_PLAYING }) := by
      simp [SoundManager.pauseChannel, hg, hs', triggerUpdate_channels, SoundManager.setSlot]
    have hidmap : ∀ (st : Nat) (j : Nat),
        (Function.update m.channels h.channel (some { c with state := st }) j).map Channel.id
          = (m.channels j).map Channel.id := by
      intro st j
      by_cases hj : j = h.channel
      · subst hj; simp [hc]
      · simp [hj]
    refine ⟨by rw [hstart]; simp, by rw [hresume]; simp, ?_, ?_, ?_, ?_⟩
    · by_cases he : (alGetError (alSourcePause m.al c.source)).1 = AL_NO_ERROR
      · simp [SoundManager.pauseChannel, hg, hs', he, triggerUpdate_al, SoundManager.setSlot,
          alSourcePause_calls]
      · simp [SoundManager.pauseChannel, hg, hs', he, alSourcePause_calls]
    · intro he
      simp [SoundManager.pauseChannel, hg, hs', he, triggerUpdate_channels, SoundManager.setSlot]
    · intro he
      simp [SoundManager.pauseChannel, hg, hs', he]
    · intro p j
      refine ⟨by rw [hstart]; exact hidmap _ j, ?_⟩
      cases p with
      | false => rw [hresume]; exact hidmap _ j
      | true =>
        by_cases he : (alGetError (alSourcePause m.al c.source)).1 = AL_NO_ERROR
        · have : (m.pauseChannel h true).2.channels
              = Function.update m.channels h.channel (some { c with state := AL_PAUSED }) := by
            simp [SoundManager.pauseChannel, hg, hs', he, triggerUpdate_channels,
              SoundManager.setSlot]
          rw [this]; exact hidmap _ j
        · have : (m.pauseChannel h true).2.channels = m.channels := by
            simp [SoundManager.pauseChannel, hg, hs', he]
          rw [this]
  · intro hv
    have hg := getChannel_invalid m h hin hv
    simp [SoundManager.startChannel, SoundManager.pauseChannel, hg]

/-- C10, witness: `startChannel` and `pauseChannel` on the handle (1, 1) in
`playingManager`. -/
theorem start_pause_spec_witness :
    (playingManager.startChannel ⟨1, 1⟩).2.channels 1
      = some { playingChannel with state := AL_PLAYING } ∧
    (playingManager.pauseChannel ⟨1, 1⟩ true).2.al.calls
      = playingManager.al.calls ++ [ALCall.sourcePause 1] :=
  ⟨((start_pause_spec playingManager ⟨1, 1⟩ (by decide)).1 (by decide) playingChannel
      (by decide) (by decide)).1,
   ((start_pause_spec playingManager ⟨1, 1⟩ (by decide)).1 (by decide) playingChannel
      (by decide) (by decide)).2.2.1⟩

/-- C4, the code at the failing input: `playAudioStream(monoStream, 1, true)` on
`queueFaultManager` fails with the hardware error and leaves every slot empty and the
source deleted, but the buffer 2 that the call generated and filled still exists: the
only deletion sent to OpenAL is the one of the source. -/
theorem playAudioStream_leaks_buffer :
    (queueFaultManager.playAudioStream (some monoStream) 1 true).1 = .error .hardware ∧
    (∀ i, i < 4 → (queueFaultManager.playAudioStream (some monoStream) 1 true).2.channels i = none) ∧
    (queueFaultManager.playAudioStream (some monoStream) 1 true).2.al.sources 1 = none ∧
    queueFaultManager.al.buffers 2 = none ∧
    (queueFaultManager.playAudioStream (some monoStream) 1 true).2.al.buffers 2
      = some ⟨AL_FORMAT_MONO16, 32768, 22050⟩ ∧
    (queueFaultManager.playAudioStream (some monoStream) 1 true).2.al.calls
      = [.genSources, .genBuffers, .bufferData 2 32768, .sourceQueueBuffers 1 2,
         .deleteSources 1] := by
  decide

/-! ### Creating buffers -/

theorem OpenAL.raise_error_ne (al : OpenAL) (e : Nat) (he : e ≠ AL_NO_ERROR) :
    (al.raise e).error ≠ AL_NO_ERROR := by
  unfold OpenAL.raise
  split
  · exact he
  · assumption

/-- A checked `alGenBuffers` that reports no error has created the buffer
`lastName + 1` and nothing else. -/
theorem alGenBuffers_ok (al : OpenAL) (out : Nat)
    (h : (alGetError (alGenBuffers al out).2).1 = AL_NO_ERROR) :
    (alGenBuffers al out).1 = al.lastName + 1 ∧
    (alGetError (alGenBuffers al out).2).2.buffers
      = Function.update al.buffers (al.lastName + 1) (some {}) ∧
    (alGetError (alGenBuffers al out).2).2.sources = al.sources ∧
    (alGetError (alGenBuffers al out).2).2.lastName = al.lastName + 1 := by
  unfold alGenBuffers OpenAL.attempt OpenAL.record alGetError at *
  cases hf : al.faults with
  | nil => simp [AL_NO_ERROR]
  | cons e rest =>
    rw [hf] at h
    by_cases he : e = AL_NO_ERROR
    · simp [he]
    · simp only [ne_eq, he, not_false_eq_true, if_true] at h
      exact absurd h (OpenAL.raise_error_ne _ _ he)

/-- A checked `alGenSources` that reports no error has created the source
`lastName + 1` and nothing else. -/
theorem alGenSources_ok (al : OpenAL) (out : Nat)
    (h : (alGetError (alGenSources al out).2).1 = AL_NO_ERROR) :
    (alGenSources al out).1 = al.lastName + 1 ∧
    (alGetError (alGenSources al out).2).2.sources
      = Function.update al.sources (al.lastName + 1) (some {}) ∧
    (alGetError (alGenSources al out).2).2.buffers = al.buffers ∧
    (alGetError (alGenSources al out).2).2.lastName = al.lastName + 1 := by
  unfold alGenSources OpenAL.attempt OpenAL.record alGetError at *
  cases hf : al.faults with
  | nil => simp [AL_NO_ERROR]
  | cons e rest =>
    rw [hf] at h
    by_cases he : e = AL_NO_ERROR
    · simp [he]
    · simp only [ne_eq, he, not_false_eq_true, if_true] at h
      exact absurd h (OpenAL.raise_error_ne _ _ he)

theorem alBufferData_facts (al : OpenAL) (buffer : Nat) (format : Nat) (size freq : Nat) :
    (alBufferData al buffer format size freq).sources = al.sources ∧
    (alBufferData al buffer format size freq).lastName = al.lastName ∧
    ∀ n, ((alBufferData al buffer format size freq).buffers n).isSome = (al.buffers n).isSome := by
  unfold alBufferData OpenAL.attempt OpenAL.record
  cases hf : al.faults with
  | nil =>
    simp only [AL_NO_ERROR, ne_eq, not_true_eq_false, if_false]
    cases hb : al.buffers buffer with
    | none => simp [OpenAL.raise_sources, OpenAL.raise_lastName, OpenAL.raise_buffers]
    | some b =>
      refine ⟨rfl, rfl, fun n => ?_⟩
      by_cases hn : n = buffer
      · subst hn; simp [hb]
      · simp [hn]
  | cons e rest =>
    simp only []
    split
    · simp [OpenAL.raise_sources, OpenAL.raise_lastName, OpenAL.raise_buffers]
    · cases hb : al.buffers buffer with
      | none => simp [OpenAL.raise_sources, OpenAL.raise_lastName, OpenAL.raise_buffers]
      | some b =>
        refine ⟨rfl, rfl, fun n => ?_⟩
        by_cases hn : n = buffer
        · subst hn; simp [hb]
        · simp [hn]

theorem alSourceQueueBuffers_facts (al : OpenAL) (source buffer : Nat) :
    (alSourceQueueBuffers al source buffer).buffers = al.buffers ∧
    (alSourceQueueBuffers al source buffer).lastName = al.lastName ∧
    (∀ n, ((alSourceQueueBuffers al source buffer).sources n).isSome = (al.sources n).isSome) ∧
    (∀ n, n ≠ source → (alSourceQueueBuffers al source buffer).sources n = al.sources n) := by
  unfold alSourceQueueBuffers OpenAL.attempt OpenAL.record
  cases hf : al.faults with
  | nil =>
    simp only [AL_NO_ERROR, ne_eq, not_true_eq_false, if_false]
    cases hs : al.sources source with
    | none => simp [OpenAL.raise_sources, OpenAL.raise_lastName, OpenAL.raise_buffers]
    | some s =>
      cases hb : al.buffers buffer with
      | none => simp [OpenAL.raise_sources, OpenAL.raise_lastName, OpenAL.raise_buffers]
      | some b =>
        refine ⟨rfl, rfl, fun n => ?_, fun n hn => ?_⟩
        · by_cases hn : n = source
          · subst hn; simp [hs]
          · simp [hn]
        · simp [hn]
  | cons e rest =>
    simp only []
    split
    · simp [OpenAL.raise_sources, OpenAL.raise_lastName, OpenAL.raise_buffers]
    · cases hs : al.sources source with
      | none => simp [OpenAL.raise_sources, OpenAL.raise_lastName, OpenAL.raise_buffers]
      | some s =>
        cases hb : al.buffers buffer with
        | none => simp [OpenAL.raise_sources, OpenAL.raise_lastName, OpenAL.raise_buffers]
        | some b =>
          refine ⟨rfl, rfl, fun n => ?_, fun n hn => ?_⟩
          · by_cases hn : n = source
            · subst hn; simp [hs]
            · simp [hn]
          · simp [hn]

/-- What `fillBuffer` leaves untouched, whatever its outcome: the identity of the
stream, the set of sources, the set of buffers and the name counter. -/
theorem fillBuffer_facts (al : OpenAL) (source buffer : Nat) (stream : Option AudioStream) :
    ((fillBuffer al source buffer stream).2.1).map AudioStream.ident
      = stream.map AudioStream.ident ∧
    (fillBuffer al source buffer stream).2.2.sources = al.sources ∧
    (fillBuffer al source buffer stream).2.2.lastName = al.lastName ∧
    ∀ n, ((fillBuffer al source buffer stream).2.2.buffers n).isSome = (al.buffers n).isSome := by
  unfold fillBuffer
  cases stream with
  | none => simp
  | some s =>
    simp only []
    split
    · simp
    · simp [alGetError, alBufferData_facts, AudioStream.readBuffer]

/-- A successful run of the buffer loop: the channel keeps its identity, `n` new
buffers with the names `lastName + 1, ..., lastName + n` are appended to its buffer
list, and the source and all buffers, old and new, exist afterwards. -/
theorem createBuffers_ok (n : Nat) : ∀ (c : Channel) (al : OpenAL) (c' : Channel) (al' : OpenAL),
    createBuffers n c al = (.ok (), c', al') →
    c'.id = c.id ∧ c'.state = c.state ∧ c'.source = c.source ∧
    c'.disposeAfterUse = c.disposeAfterUse ∧ c'.type = c.type ∧ c'.typeIt = c.typeIt ∧
    c'.stream.map AudioStream.ident = c.stream.map AudioStream.ident ∧
    c'.buffers = c.buffers ++ List.range' (al.lastName + 1) n ∧
    al'.lastName = al.lastName + n ∧
    (∀ k, (al'.sources k).isSome = (al.sources k).isSome) ∧
    (∀ b, (al.buffers b).isSome = true ∨ (al.lastName < b ∧ b ≤ al.lastName + n) →
      (al'.buffers b).isSome = true) := by
  induction n with
  | zero =>
    intro c al c' al' h
    simp only [createBuffers, Prod.mk.injEq, true_and] at h
    obtain ⟨rfl, rfl⟩ := h
    refine ⟨rfl, rfl, rfl, rfl, rfl, rfl, rfl, by simp, rfl, fun _ => rfl, ?_⟩
    rintro b (hb | ⟨h1, h2⟩)
    · exact hb
    · omega
  | succ n ih =>
    intro c al c' al' h
    rw [createBuffers] at h
    by_cases he : (alGetError (alGenBuffers al 0).2).1 = AL_NO_ERROR
    · obtain ⟨g1, g2, g3, g4⟩ := alGenBuffers_ok al 0 he
      simp only [he, ne_eq, not_true_eq_false, if_false] at h
      obtain ⟨f1, f2, f3, f4⟩ := fillBuffer_facts (alGetError (alGenBuffers al 0).2).2 c.source
        (alGenBuffers al 0).1 c.stream
      rcases hf : fillBuffer (alGetError (alGenBuffers al 0).2).2 c.source
        (alGenBuffers al 0).1 c.stream with ⟨r, st, al3⟩
      rw [hf] at h f1 f2 f3 f4
      simp only [] at f1 f2 f3 f4
      have hnew : ∀ b, (al.buffers b).isSome = true ∨ (al.lastName < b ∧ b ≤ al.lastName + (n + 1)) →
          (al3.buffers b).isSome = true ∨ (al.lastName + 1 < b ∧ b ≤ al.lastName + 1 + n) := by
        intro b hb
        rw [f4, g2]
        by_cases hb1 : b = al.lastName + 1
        · subst hb1; left; simp
        · rcases hb with hb | hb
          · left; simpa [hb1] using hb
          · right; omega
      cases r with
      | error e => simp at h
      | ok filled =>
        cases filled with
        | true =>
          simp only [] at h
          by_cases hq : (alGetError (alSourceQueueBuffers al3 c.source (alGenBuffers al 0).1)).1
              = AL_NO_ERROR
          · simp only [hq, ne_eq, not_true_eq_false, if_false] at h
            obtain ⟨q1, q2, q3, -⟩ := alSourceQueueBuffers_facts al3 c.source (alGenBuffers al 0).1
            obtain ⟨i1, i2, i3, i4, i5, i6, i7, i8, i9, i10, i11⟩ := ih _ _ _ _ h
            simp only [alGetError] at i8 i9 i10 i11
            refine ⟨i1, i2, i3, i4, i5, i6, by rw [i7]; exact f1, ?_, ?_, ?_, ?_⟩
            · rw [i8, q2, f3, g4, g1, List.range'_succ, List.append_assoc]; rfl
            · rw [i9, q2, f3, g4]; omega
            · intro k; rw [i10, q3, f2, g3]
            · intro b hb
              apply i11
              rw [q1, q2, f3, g4]
              exact hnew b hb
          · simp [hq] at h
        | false =>
          simp only [] at h
          obtain ⟨i1, i2, i3, i4, i5, i6, i7, i8, i9, i10, i11⟩ := ih _ _ _ _ h
          refine ⟨i1, i2, i3, i4, i5, i6, by rw [i7]; exact f1, ?_, ?_, ?_, ?_⟩
          · rw [i8, f3, g4, g1, List.range'_succ, List.append_assoc]; rfl
          · rw [i9, f3, g4]; omega
          · intro k; rw [i10, f2, g3]
          · intro b hb
            apply i11
            rw [f3, g4]
            exact hnew b hb
    · simp [he] at h

/-! ### Allocating a slot -/

theorem newChannelScan_of_found (m : SoundManager) (fuel i found cur : Nat) (h : found ≠ 0) :
    m.newChannelScan fuel i found cur = (found, cur) := by
  cases fuel with
  | zero => rfl
  | succ n => simp [SoundManager.newChannelScan, h]

/-- A slot returned by the scan is the index, reduced to 16 bits, of an empty slot of
the table. -/
theorem newChannelScan_found (m : SoundManager) (fuel : Nat) : ∀ (i cur : Nat),
    (m.newChannelScan fuel i 0 cur).1 ≠ 0 →
    ∃ j, i ≤ j ∧ j < i + fuel ∧ m.channels j = none ∧
      (m.newChannelScan fuel i 0 cur).1 = j % 65536 := by
  induction fuel with
  | zero => intro i cur h; simp [SoundManager.newChannelScan] at h
  | succ n ih =>
    intro i cur h
    rw [SoundManager.newChannelScan] at h ⊢
    simp only [ne_eq, not_true_eq_false, if_false] at h ⊢
    by_cases hfree : (m.channels i).isNone = true
    · simp only [hfree, if_true] at h ⊢
      by_cases hz : i % 65536 = 0
      · rw [hz] at h ⊢
        obtain ⟨j, h1, h2, h3, h4⟩ := ih (i + 1) _ h
        exact ⟨j, by omega, by omega, h3, h4⟩
      · rw [newChannelScan_of_found m n (i + 1) _ _ hz]
        exact ⟨i, le_refl i, by omega, by simpa using hfree, rfl⟩
    · simp only [hfree] at h ⊢
      obtain ⟨j, h1, h2, h3, h4⟩ := ih (i + 1) _ h
      exact ⟨j, by omega, by omega, h3, h4⟩

/-- A successful `newChannel`: the handle names a slot other than 0, found empty by
the scan, and carries the current id; only `_curChannel` and `_curID` change. -/
theorem newChannel_ok (m : SoundManager) (h : ChannelHandle) (m' : SoundManager)
    (hnew : m.newChannel = (.ok h, m')) :
    h.channel ≠ 0 ∧ h.id = m.curID ∧
    (∃ j, j < m.kChannelCount ∧ m.channels j = none ∧ h.channel = j % 65536) ∧
    ∃ cc, m' = { m with curChannel := cc,
                        curID := if (m.curID + 1) % 65536 = 0 then ((m.curID + 1) % 65536 + 1) % 65536
                                 else (m.curID + 1) % 65536 } := by
  unfold SoundManager.newChannel at hnew
  by_cases hf : (m.newChannelScan m.kChannelCount 0 0 m.curChannel).1 = 0
  · simp [hf] at hnew
  · obtain ⟨j, -, h2, h3, h4⟩ := newChannelScan_found m m.kChannelCount 0 m.curChannel hf
    simp only [hf, if_false, Prod.mk.injEq, Except.ok.injEq] at hnew
    obtain ⟨rfl, rfl⟩ := hnew
    exact ⟨hf, rfl, ⟨j, by omega, h3, h4⟩, _, rfl⟩

theorem newChannel_error (m : SoundManager) (e : Error) (m' : SoundManager)
    (hnew : m.newChannel = (.error e, m')) :
    ∃ cc, m' = { m with curChannel := cc } := by
  unfold SoundManager.newChannel at hnew
  by_cases hf : (m.newChannelScan m.kChannelCount 0 0 m.curChannel).1 = 0
  · simp only [hf, if_true, Prod.mk.injEq] at hnew
    exact ⟨_, hnew.2.symm⟩
  · simp [hf] at hnew

/-- A successful `try` block of `playAudioStream`: slot `index` holds the finished
channel, which is linked into the list of its type, has the new source
`lastName + 1` with the gain of the type, and the five new buffers
`lastName + 2, ..., lastName + 6`. -/
theorem setupChannel_ok (m : SoundManager) (index : Nat) (channel : Channel) (m' : SoundManager)
    (h : m.setupChannel index channel = (.ok (), m')) :
    ∃ c src, m'.channels = Function.update m.channels index (some c) ∧
      c.id = channel.id ∧ c.state = channel.state ∧ c.disposeAfterUse = channel.disposeAfterUse ∧
      c.type = channel.type ∧ c.typeIt = true ∧
      c.stream.map AudioStream.ident = channel.stream.map AudioStream.ident ∧
      c.source = m.al.lastName + 1 ∧
      m'.al.sources c.source = some src ∧ src.gain = (m.types channel.type).gain ∧
      c.buffers = channel.buffers ++ List.range' (m.al.lastName + 2) kOpenALBufferCount ∧
      (∀ b, m.al.lastName + 1 < b ∧ b ≤ m.al.lastName + 1 + kOpenALBufferCount →
        (m'.al.buffers b).isSome = true) ∧
      m'.types = Function.update m.types channel.type
        { m.types channel.type with list := (m.types channel.type).list ++ [index] } ∧
      m'.kChannelCount = m.kChannelCount := by
  unfold SoundManager.setupChannel at h
  cases hs : channel.stream with
  | none => simp [hs] at h
  | some s =>
    simp only [hs] at h
    by_cases he : (alGetError (alGenSources m.al channel.source).2).1 = AL_NO_ERROR
    · obtain ⟨g1, g2, g3, g4⟩ := alGenSources_ok m.al channel.source he
      simp only [he, ne_eq, not_true_eq_false, if_false] at h
      rcases hcb : createBuffers kOpenALBufferCount
          { channel with source := (alGenSources m.al channel.source).1, stream := some s }
          (alGetError (alGenSources m.al channel.source).2).2 with ⟨r, c2, al2⟩
      rw [hcb] at h
      cases r with
      | error e => simp at h
      | ok u =>
        obtain ⟨i1, i2, i3, i4, i5, i6, i7, i8, i9, i10, i11⟩ := createBuffers_ok _ _ _ _ _ hcb
        simp only [Prod.mk.injEq, true_and] at h
        subst h
        simp only [] at i1 i2 i3 i4 i5 i6 i7 i8 i9 i10 i11
        have hsrc : (al2.sources (m.al.lastName + 1)).isSome = true := by
          rw [i10, g2]; simp
        obtain ⟨src, hsrc⟩ := Option.isSome_iff_exists.1 hsrc
        refine ⟨{ c2 with typeIt := true }, { src with gain := (m.types channel.type).gain },
          ?_, i1, i2, i4, i5, rfl, ?_, ?_, ?_, rfl, ?_, ?_, ?_, rfl⟩
        · simp [SoundManager.setSlot, SoundManager.setList]
        · simp only [i7, hs]
        · simp only [i3, g1]
        · simp only [SoundManager.setSlot, SoundManager.setList, i3, g1, i5,
            alSourcef_sources _ _ _ _ hsrc, Function.update_same]
        · simp only [i8, g4]
        · intro b hb
          have : (al2.buffers b).isSome = true := by
            apply i11; right; rw [g4]; exact hb
          simpa [SoundManager.setSlot, SoundManager.setList, alSourcef, OpenAL.record, i3, g1,
            hsrc] using this
        · simp [SoundManager.setSlot, SoundManager.setList, i5]
    · simp [he] at h

/-- A successful `playAudioStream` went through a successful `newChannel` and a
successful `try` block. -/
theorem playAudioStream_ok_inv (m : SoundManager) (s : AudioStream) (T : Nat) (d : Bool)
    (h : ChannelHandle) (hok : (m.playAudioStream (some s) T d).1 = .ok h) :
    ∃ m1 m2, m.newChannel = (.ok h, m1) ∧
      (m1.setSlot h.channel (some
          { id := h.id, state := AL_PAUSED, stream := some s, source := 0,
            disposeAfterUse := d, type := T, typeIt := false })).setupChannel h.channel
          { id := h.id, state := AL_PAUSED, stream := some s, source := 0,
            disposeAfterUse := d, type := T, typeIt := false } = (.ok (), m2) ∧
      m.playAudioStream (some s) T d = (.ok h, m2) := by
  unfold SoundManager.playAudioStream at hok ⊢
  by_cases hT : T < m.kSoundTypeMAX
  · simp only [hT, not_true_eq_false, if_false] at hok ⊢
    cases hr : m.checkReady with
    | error e => simp [hr] at hok
    | ok u =>
      simp only [hr] at hok ⊢
      rcases hn : m.newChannel with ⟨r, m1⟩
      simp only [hn] at hok ⊢
      cases r with
      | error e => simp at hok
      | ok h' =>
        simp only [] at hok ⊢
        rcases hsu : (m1.setSlot h'.channel (some
          { id := h'.id, state := AL_PAUSED, stream := some s, source := 0,
            disposeAfterUse := d, type := T, typeIt := false })).setupChannel h'.channel
          { id := h'.id, state := AL_PAUSED, stream := some s, source := 0,
            disposeAfterUse := d, type := T, typeIt := false } with ⟨r2, m2⟩
        simp only [hsu] at hok ⊢
        cases r2 with
        | error e => simp at hok
        | ok u2 =>
          simp only [Except.ok.injEq] at hok
          subst hok
          exact ⟨m1, m2, rfl, hsu, rfl⟩
  · simp [hT] at hok

/-- C3: if `playAudioStream(stream, T, dispose)` succeeds on a manager whose id
counter is not 0, whose table has at most `2 ^ 16` slots and whose type lists name
occupied slots only, then the returned handle is valid; its channel has the desired
state `AL_PAUSED`, the type `T`, the given stream and ownership flag, a source other
than 0 that exists and has the gain stored for `T` before the call, and exactly five
pairwise distinct buffers, all of which exist; the channel is once in the list of `T`
and in no list of another type. -/
theorem playAudioStream_success (m : SoundManager) (s : AudioStream) (T : Nat) (d : Bool)
    (h : ChannelHandle)
    (hK : m.kChannelCount ≤ 65536) (hid : m.curID ≠ 0)
    (hlists : ∀ t i, i ∈ (m.types t).list → m.channels i ≠ none)
    (hok : (m.playAudioStream (some s) T d).1 = .ok h) :
    (m.playAudioStream (some s) T d).2.isValidChannel h = .ok true ∧
    ∃ c src, (m.playAudioStream (some s) T d).2.channels h.channel = some c ∧
      c.id = h.id ∧ c.state = AL_PAUSED ∧ c.type = T ∧
      (∃ s', c.stream = some s' ∧ s'.ident = s.ident) ∧ c.disposeAfterUse = d ∧
      c.source ≠ 0 ∧
      (m.playAudioStream (some s) T d).2.al.sources c.source = some src ∧
      src.gain = (m.types T).gain ∧
      c.buffers.length = kOpenALBufferCount ∧ c.buffers.Nodup ∧
      (∀ b ∈ c.buffers, ((m.playAudioStream (some s) T d).2.al.buffers b).isSome = true) ∧
      ((m.playAudioStream (some s) T d).2.types T).list.count h.channel = 1 ∧
      ∀ t, t ≠ T → h.channel ∉ ((m.playAudioStream (some s) T d).2.types t).list := by
  obtain ⟨m1, m2, hn, hsu, hp⟩ := playAudioStream_ok_inv m s T d h hok
  obtain ⟨n1, n2, ⟨j, hj1, hj2, hj3⟩, cc, rfl⟩ := newChannel_ok m h _ hn
  obtain ⟨c, src, s1, s2, s3, s4, s5, s6, s7, s8, s9, s10, s11, s12, s13, s14⟩ :=
    setupChannel_ok _ _ _ _ hsu
  simp only [SoundManager.setSlot] at s1 s8 s10 s11 s12 s13 s14
  have hjj : h.channel = j := by rw [hj3]; exact Nat.mod_eq_of_lt (by omega)
  have hempty : m.channels h.channel = none := by rw [hjj]; exact hj2
  have hnot : ∀ t, h.channel ∉ (m.types t).list := fun t hmem => hlists t _ hmem hempty
  rw [hp]
  simp only []
  have hc : m2.channels h.channel = some c := by rw [s1]; simp
  refine ⟨?_, c, src, hc, s2, s3, s5, ?_, s4, ?_, s9, s10, ?_, ?_, ?_, ?_, ?_⟩
  · apply (isValidChannel_true_iff m2 h (by rw [s14]; omega)).2
    exact ⟨n1, by rw [n2]; exact hid, c, hc, s2⟩
  · cases hst : c.stream with
    | none => rw [hst] at s7; simp at s7
    | some s' => rw [hst] at s7; exact ⟨s', rfl, by simpa using s7⟩
  · rw [s8]; omega
  · rw [s11]; simp
  · rw [s11]; simpa using List.nodup_range' _ _
  · intro b hb
    rw [s11] at hb
    simp only [List.nil_append, List.mem_range'_1] at hb
    exact s12 b (by omega)
  · rw [s13]
    simp [List.count_eq_zero_of_not_mem (hnot T)]
  · intro t ht
    rw [s13]
    simpa [ht] using hnot t

/-- C3, witness: `playAudioStream(monoStream, 1, true)` on the small manager. -/
theorem playAudioStream_success_witness :
    (smallManager.playAudioStream (some monoStream) 1 true).2.isValidChannel ⟨1, 1⟩ = .ok true :=
  (playAudioStream_success smallManager monoStream 1 true ⟨1, 1⟩ (by decide) (by decide)
    (by intro t i hi; simp [smallManager, SoundManager.init, SoundManager.constructed] at hi
        split at hi <;> simp at hi)
    (by decide)).1

/-! ### The gain of a sound type -/

theorem alSourcef_sources_apply (al : OpenAL) (source : Nat) (g : ALfloat) (n : Nat) :
    (alSourcef al source g).sources n =
      if n = source then (al.sources n).map (fun s => { s with gain := g }) else al.sources n := by
  cases hs : al.sources source with
  | none =>
    have : (alSourcef al source g).sources = al.sources := by
      simp [alSourcef, OpenAL.record, hs, OpenAL.raise_sources]
    rw [this]
    by_cases hn : n = source
    · subst hn; simp [hs]
    · simp [hn]
  | some s =>
    rw [alSourcef_sources _ _ _ _ hs]
    by_cases hn : n = source
    · subst hn; simp [hs]
    · simp [hn]

/-- The gain loop leaves a source alone that belongs to no channel of the list. -/
theorem applyTypeGain_other (channels : Nat → Option Channel) (g : ALfloat) (n : Nat) :
    ∀ (l : List Nat) (al : OpenAL),
    (∀ t ∈ l, ∀ c, channels t = some c → c.source ≠ n) →
    (SoundManager.applyTypeGain channels g l al).sources n = al.sources n := by
  intro l
  induction l with
  | nil => intro al _; rfl
  | cons t rest ih =>
    intro al h
    have hrest : ∀ t' ∈ rest, ∀ c, channels t' = some c → c.source ≠ n :=
      fun t' ht' => h t' (List.mem_cons_of_mem _ ht')
    rw [SoundManager.applyTypeGain]
    cases hc : channels t with
    | none => exact ih al hrest
    | some c =>
      simp only []
      rw [ih _ hrest, alSourcef_sources_apply]
      have := h t (List.mem_cons_self _ _) c hc
      simp [Ne.symm this]

/-- The gain loop keeps a source that already has the gain `g` at that gain. -/
theorem applyTypeGain_keeps (channels : Nat → Option Channel) (g : ALfloat) (n : Nat) :
    ∀ (l : List Nat) (al : OpenAL),
    (∃ src, al.sources n = some src ∧ src.gain = g) →
    ∃ src, (SoundManager.applyTypeGain channels g l al).sources n = some src ∧ src.gain = g := by
  intro l
  induction l with
  | nil => intro al h; exact h
  | cons t rest ih =>
    intro al h
    rw [SoundManager.applyTypeGain]
    cases hc : channels t with
    | none => exact ih al h
    | some c =>
      simp only []
      apply ih
      obtain ⟨src, h1, h2⟩ := h
      rw [alSourcef_sources_apply]
      by_cases hn : n = c.source
      · subst hn
        exact ⟨{ src with gain := g }, by simp [h1], rfl⟩
      · exact ⟨src, by simp [hn, h1], h2⟩

/-- The gain loop sets the gain of the source of every channel of the list. -/
theorem applyTypeGain_sets (channels : Nat → Option Channel) (g : ALfloat) (n : Nat) :
    ∀ (l : List Nat) (al : OpenAL),
    (∃ t ∈ l, ∃ c, channels t = some c ∧ c.source = n) →
    (al.sources n).isSome = true →
    ∃ src, (SoundManager.applyTypeGain channels g l al).sources n = some src ∧ src.gain = g := by
  intro l
  induction l with
  | nil => intro al h; simp at h
  | cons t rest ih =>
    intro al h hsome
    obtain ⟨src, hsrc⟩ := Option.isSome_iff_exists.1 hsome
    rw [SoundManager.applyTypeGain]
    obtain ⟨t', ht', c', hc', hn⟩ := h
    rcases List.mem_cons.1 ht' with rfl | hmem
    · rw [hc']
      simp only []
      apply applyTypeGain_keeps
      rw [alSourcef_sources_apply]
      exact ⟨{ src with gain := g }, by simp [hn, hsrc], rfl⟩
    · cases hc : channels t with
      | none => exact ih al ⟨t', hmem, c', hc', hn⟩ hsome
      | some c =>
        simp only []
        apply ih _ ⟨t', hmem, c', hc', hn⟩
        rw [alSourcef_sources_apply]
        by_cases hk : n = c.source
        · subst hk; simp [hsrc]
        · simp [hk, hsrc]

/-- C8: `setTypeGain(T, g)` for a sound type `T` on a manager in which the list of `T`
names exactly the occupied slots whose channel has type `T`, the sources of these
channels exist, and no channel of another type shares a source with one of them:
the gain stored for `T` is `g` and the gain of the source of every channel of type
`T` is `g`; the entries of all other types, the list of `T`, the channel table and
the source of every channel of another type are unchanged. -/
theorem setTypeGain_spec (m : SoundManager) (T : Nat) (g : ALfloat)
    (hT : T < m.kSoundTypeMAX)
    (hlisted : ∀ i, i ∈ (m.types T).list → ∃ c, m.channels i = some c ∧ c.type = T)
    (hlinked : ∀ i c, m.channels i = some c → c.type = T → i ∈ (m.types T).list)
    (hvoice : ∀ i c, m.channels i = some c → c.type = T → (m.al.sources c.source).isSome = true)
    (hown : ∀ i j c d, m.channels i = some c → m.channels j = some d → c.type = T → d.type ≠ T →
      c.source ≠ d.source) :
    (m.setTypeGain T g).1 = .ok () ∧
    ((m.setTypeGain T g).2.types T).gain = g ∧
    ((m.setTypeGain T g).2.types T).list = (m.types T).list ∧
    (∀ t, t ≠ T → (m.setTypeGain T g).2.types t = m.types t) ∧
    (m.setTypeGain T g).2.channels = m.channels ∧
    (∀ i c, m.channels i = some c → c.type = T →
      ∃ src, (m.setTypeGain T g).2.al.sources c.source = some src ∧ src.gain = g) ∧
    (∀ i c, m.channels i = some c → c.type ≠ T →
      (m.setTypeGain T g).2.al.sources c.source = m.al.sources c.source) := by
  have hkey : m.setTypeGain T g = (.ok (),
      { m with types := Function.update m.types T { m.types T with gain := g },
               al := SoundManager.applyTypeGain m.channels g (m.types T).list m.al }) := by
    unfold SoundManager.setTypeGain
    simp [hT]
  rw [hkey]
  refine ⟨rfl, by simp, by simp, fun t ht => by simp [ht], rfl, ?_, ?_⟩
  · intro i c hc hty
    exact applyTypeGain_sets m.channels g c.source _ _ ⟨i, hlinked i c hc hty, c, hc, rfl⟩
      (hvoice i c hc hty)
  · intro i c hc hty
    apply applyTypeGain_other
    intro t ht c' hc'
    obtain ⟨c'', h1, h2⟩ := hlisted t ht
    rw [hc'] at h1; cases h1
    exact hown t i c' c hc' hc h2 hty

theorem mixedManager_channels (i : Nat) :
    mixedManager.channels i =
      if i = 2 then some mixedChannel else if i = 1 then some playingChannel else none := by
  have h : mixedManager.channels = Function.update (Function.update (Function.update
      (Function.update smallManager.channels 1 _) 1 (some playingChannel)) 2 _) 2
      (some mixedChannel) := rfl
  have h0 : smallManager.channels = fun i => if i < 4 then none else none := rfl
  rw [h, h0]
  by_cases h2 : i = 2 <;> by_cases h1 : i = 1 <;> simp [h1, h2, Function.update_apply]

theorem mixedManager_channels_cases (i : Nat) (c : Channel) (h : mixedManager.channels i = some c) :
    (i = 1 ∧ c = playingChannel) ∨ (i = 2 ∧ c = mixedChannel) := by
  rw [mixedManager_channels] at h
  by_cases h2 : i = 2
  · simp only [h2, if_true, Option.some.injEq] at h
    exact Or.inr ⟨h2, h.symm⟩
  · by_cases h1 : i = 1
    · simp only [h1, if_true, Option.some.injEq] at h
      exact Or.inl ⟨h1, by simpa using h.symm⟩
    · simp [h1, h2] at h

/-- C8, witness: `setTypeGain(1, 0.0)` on `mixedManager`, which has a channel of type 1
and a channel of type 2. -/
theorem setTypeGain_spec_witness :
    (mixedManager.setTypeGain 1 ⟨0⟩).1 = .ok () ∧
    ((mixedManager.setTypeGain 1 ⟨0⟩).2.types 1).gain = ⟨0⟩ ∧
    (∃ src, (mixedManager.setTypeGain 1 ⟨0⟩).2.al.sources playingChannel.source = some src ∧
      src.gain = ⟨0⟩) ∧
    (mixedManager.setTypeGain 1 ⟨0⟩).2.al.sources mixedChannel.source
      = mixedManager.al.sources mixedChannel.source := by
  have key := setTypeGain_spec mixedManager 1 ⟨0⟩ (by decide)
    (by
      intro i hi
      have hl : (mixedManager.types 1).list = [1] := by decide
      rw [hl] at hi
      simp only [List.mem_singleton] at hi
      subst hi
      exact ⟨playingChannel, by decide, by decide⟩)
    (by
      intro i c hc hty
      rcases mixedManager_channels_cases i c hc with ⟨rfl, rfl⟩ | ⟨rfl, rfl⟩
      · decide
      · exact absurd hty (by decide))
    (by
      intro i c hc hty
      rcases mixedManager_channels_cases i c hc with ⟨rfl, rfl⟩ | ⟨rfl, rfl⟩
      · decide
      · exact absurd hty (by decide))
    (by
      intro i j c d hc hd hty hty'
      rcases mixedManager_channels_cases i c hc with ⟨rfl, rfl⟩ | ⟨rfl, rfl⟩
      · rcases mixedManager_channels_cases j d hd with ⟨rfl, rfl⟩ | ⟨rfl, rfl⟩
        · exact absurd hty hty'
        · decide
      · exact absurd hty (by decide))
  exact ⟨key.1, key.2.1, key.2.2.2.2.2.1 1 playingChannel (by decide) (by decide),
    key.2.2.2.2.2.2 2 mixedChannel (by decide) (by decide)⟩

/-! ### Operations that create no channel -/

theorem KeepsIds.refl (m : SoundManager) : KeepsIds m m :=
  ⟨rfl, rfl, fun _ => Or.inr rfl⟩

theorem KeepsIds.trans {a b c : SoundManager} (h1 : KeepsIds a b) (h2 : KeepsIds b c) :
    KeepsIds a c := by
  refine ⟨h2.1.trans h1.1, h2.2.1.trans h1.2.1, fun i => ?_⟩
  rcases h2.2.2 i with h | h
  · exact Or.inl h
  · rcases h1.2.2 i with h' | h'
    · left
      rw [h'] at h
      cases hc : c.channels i with
      | none => rfl
      | some x => rw [hc] at h; simp at h
    · right; exact h.trans h'

/-- Rewriting an occupied slot with a channel of the same id creates no channel. -/
theorem setSlot_keeps (m : SoundManager) (i : Nat) (c c' : Channel)
    (hc : m.channels i = some c) (hid : c'.id = c.id) : KeepsIds m (m.setSlot i (some c')) := by
  refine ⟨rfl, rfl, fun j => ?_⟩
  right
  show (Function.update m.channels i (some c') j).map Channel.id = _
  by_cases hj : j = i
  · subst hj; simp [hc, hid]
  · simp [hj]

theorem KeepsIds.of_channels (m m' : SoundManager)
    (hK : m'.kChannelCount = m.kChannelCount) (hcur : m'.curID = m.curID)
    (hch : m'.channels = m.channels) : KeepsIds m m' :=
  ⟨hK, hcur, fun i => Or.inr (by rw [hch])⟩

theorem freeChannel_kChannelCount (m : SoundManager) (i : Nat) :
    (m.freeChannel i).kChannelCount = m.kChannelCount := by
  unfold SoundManager.freeChannel
  split
  · rfl
  · split <;> rfl

theorem freeChannel_curID (m : SoundManager) (i : Nat) :
    (m.freeChannel i).curID = m.curID := by
  unfold SoundManager.freeChannel
  split
  · rfl
  · split <;> rfl

theorem freeChannel_keeps (m : SoundManager) (i : Nat) : KeepsIds m (m.freeChannel i) :=
  ⟨freeChannel_kChannelCount m i, freeChannel_curID m i, fun j => by
    rcases freeChannel_channels_apply m i j with h | h
    · exact Or.inl h
    · exact Or.inr (by rw [h])⟩

theorem freeChannelHandle_keeps (m : SoundManager) (h : ChannelHandle) :
    KeepsIds m (m.freeChannelHandle h).2.2 := by
  unfold SoundManager.freeChannelHandle
  split
  · split
    · exact KeepsIds.refl m
    · exact KeepsIds.refl m
    · split
      · exact freeChannel_keeps m _
      · exact KeepsIds.refl m
  · exact KeepsIds.refl m

theorem triggerUpdate_keeps (m : SoundManager) : KeepsIds m m.triggerUpdate.2 := by
  unfold SoundManager.triggerUpdate
  cases h : m.checkReady with
  | error e => exact KeepsIds.refl m
  | ok u => exact KeepsIds.of_channels _ _ rfl rfl rfl

theorem getChannel_some (m : SoundManager) (h : ChannelHandle) (c : Channel)
    (hg : m.getChannel h = .ok (some c)) : m.channels h.channel = some c := by
  unfold SoundManager.getChannel SoundManager.slot at hg
  by_cases h0 : h.channel = 0 ∨ h.id = 0
  · simp [h0] at hg
  · by_cases hin : h.channel < m.kChannelCount
    · cases hc : m.channels h.channel with
      | none => simp [h0, hin, hc] at hg
      | some c' =>
        by_cases hid : c'.id = h.id
        · simp [h0, hin, hc, hid] at hg
          rw [hg]
        · simp [h0, hin, hc, hid] at hg
    · simp [h0, hin] at hg

theorem startChannel_keeps (m : SoundManager) (h : ChannelHandle) :
    KeepsIds m (m.startChannel h).2 := by
  unfold SoundManager.startChannel
  rcases hg : m.getChannel h with e | oc
  · exact KeepsIds.refl m
  · cases oc with
    | none => exact KeepsIds.refl m
    | some c =>
      simp only []
      split
      · exact KeepsIds.refl m
      · have hc := getChannel_some m h c hg
        exact (setSlot_keeps m h.channel c { c with state := AL_PLAYING } hc rfl).trans
          (triggerUpdate_keeps _)

theorem pauseChannel_keeps (m : SoundManager) (h : ChannelHandle) (p : Bool) :
    KeepsIds m (m.pauseChannel h p).2 := by
  unfold SoundManager.pauseChannel
  rcases hg : m.getChannel h with e | oc
  · exact KeepsIds.refl m
  · cases oc with
    | none => exact KeepsIds.refl m
    | some c =>
      have hc := getChannel_some m h c hg
      simp only []
      split
      · exact KeepsIds.refl m
      · split
        · split
          · exact KeepsIds.of_channels _ _ rfl rfl rfl
          · exact (KeepsIds.of_channels m
              { m with al := (alGetError (alSourcePause m.al c.source)).2 } rfl rfl rfl).trans
              ((setSlot_keeps _ h.channel c { c with state := AL_PAUSED } hc rfl).trans
                (triggerUpdate_keeps _))
        · exact (setSlot_keeps m h.channel c { c with state := AL_PLAYING } hc rfl).trans
            (triggerUpdate_keeps _)

theorem setListenerGain_keeps (m : SoundManager) (g : ALfloat) :
    KeepsIds m (m.setListenerGain g).2 := by
  unfold SoundManager.setListenerGain
  cases h : m.checkReady with
  | error e => exact KeepsIds.refl m
  | ok u => exact KeepsIds.of_channels _ _ rfl rfl rfl

theorem setChannelPosition_keeps (m : SoundManager) (h : ChannelHandle) (x y z : ALfloat) :
    KeepsIds m (m.setChannelPosition h x y z).2 := by
  unfold SoundManager.setChannelPosition
  rcases hg : m.getChannel h with e | oc
  · exact KeepsIds.refl m
  · cases oc with
    | none => exact KeepsIds.refl m
    | some c =>
      simp only []
      split
      · exact KeepsIds.refl m
      · split
        · exact KeepsIds.refl m
        · exact KeepsIds.of_channels _ _ rfl rfl rfl

theorem getChannelPosition_keeps (m : SoundManager) (h : ChannelHandle)
    (out : ALfloat × ALfloat × ALfloat) : KeepsIds m (m.getChannelPosition h out).2 := by
  unfold SoundManager.getChannelPosition
  rcases hg : m.getChannel h with e | oc
  · exact KeepsIds.refl m
  · cases oc with
    | none => exact KeepsIds.refl m
    | some c =>
      simp only []
      split
      · exact KeepsIds.refl m
      · split
        · exact KeepsIds.refl m
        · exact KeepsIds.of_channels _ _ rfl rfl rfl

theorem setChannelGain_keeps (m : SoundManager) (h : ChannelHandle) (g : ALfloat) :
    KeepsIds m (m.setChannelGain h g).2 := by
  unfold SoundManager.setChannelGain
  rcases hg : m.getChannel h with e | oc
  · exact KeepsIds.refl m
  · cases oc with
    | none => exact KeepsIds.refl m
    | some c =>
      simp only []
      split
      · exact KeepsIds.refl m
      · split
        · exact KeepsIds.refl m
        · exact KeepsIds.of_channels _ _ rfl rfl rfl

theorem setTypeGain_keeps (m : SoundManager) (t : Nat) (g : ALfloat) :
    KeepsIds m (m.setTypeGain t g).2 := by
  unfold SoundManager.setTypeGain
  split
  · exact KeepsIds.refl m
  · exact KeepsIds.of_channels _ _ rfl rfl rfl

theorem isPlayingChannel_state (m : SoundManager) (i : Nat) :
    (m.isPlayingChannel i).2 = { m with al := (m.isPlayingChannel i).2.al } := by
  unfold SoundManager.isPlayingChannel
  repeat' split
  all_goals rfl

theorem isPlayingChannel_keeps (m : SoundManager) (i : Nat) :
    KeepsIds m (m.isPlayingChannel i).2 := by
  rw [isPlayingChannel_state]
  exact KeepsIds.of_channels _ _ rfl rfl rfl

theorem isPlaying_keeps (m : SoundManager) (h : ChannelHandle) :
    KeepsIds m (m.isPlaying h).2 := by
  unfold SoundManager.isPlaying
  split
  · exact KeepsIds.refl m
  · split
    · exact KeepsIds.refl m
    · exact KeepsIds.refl m
    · split
      · exact KeepsIds.refl m
      · exact isPlayingChannel_keeps m _

theorem bufferDataChannel_id (c : Channel) (al : OpenAL) :
    (bufferDataChannel c al).2.1.id = c.id := by
  unfold bufferDataChannel
  split <;> rfl

theorem bufferData_keeps (m : SoundManager) (i : Nat) : KeepsIds m (m.bufferData i).2 := by
  unfold SoundManager.bufferData
  split
  · exact KeepsIds.refl m
  · cases hc : m.channels i with
    | none => exact KeepsIds.refl m
    | some c =>
      exact (KeepsIds.of_channels m { m with al := (bufferDataChannel c m.al).2.2 } rfl rfl
        rfl).trans (setSlot_keeps _ i c _ hc (bufferDataChannel_id c m.al))

theorem updateLoop_keeps (fuel : Nat) : ∀ (i : Nat) (m : SoundManager),
    KeepsIds m (m.updateLoop fuel i).2 := by
  induction fuel with
  | zero => intro i m; exact KeepsIds.refl m
  | succ n ih =>
    intro i m
    rw [SoundManager.updateLoop]
    cases hc : m.channels i with
    | none => exact ih _ _
    | some c =>
      simp only []
      split
      · exact ((isPlayingChannel_keeps m i).trans (freeChannel_keeps _ i)).trans (ih _ _)
      · rcases hb : (m.isPlayingChannel i).2.bufferData i with ⟨r, m2⟩
        have hk : KeepsIds m m2 := by
          have := bufferData_keeps (m.isPlayingChannel i).2 i
          rw [hb] at this
          exact (isPlayingChannel_keeps m i).trans this
        cases r with
        | error e => exact hk
        | ok u => exact hk.trans (ih _ _)

theorem update_keeps (m : SoundManager) : KeepsIds m m.update.2 :=
  updateLoop_keeps _ _ _

theorem freeAll_keeps (fuel : Nat) : ∀ (i : Nat) (m : SoundManager),
    KeepsIds m (m.freeAll fuel i) := by
  induction fuel with
  | zero => intro i m; exact KeepsIds.refl m
  | succ n ih =>
    intro i m
    rw [SoundManager.freeAll]
    exact (freeChannel_keeps m i).trans (ih _ _)

theorem deinit_keeps (m : SoundManager) : KeepsIds m m.deinit := by
  unfold SoundManager.deinit
  split
  · exact KeepsIds.refl m
  · have h := freeAll_keeps (m.kChannelCount - 1) 1 { m with thread := false }
    exact ⟨h.1, h.2.1, h.2.2⟩

/-! ### `playAudioStream` and the ids -/

theorem createBuffers_id (n : Nat) : ∀ (c : Channel) (al : OpenAL),
    (createBuffers n c al).2.1.id = c.id := by
  induction n with
  | zero => intro c al; rfl
  | succ n ih =>
    intro c al
    rw [createBuffers]
    simp only []
    split
    · rfl
    · split
      · rfl
      · split
        · rfl
        · rw [ih]
      · rw [ih]

theorem setupChannel_keeps (m : SoundManager) (index : Nat) (channel : Channel)
    (hc : m.channels index = some channel) : KeepsIds m (m.setupChannel index channel).2 := by
  unfold SoundManager.setupChannel
  split
  · exact KeepsIds.refl m
  · simp only []
    split
    · exact (KeepsIds.of_channels m
        { m with al := (alGetError (alGenSources m.al channel.source).2).2 } rfl rfl rfl).trans
        (setSlot_keeps _ index channel _ hc rfl)
    · rcases hcb : createBuffers kOpenALBufferCount
          { channel with source := (alGenSources m.al channel.source).1 }
          (alGetError (alGenSources m.al channel.source).2).2 with ⟨r, c2, al2⟩
      have hid : c2.id = channel.id := by
        have := createBuffers_id kOpenALBufferCount
          { channel with source := (alGenSources m.al channel.source).1 }
          (alGetError (alGenSources m.al channel.source).2).2
        rw [hcb] at this
        exact this
      cases r with
      | error e =>
        exact (KeepsIds.of_channels m { m with al := al2 } rfl rfl rfl).trans
          (setSlot_keeps _ index channel _ hc hid)
      | ok u =>
        refine ⟨rfl, rfl, fun j => ?_⟩
        right
        show (Function.update m.channels index (some { c2 with typeIt := true }) j).map Channel.id
          = _
        by_cases hj : j = index
        · subst hj; simp [hc, hid]
        · simp [hj]

/-- The ids after `playAudioStream`: either no channel was created, or `_curID` moved
on to the next id and every slot is empty, holds the id it held before, or holds the
id that `_curID` had before the call. -/
theorem playAudioStream_ids (m : SoundManager) (s : Option AudioStream) (T : Nat) (d : Bool) :
    KeepsIds m (m.playAudioStream s T d).2 ∨
    ((m.playAudioStream s T d).2.kChannelCount = m.kChannelCount ∧
      (m.playAudioStream s T d).2.curID = nextID m.curID ∧
      ∀ i, (m.playAudioStream s T d).2.channels i = none ∨
        ((m.playAudioStream s T d).2.channels i).map Channel.id = (m.channels i).map Channel.id ∨
        ((m.playAudioStream s T d).2.channels i).map Channel.id = some m.curID) := by
  by_cases hT : T < m.kSoundTypeMAX
  · cases hr : m.checkReady with
    | error e => left; simp [SoundManager.playAudioStream, hT, hr, KeepsIds.refl]
    | ok u =>
      cases s with
      | none => left; simp [SoundManager.playAudioStream, hT, hr, KeepsIds.refl]
      | some a =>
        rcases hn : m.newChannel with ⟨r, m1⟩
        cases r with
        | error e =>
          obtain ⟨cc, rfl⟩ := newChannel_error m e m1 hn
          left
          simp only [SoundManager.playAudioStream, hT, hr, hn, not_true_eq_false, if_false]
          exact KeepsIds.of_channels _ _ rfl rfl rfl
        | ok h =>
          obtain ⟨-, hid, -, cc, rfl⟩ := newChannel_ok m h m1 hn
          right
          simp only [SoundManager.playAudioStream, hT, hr, hn, not_true_eq_false, if_false]
          generalize hch : (⟨h.id, AL_PAUSED, some a, 0, d, T, false, [], []⟩ : Channel) = ch
          have hchid : ch.id = m.curID := by rw [← hch]; exact hid
          generalize hm2 : SoundManager.setSlot
            { m with
              curChannel := cc
              curID := if (m.curID + 1) % 65536 = 0 then ((m.curID + 1) % 65536 + 1) % 65536
                       else (m.curID + 1) % 65536 }
            h.channel (some ch) = m2
          have h2K : m2.kChannelCount = m.kChannelCount := by rw [← hm2]; rfl
          have h2id : m2.curID = nextID m.curID := by rw [← hm2]; rfl
          have h2ch : m2.channels = Function.update m.channels h.channel (some ch) := by
            rw [← hm2]; rfl
          have hk : KeepsIds m2 (m2.setupChannel h.channel ch).2 :=
            setupChannel_keeps m2 h.channel ch (by rw [h2ch]; simp)
          have hfinal : ∀ m3, KeepsIds m2 m3 →
              m3.kChannelCount = m.kChannelCount ∧ m3.curID = nextID m.curID ∧
              ∀ i, m3.channels i = none ∨
                (m3.channels i).map Channel.id = (m.channels i).map Channel.id ∨
                (m3.channels i).map Channel.id = some m.curID := by
            intro m3 h3
            refine ⟨h3.1.trans h2K, h3.2.1.trans h2id, fun i => ?_⟩
            rcases h3.2.2 i with h' | h'
            · exact Or.inl h'
            · right
              rw [h', h2ch]
              by_cases hi : i = h.channel
              · right; subst hi; simp [hchid]
              · left; simp [hi]
          rcases hsu : m2.setupChannel h.channel ch with ⟨r2, m3⟩
          rw [hsu] at hk
          cases r2 with
          | error e => exact hfinal _ (hk.trans (freeChannelHandle_keeps m3 h))
          | ok u => exact hfinal _ hk
  · left; simp [SoundManager.playAudioStream, hT, KeepsIds.refl]

/-! ### Handles that stay invalid -/

theorem invalid_of_keeps (m m' : SoundManager) (h : ChannelHandle) (hk : KeepsIds m m')
    (hin : h.channel < m.kChannelCount) (hv : m.isValidChannel h = .ok false) :
    m'.isValidChannel h = .ok false := by
  rw [isValidChannel_false_iff m h hin] at hv
  rw [isValidChannel_false_iff m' h (by rw [hk.1]; exact hin)]
  rcases hv with hv | hv | hv
  · exact Or.inl hv
  · exact Or.inr (Or.inl hv)
  · right; right
    intro c hc
    rcases hk.2.2 h.channel with h' | h'
    · rw [hc] at h'; cases h'
    · rw [hc] at h'
      cases hm : m.channels h.channel with
      | none => rw [hm] at h'; simp at h'
      | some c0 =>
        rw [hm] at h'
        simp only [Option.map_some', Option.some.injEq] at h'
        rw [h']
        exact hv c0 hm

theorem step_keeps (m : SoundManager) (op : Op) (hinit : op.isInit = false)
    (hplay : op.isPlay = false) : KeepsIds m (step m op) := by
  cases op with
  | init a b c => cases hinit
  | deinit => exact deinit_keeps m
  | triggerUpdate => exact triggerUpdate_keeps m
  | playAudioStream s t d => cases hplay
  | startChannel h => exact startChannel_keeps m h
  | pauseChannel h p => exact pauseChannel_keeps m h p
  | stopChannel h => exact freeChannelHandle_keeps m h
  | isPlaying h => exact isPlaying_keeps m h
  | setListenerGain g => exact setListenerGain_keeps m g
  | setChannelPosition h x y z => exact setChannelPosition_keeps m h x y z
  | getChannelPosition h => exact getChannelPosition_keeps m h _
  | setChannelGain h g => exact setChannelGain_keeps m h g
  | setTypeGain t g => exact setTypeGain_keeps m t g
  | update => exact update_keeps m
  | hardware al => exact KeepsIds.of_channels _ _ rfl rfl rfl

theorem nextID_range (c : Nat) : 1 ≤ nextID c ∧ nextID c ≤ 65535 := by
  unfold nextID
  split <;> omega

theorem idDistance_nextID (c x : Nat) (h1 : 1 ≤ c) (h2 : c ≤ 65535) (hx1 : 1 ≤ x)
    (hx2 : x ≤ 65535) (hd : 1 ≤ idDistance c x) :
    x ≠ c ∧ idDistance c x = idDistance (nextID c) x + 1 := by
  unfold idDistance nextID at *
  split <;> omega

theorem idDistance_after (c : Nat) (h1 : 1 ≤ c) (h2 : c ≤ 65535) :
    idDistance (nextID c) c = 65534 := by
  unfold idDistance nextID
  split <;> omega

/-- A handle that is not valid stays not valid, whatever operations follow, as long as
`init` is not among them and the number of `playAudioStream` calls does not reach the
number of ids that come before the id of the handle; each `playAudioStream` brings
`_curID` at most one step closer to that id. -/
theorem invalid_run (h : ChannelHandle) (hx1 : 1 ≤ h.id) (hx2 : h.id ≤ 65535) :
    ∀ (ops : List Op) (m : SoundManager),
    1 ≤ m.curID → m.curID ≤ 65535 → h.channel < m.kChannelCount →
    (∀ op ∈ ops, op.isInit = false) →
    countPlays ops ≤ idDistance m.curID h.id →
    (m.isValidChannel h = .ok false → (run m ops).isValidChannel h = .ok false) ∧
    1 ≤ (run m ops).curID ∧ (run m ops).curID ≤ 65535 ∧
    (run m ops).kChannelCount = m.kChannelCount ∧
    idDistance m.curID h.id ≤ idDistance (run m ops).curID h.id + countPlays ops := by
  intro ops
  induction ops with
  | nil => intro m h1 h2 _ _ _; exact ⟨fun hv => hv, h1, h2, rfl, Nat.le_add_right _ _⟩
  | cons op ops ih =>
    intro m h1 h2 hin hinit hcount
    have hinit' : ∀ o ∈ ops, o.isInit = false := fun o ho => hinit o (List.mem_cons_of_mem _ ho)
    have hop : op.isInit = false := hinit op (List.mem_cons_self _ _)
    show ((m.isValidChannel h = .ok false →
      (run (step m op) ops).isValidChannel h = .ok false) ∧ _)
    by_cases hp : op.isPlay = true
    · have hc : countPlays (op :: ops) = countPlays ops + 1 := by
        simp [countPlays, List.countP_cons, hp]
      rw [hc] at hcount ⊢
      obtain ⟨hne, hd⟩ := idDistance_nextID m.curID h.id h1 h2 hx1 hx2 (by omega)
      cases op with
      | playAudioStream s t d =>
        show (m.isValidChannel h = .ok false →
            (run (m.playAudioStream s t d).2 ops).isValidChannel h = .ok false) ∧
          1 ≤ (run (m.playAudioStream s t d).2 ops).curID ∧
          (run (m.playAudioStream s t d).2 ops).curID ≤ 65535 ∧
          (run (m.playAudioStream s t d).2 ops).kChannelCount = m.kChannelCount ∧
          idDistance m.curID h.id
            ≤ idDistance (run (m.playAudioStream s t d).2 ops).curID h.id + (countPlays ops + 1)
        rcases playAudioStream_ids m s t d with hk | ⟨pK, pid, pch⟩
        · obtain ⟨r1, r2, r3, r4, r5⟩ := ih _ (by rw [hk.2.1]; exact h1) (by rw [hk.2.1]; exact h2)
            (by rw [hk.1]; exact hin) hinit' (by rw [hk.2.1]; omega)
          rw [hk.2.1] at r5
          exact ⟨fun hv => r1 (invalid_of_keeps m _ h hk hin hv), r2, r3, r4.trans hk.1, by omega⟩
        · have hr := nextID_range m.curID
          have hv' : m.isValidChannel h = .ok false →
              (m.playAudioStream s t d).2.isValidChannel h = .ok false := by
            intro hv
            rw [isValidChannel_false_iff m h hin] at hv
            rw [isValidChannel_false_iff _ h (by rw [pK]; exact hin)]
            rcases hv with hv | hv | hv
            · exact Or.inl hv
            · exact Or.inr (Or.inl hv)
            · right; right
              intro c hc
              rcases pch h.channel with h' | h' | h'
              · rw [hc] at h'; cases h'
              · rw [hc] at h'
                cases hm : m.channels h.channel with
                | none => rw [hm] at h'; simp at h'
                | some c0 =>
                  rw [hm] at h'
                  simp only [Option.map_some', Option.some.injEq] at h'
                  rw [h']
                  exact hv c0 hm
              · rw [hc] at h'
                simp only [Option.map_some', Option.some.injEq] at h'
                rw [h']
                exact fun he => hne he.symm
          obtain ⟨r1, r2, r3, r4, r5⟩ := ih _ (by rw [pid]; exact hr.1) (by rw [pid]; exact hr.2)
            (by rw [pK]; exact hin) hinit' (by rw [pid]; omega)
          rw [pid] at r5
          exact ⟨fun hv => r1 (hv' hv), r2, r3, r4.trans pK, by omega⟩
      | _ => cases hp
    · have hp' : op.isPlay = false := by simpa using hp
      have hc : countPlays (op :: ops) = countPlays ops := by
        simp [countPlays, List.countP_cons, hp']
      rw [hc] at hcount ⊢
      have hk := step_keeps m op hop hp'
      obtain ⟨r1, r2, r3, r4, r5⟩ := ih _ (by rw [hk.2.1]; exact h1) (by rw [hk.2.1]; exact h2)
        (by rw [hk.1]; exact hin) hinit' (by rw [hk.2.1]; exact hcount)
      rw [hk.2.1] at r5
      exact ⟨fun hv => r1 (invalid_of_keeps m _ h hk hin hv), r2, r3, r4.trans hk.1, r5⟩

theorem run_append (m : SoundManager) (ops1 ops2 : List Op) :
    run m (ops1 ++ ops2) = run (run m ops1) ops2 := by
  simp [run, List.foldl_append]

/-- C2, amended: let `h` be the handle returned by a successful `playAudioStream` on a
manager whose id counter is between 1 and 65535 (as it is from `init` on).  Take any
operations after that call, among them at most 65534 further `playAudioStream` calls
and no `init`.  If `h` is not valid at some point of the sequence (its channel was
released by `stopChannel`, by `update` or by `deinit`), it is not valid at any later
point either, also when its slot has been allocated again in between. -/
theorem released_handle_stays_invalid (m : SoundManager) (s : Option AudioStream) (T : Nat)
    (d : Bool) (h : ChannelHandle) (ops1 ops2 : List Op)
    (hid1 : 1 ≤ m.curID) (hid2 : m.curID ≤ 65535)
    (hplay : (m.playAudioStream s T d).1 = .ok h)
    (hinit : ∀ op ∈ ops1 ++ ops2, op.isInit = false)
    (hcount : countPlays (ops1 ++ ops2) ≤ 65534)
    (hreleased : (run (m.playAudioStream s T d).2 ops1).isValidChannel h = .ok false) :
    (run (m.playAudioStream s T d).2 (ops1 ++ ops2)).isValidChannel h = .ok false := by
  cases s with
  | none =>
    unfold SoundManager.playAudioStream at hplay
    split at hplay
    · cases hplay
    · split at hplay <;> cases hplay
  | some a =>
    obtain ⟨m1, m2, hn, hsu, hp⟩ := playAudioStream_ok_inv m a T d h hplay
    obtain ⟨-, hhid, ⟨j, hj1, -, hj3⟩, cc, rfl⟩ := newChannel_ok m h _ hn
    have hgen : ∀ (mm : SoundManager) (ch : Channel),
        (mm.setSlot h.channel (some ch)).setupChannel h.channel ch = (.ok (), m2) →
        KeepsIds (mm.setSlot h.channel (some ch)) m2 := by
      intro mm ch hh
      have := setupChannel_keeps (mm.setSlot h.channel (some ch)) h.channel ch
        (by simp [SoundManager.setSlot])
      rw [hh] at this
      exact this
    have hk := hgen _ _ hsu
    rw [hp] at hreleased ⊢
    simp only [] at hreleased ⊢
    have hK : m2.kChannelCount = m.kChannelCount := hk.1
    have hcur : m2.curID = nextID m.curID := hk.2.1
    have hin : h.channel < m2.kChannelCount := by
      rw [hK, hj3]; exact lt_of_le_of_lt (Nat.mod_le _ _) hj1
    have hx1 : 1 ≤ h.id := by rw [hhid]; exact hid1
    have hx2 : h.id ≤ 65535 := by rw [hhid]; exact hid2
    have hd : idDistance m2.curID h.id = 65534 := by
      rw [hcur, hhid]; exact idDistance_after m.curID hid1 hid2
    have hcp : countPlays (ops1 ++ ops2) = countPlays ops1 + countPlays ops2 := by
      simp [countPlays, List.countP_append]
    have hr := nextID_range m.curID
    obtain ⟨-, a2, a3, a4, a5⟩ := invalid_run h hx1 hx2 ops1 m2 (by rw [hcur]; exact hr.1)
      (by rw [hcur]; exact hr.2) hin (fun op hop => hinit op (List.mem_append_left _ hop))
      (by rw [hd]; omega)
    rw [run_append]
    exact (invalid_run h hx1 hx2 ops2 (run m2 ops1) a2 a3 (by rw [a4]; exact hin)
      (fun op hop => hinit op (List.mem_append_right _ hop)) (by omega)).1 hreleased

/-- C2, witness: the handle (1, 1) is stopped and the next `playAudioStream` takes its
slot. -/
theorem released_handle_stays_invalid_witness :
    (run (smallManager.playAudioStream (some monoStream) 1 true).2
      ([.stopChannel ⟨1, 1⟩] ++ [.playAudioStream (some stereoStream) 2 false])).isValidChannel
        ⟨1, 1⟩ = .ok false :=
  released_handle_stays_invalid smallManager (some monoStream) 1 true ⟨1, 1⟩
    [.stopChannel ⟨1, 1⟩] [.playAudioStream (some stereoStream) 2 false]
    (by decide) (by decide) (by decide) (by decide) (by decide) (by decide)

/-! ### A device that does not fail -/

theorem alGenSources_quiet (al : OpenAL) (out : Nat) (hf : al.faults = [])
    (he : al.error = AL_NO_ERROR) :
    (alGetError (alGenSources al out).2).1 = AL_NO_ERROR ∧
    (alGetError (alGenSources al out).2).2.faults = [] ∧
    (alGetError (alGenSources al out).2).2.error = AL_NO_ERROR := by
  simp [alGenSources, alGetError, OpenAL.attempt, OpenAL.record, hf, he, AL_NO_ERROR]

theorem alGenBuffers_quiet (al : OpenAL) (out : Nat) (hf : al.faults = [])
    (he : al.error = AL_NO_ERROR) :
    (alGetError (alGenBuffers al out).2).1 = AL_NO_ERROR ∧
    (alGetError (alGenBuffers al out).2).2.faults = [] ∧
    (alGetError (alGenBuffers al out).2).2.error = AL_NO_ERROR := by
  simp [alGenBuffers, alGetError, OpenAL.attempt, OpenAL.record, hf, he, AL_NO_ERROR]

/-- The buffer loop for a stream that is at the end of its data, on a device that does
not fail: it succeeds, every new buffer goes to the free list, and the sources are not
touched. -/
theorem createBuffers_endOfData (s : AudioStream) (hs : s.endOfData = true) (n : Nat) :
    ∀ (c : Channel) (al : OpenAL), c.stream = some s → al.faults = [] →
    al.error = AL_NO_ERROR →
    ∃ al', createBuffers n c al =
        (.ok (), { c with buffers := c.buffers ++ List.range' (al.lastName + 1) n,
                          freeBuffers := c.freeBuffers ++ List.range' (al.lastName + 1) n }, al') ∧
      al'.sources = al.sources ∧ al'.faults = [] ∧ al'.error = AL_NO_ERROR := by
  induction n with
  | zero =>
    intro c al _ hf he
    exact ⟨al, by simp [createBuffers], rfl, hf, he⟩
  | succ n ih =>
    intro c al hc hf he
    obtain ⟨q1, q2, q3⟩ := alGenBuffers_quiet al 0 hf he
    obtain ⟨g1, g2, g3, g4⟩ := alGenBuffers_ok al 0 q1
    have hfill : fillBuffer (alGetError (alGenBuffers al 0).2).2 c.source (alGenBuffers al 0).1
        c.stream = (.ok false, some s, (alGetError (alGenBuffers al 0).2).2) := by
      rw [hc]; simp [fillBuffer, hs]
    obtain ⟨al', h1, h2, h3, h4⟩ := ih
      { c with stream := some s,
               freeBuffers := c.freeBuffers ++ [(alGenBuffers al 0).1],
               buffers := c.buffers ++ [(alGenBuffers al 0).1] }
      (alGetError (alGenBuffers al 0).2).2 rfl q2 q3
    refine ⟨al', ?_, by rw [h2, g3], h3, h4⟩
    rw [createBuffers]
    simp only [q1, ne_eq, not_true_eq_false, if_false, hfill]
    rw [h1, g4, g1]
    simp only [List.append_assoc, List.singleton_append, List.range'_succ, hc]

theorem newChannel_first (m : SoundManager) (hK : 2 ≤ m.kChannelCount)
    (h1 : m.channels 1 = none) :
    ∃ cc, m.newChannel = (.ok ⟨1, m.curID⟩, { m with curChannel := cc, curID := nextID m.curID }) := by
  obtain ⟨k, hk⟩ : ∃ k, m.kChannelCount = k + 2 := ⟨m.kChannelCount - 2, by omega⟩
  have hscan : ∃ cc, m.newChannelScan m.kChannelCount 0 0 m.curChannel = (1, cc) := by
    rw [hk, SoundManager.newChannelScan]
    simp only [ne_eq, not_true_eq_false, if_false, Nat.zero_mod, ite_self, Nat.zero_add]
    rw [SoundManager.newChannelScan]
    simp only [ne_eq, not_true_eq_false, if_false, h1, Option.isNone_none, if_true]
    rw [newChannelScan_of_found m k _ _ _ (by decide)]
    exact ⟨_, rfl⟩
  obtain ⟨cc, hcc⟩ := hscan
  refine ⟨cc, ?_⟩
  unfold SoundManager.newChannel
  rw [hcc]
  simp [nextID]

theorem updateLoop_empty (fuel : Nat) : ∀ (i : Nat) (m : SoundManager),
    (∀ j, i ≤ j → m.channels j = none) → m.updateLoop fuel i = (.ok (), m) := by
  induction fuel with
  | zero => intro i m _; rfl
  | succ n ih =>
    intro i m h
    rw [SoundManager.updateLoop, h i (le_refl i)]
    exact ih (i + 1) m (fun j hj => h j (by omega))

theorem deleteAll_quiet (l : List Nat) : ∀ (al : OpenAL), l.Nodup →
    (∀ b ∈ l, (al.buffers b).isSome = true) →
    (l.foldl alDeleteBuffers al).error = al.error ∧
    (l.foldl alDeleteBuffers al).faults = al.faults := by
  induction l with
  | nil => intro al _ _; exact ⟨rfl, rfl⟩
  | cons b l ih =>
    intro al hnd hex
    obtain ⟨hb, hnd'⟩ := List.nodup_cons.1 hnd
    obtain ⟨x, hx⟩ := Option.isSome_iff_exists.1 (hex b (List.mem_cons_self _ _))
    have hstep : alDeleteBuffers al b
        = { al with calls := al.calls ++ [.deleteBuffers b],
                    buffers := Function.update al.buffers b none } := by
      simp [alDeleteBuffers, OpenAL.record, hx]
    simp only [List.foldl]
    obtain ⟨i1, i2⟩ := ih (alDeleteBuffers al b) hnd' (by
      intro b' hb'
      rw [hstep]
      have hne : b' ≠ b := fun h => hb (h ▸ hb')
      simpa [hne] using hex b' (List.mem_cons_of_mem _ hb'))
    rw [i1, i2, hstep]
    exact ⟨rfl, rfl⟩

/-- `playAudioStream` of a stream at the end of its data on an idle manager: it
succeeds with the handle (1, `_curID`); slot 1 holds a channel with that id whose
source is new, has nothing queued and was never started, and whose five buffers are on
the free list; the device still has no error pending. -/
theorem playAudioStream_idle (m : SoundManager) (s : AudioStream) (d : Bool)
    (hs : s.endOfData = true) (hI : Idle m) :
    (m.playAudioStream (some s) 1 d).1 = .ok ⟨1, m.curID⟩ ∧
    (m.playAudioStream (some s) 1 d).2.ready = true ∧
    (m.playAudioStream (some s) 1 d).2.kChannelCount = m.kChannelCount ∧
    (m.playAudioStream (some s) 1 d).2.kSoundTypeMAX = m.kSoundTypeMAX ∧
    (m.playAudioStream (some s) 1 d).2.curID = nextID m.curID ∧
    (m.playAudioStream (some s) 1 d).2.al.faults = [] ∧
    (m.playAudioStream (some s) 1 d).2.al.error = AL_NO_ERROR ∧
    (∀ i, 2 ≤ i → (m.playAudioStream (some s) 1 d).2.channels i = none) ∧
    ∃ c src, (m.playAudioStream (some s) 1 d).2.channels 1 = some c ∧
      c.id = m.curID ∧ c.stream = some s ∧ c.source ≠ 0 ∧ c.buffers.Nodup ∧
      (m.playAudioStream (some s) 1 d).2.al.sources c.source = some src ∧
      src.state = AL_INITIAL ∧ src.queue = [] ∧ src.processed = 0 ∧
      ∀ b ∈ c.buffers, ((m.playAudioStream (some s) 1 d).2.al.buffers b).isSome = true := by
  obtain ⟨hr, hK, hT, hemp, hf, he⟩ := hI
  obtain ⟨cc, hn⟩ := newChannel_first m hK (hemp 1 (le_refl 1))
  obtain ⟨q1, q2, q3⟩ := alGenSources_quiet m.al 0 hf he
  obtain ⟨g1, g2, g3, g4⟩ := alGenSources_ok m.al 0 q1
  obtain ⟨al2, hcb, b1, b2, b3⟩ := createBuffers_endOfData s hs kOpenALBufferCount
    (⟨m.curID, AL_PAUSED, some s, (alGenSources m.al 0).1, d, 1, false, [], []⟩ : Channel)
    (alGetError (alGenSources m.al 0).2).2 rfl q2 q3
  obtain ⟨-, -, -, -, -, -, -, -, -, -, c11⟩ := createBuffers_ok _ _ _ _ _ hcb
  rw [g1] at hcb
  simp only [g4, List.nil_append] at hcb
  have hsrc : al2.sources (m.al.lastName + 1) = some {} := by rw [b1, g2]; simp
  have hplay : m.playAudioStream (some s) 1 d =
      (.ok ⟨1, m.curID⟩,
        (SoundManager.setList
          { m with
            curChannel := cc
            curID := nextID m.curID
            channels := Function.update m.channels 1
              (some ⟨m.curID, AL_PAUSED, some s, 0, d, 1, false, [], []⟩)
            al := alSourcef al2 (m.al.lastName + 1) (m.types 1).gain }
          1 ((m.types 1).list ++ [1])).setSlot 1
          (some ⟨m.curID, AL_PAUSED, some s, m.al.lastName + 1, d, 1, true,
            List.range' (m.al.lastName + 2) kOpenALBufferCount,
            List.range' (m.al.lastName + 2) kOpenALBufferCount⟩)) := by
    simp [SoundManager.playAudioStream, hT, SoundManager.checkReady, hr, hn,
      SoundManager.setupChannel, SoundManager.setSlot, q1, hcb, g1, g4]
  rw [hplay]
  refine ⟨rfl, hr, rfl, rfl, rfl, ?_, ?_, ?_,
    ⟨m.curID, AL_PAUSED, some s, m.al.lastName + 1, d, 1, true,
      List.range' (m.al.lastName + 2) kOpenALBufferCount,
      List.range' (m.al.lastName + 2) kOpenALBufferCount⟩,
    { gain := (m.types 1).gain }, ?_, rfl, rfl, by simp, ?_, ?_, rfl, rfl, rfl, ?_⟩
  · simp [SoundManager.setSlot, SoundManager.setList, alSourcef, OpenAL.record, hsrc, b2]
  · simp [SoundManager.setSlot, SoundManager.setList, alSourcef, OpenAL.record, hsrc, b3]
  · intro i hi
    have hi1 : i ≠ 1 := by omega
    simp [SoundManager.setSlot, SoundManager.setList, hi1, hemp i (by omega)]
  · simp [SoundManager.setSlot]
  · exact List.nodup_range' _ _
  · simp [SoundManager.setSlot, SoundManager.setList, alSourcef_sources _ _ _ _ hsrc]
  · intro b hb
    simp only [List.mem_range'_1] at hb
    have : (al2.buffers b).isSome = true := by
      apply c11; right; rw [g4]; omega
    simpa [SoundManager.setSlot, SoundManager.setList, alSourcef, OpenAL.record, hsrc] using this

theorem freeChannel_ready (m : SoundManager) (i : Nat) :
    (m.freeChannel i).ready = m.ready ∧ (m.freeChannel i).kSoundTypeMAX = m.kSoundTypeMAX := by
  unfold SoundManager.freeChannel
  split
  · exact ⟨rfl, rfl⟩
  · split <;> exact ⟨rfl, rfl⟩

/-- Releasing a channel whose source and buffers exist raises no OpenAL error. -/
theorem freeChannel_quiet (m : SoundManager) (i : Nat) (c : Channel) (src : Source)
    (hi : i ≠ 0) (hc : m.channels i = some c) (hsrc : m.al.sources c.source = some src)
    (hnd : c.buffers.Nodup) (hex : ∀ b ∈ c.buffers, (m.al.buffers b).isSome = true) :
    (m.freeChannel i).al.error = m.al.error ∧ (m.freeChannel i).al.faults = m.al.faults := by
  have hdel : alDeleteSources m.al c.source
      = { m.al with calls := m.al.calls ++ [.deleteSources c.source],
                    sources := Function.update m.al.sources c.source none } := by
    simp [alDeleteSources, OpenAL.record, hsrc]
  unfold SoundManager.freeChannel
  simp only [hi, if_false, hc]
  by_cases h0 : c.source = 0
  · simp only [h0, ne_eq, not_true_eq_false, if_false]
    exact deleteAll_quiet c.buffers m.al hnd hex
  · simp only [h0, ne_eq, not_false_eq_true, if_true]
    obtain ⟨h1, h2⟩ := deleteAll_quiet c.buffers (alDeleteSources m.al c.source) hnd
      (by intro b hb; rw [alDeleteSources_buffers]; exact hex b hb)
    rw [h1, h2, hdel]
    exact ⟨rfl, rfl⟩

/-- `update` on a ready manager whose only channel, in slot 1, has a stream at its end
and a source that is not playing and has as many buffers queued as processed: the
channel is released and the manager is idle again. -/
theorem update_reclaims (m : SoundManager) (c : Channel) (s : AudioStream) (src : Source)
    (hr : m.ready = true) (hK : 2 ≤ m.kChannelCount) (hT : 1 < m.kSoundTypeMAX)
    (hf : m.al.faults = []) (he : m.al.error = AL_NO_ERROR)
    (hemp : ∀ i, 2 ≤ i → m.channels i = none)
    (hc : m.channels 1 = some c) (hs : c.stream = some s) (hend : s.endOfStream = true)
    (hsrc : m.al.sources c.source = some src) (hst : src.state ≠ AL_PLAYING)
    (hq : src.queue.length = src.processed)
    (hnd : c.buffers.Nodup) (hex : ∀ b ∈ c.buffers, (m.al.buffers b).isSome = true) :
    Idle m.update.2 ∧ m.update.2.curID = m.curID ∧
    m.update.2.kChannelCount = m.kChannelCount ∧ m.update.2.kSoundTypeMAX = m.kSoundTypeMAX := by
  have hplay : m.isPlayingChannel 1 = (false, m) := by
    simp [SoundManager.isPlayingChannel, hc, alGetSourcei_state _ _ _ _ hsrc,
      alGetSourcei_queued _ _ _ _ hsrc, alGetSourcei_processed _ _ _ _ hsrc, hst, hs, hend, hq]
  obtain ⟨k, hk⟩ : ∃ k, m.kChannelCount - 1 = k + 1 := ⟨m.kChannelCount - 2, by omega⟩
  have hch : (m.freeChannel 1).channels = Function.update m.channels 1 none :=
    freeChannel_channels m 1 (by decide)
  have hall : ∀ j, 1 ≤ j → (m.freeChannel 1).channels j = none := by
    intro j hj
    rw [hch]
    by_cases h1 : j = 1
    · subst h1; simp
    · simpa [h1] using hemp j (by omega)
  have hup : m.update = (.ok (), m.freeChannel 1) := by
    unfold SoundManager.update
    rw [hk, SoundManager.updateLoop, hc]
    simp only [hplay, Bool.not_false, if_true]
    exact updateLoop_empty k 2 _ (fun j hj => hall j (by omega))
  rw [hup]
  obtain ⟨e1, e2⟩ := freeChannel_quiet m 1 c src (by decide) hc hsrc hnd hex
  obtain ⟨r1, r2⟩ := freeChannel_ready m 1
  refine ⟨⟨r1.trans hr, ?_, ?_, hall, e2.trans hf, e1.trans he⟩, freeChannel_curID m 1,
    freeChannel_kChannelCount m 1, r2⟩
  · show 2 ≤ (m.freeChannel 1).kChannelCount
    rw [freeChannel_kChannelCount]; exact hK
  · show 1 < (m.freeChannel 1).kSoundTypeMAX
    rw [r2]; exact hT

/-- One round of `playAndReclaim` takes an idle manager to an idle manager whose
`_curID` is the next id. -/
theorem playAndReclaim_step (m : SoundManager) (hI : Idle m) :
    Idle (run m (playAndReclaim 1)) ∧ (run m (playAndReclaim 1)).curID = nextID m.curID := by
  obtain ⟨p1, p2, p3, p4, p5, p6, p7, p8, c, src, p9, p10, p11, p12, p13, p14, p15, p16, p17, p18⟩ :=
    playAudioStream_idle m emptyStream true (by decide) hI
  obtain ⟨u1, u2, -, -⟩ := update_reclaims (m.playAudioStream (some emptyStream) 1 true).2 c
    emptyStream src p2 (by rw [p3]; exact hI.2.1) (by rw [p4]; exact hI.2.2.1) p6 p7 p8 p9 p11
    (by decide) p14 (by rw [p15]; decide) (by rw [p16, p17]; rfl) p13 p18
  exact ⟨u1, u2.trans p5⟩

theorem playAndReclaim_run (n : Nat) : ∀ (m : SoundManager), Idle m →
    Idle (run m (playAndReclaim n)) ∧ (run m (playAndReclaim n)).curID = nextID^[n] m.curID := by
  induction n with
  | zero => intro m hI; exact ⟨hI, rfl⟩
  | succ n ih =>
    intro m hI
    obtain ⟨s1, s2⟩ := playAndReclaim_step m hI
    obtain ⟨i1, i2⟩ := ih _ s1
    have hrun : run m (playAndReclaim (n + 1)) = run (run m (playAndReclaim 1)) (playAndReclaim n) :=
      rfl
    rw [hrun]
    refine ⟨i1, ?_⟩
    rw [i2, s2, Function.iterate_succ_apply]

theorem nextID_iterate (n c : Nat) (h1 : 1 ≤ c) (h2 : c ≤ 65535) :
    nextID^[n] c = (c - 1 + n) % 65535 + 1 := by
  induction n generalizing c with
  | zero => simp; omega
  | succ n ih =>
    have hr := nextID_range c
    rw [Function.iterate_succ_apply, ih (nextID c) hr.1 hr.2]
    unfold nextID
    split <;> omega

theorem smallManager_idle : Idle smallManager :=
  ⟨by decide, by decide, by decide,
    fun i _ => by simp [smallManager, SoundManager.init, SoundManager.constructed],
    by decide, by decide⟩

theorem playAndReclaim_noInit (n : Nat) : ∀ op ∈ playAndReclaim n, op.isInit = false := by
  induction n with
  | zero => intro op h; simp [playAndReclaim] at h
  | succ n ih =>
    intro op h
    simp only [playAndReclaim, List.mem_cons] at h
    rcases h with rfl | rfl | h
    · rfl
    · rfl
    · exact ih op h

theorem run_play (m : SoundManager) (s : Option AudioStream) (t : Nat) (d : Bool) :
    run m [.playAudioStream s t d] = (m.playAudioStream s t d).2 := rfl

/-- On an idle manager whose `_curID` is 1, `playAudioStream` of a stream at its end
makes the handle (1, 1) valid. -/
theorem valid_after_idle_play (m : SoundManager) (hI : Idle m) (hcur : m.curID = 1) :
    (m.playAudioStream (some emptyStream) 1 true).2.isValidChannel ⟨1, 1⟩ = .ok true := by
  obtain ⟨-, -, p3, -, -, -, -, -, c, src, p9, p10, -⟩ :=
    playAudioStream_idle m emptyStream true (by decide) hI
  have hin : (1 : Nat) < (m.playAudioStream (some emptyStream) 1 true).2.kChannelCount := by
    rw [p3]; exact hI.2.1
  rw [isValidChannel_true_iff _ ⟨1, 1⟩ hin]
  exact ⟨Nat.one_ne_zero, Nat.one_ne_zero, c, p9, by rw [p10, hcur]⟩

/-- C2, counterexample: on the small manager `playAudioStream` returns the handle
(1, 1); the `update` that follows releases its channel, so the handle is not valid;
after 65534 further rounds of `playAudioStream` and `update` and one more
`playAudioStream`, none of them `init`, the handle (1, 1) is valid again: the id
counter has wrapped around and slot 1 holds a new channel with the id 1. -/
theorem released_handle_valid_again :
    (smallManager.playAudioStream (some emptyStream) 1 true).1 = .ok ⟨1, 1⟩ ∧
    (run smallManager (playAndReclaim 1)).isValidChannel ⟨1, 1⟩ = .ok false ∧
    (run smallManager
      (playAndReclaim 1 ++ (playAndReclaim 65534 ++
        [.playAudioStream (some emptyStream) 1 true]))).isValidChannel ⟨1, 1⟩ = .ok true ∧
    (∀ op ∈ playAndReclaim 1 ++ (playAndReclaim 65534 ++
        [.playAudioStream (some emptyStream) 1 true]), op.isInit = false) := by
  refine ⟨by decide, by decide, ?_, ?_⟩
  · rw [run_append, run_append, run_play]
    obtain ⟨i1, i2⟩ := playAndReclaim_run 1 smallManager smallManager_idle
    obtain ⟨j1, j2⟩ := playAndReclaim_run 65534 _ i1
    have h0 : smallManager.curID = 1 := by decide
    rw [i2, h0, ← Function.iterate_add_apply,
      nextID_iterate _ 1 (le_refl 1) (by norm_num)] at j2
    exact valid_after_idle_play _ j1 j2
  · intro op h
    simp only [List.mem_append, List.mem_singleton] at h
    rcases h with h | h | rfl
    · exact playAndReclaim_noInit _ op h
    · exact playAndReclaim_noInit _ op h
    · rfl

/-- A second way for a released handle to become valid again: `deinit` releases the
channel of the handle (1, 1), the next `init` sets the id counter back to 1, and the
next `playAudioStream` puts a channel with the id 1 into slot 1. -/
theorem released_handle_valid_after_init :
    (smallManager.playAudioStream (some monoStream) 1 true).1 = .ok ⟨1, 1⟩ ∧
    (run smallManager
      [.playAudioStream (some monoStream) 1 true, .deinit]).isValidChannel ⟨1, 1⟩ = .ok false ∧
    (run smallManager
      [.playAudioStream (some monoStream) 1 true, .deinit, .init true true true,
       .playAudioStream (some stereoStream) 2 false]).isValidChannel ⟨1, 1⟩ = .ok true := by
  decide

/-! ### A manager that is not ready -/

/-- C11, counterexample: after `deinit` the small manager is not ready, yet
`setTypeGain` and `stopChannel` succeed, `isPlaying` returns false, and `startChannel`
fails with "Invalid channel", not with "SoundManager not ready". -/
theorem notReady_operations_do_not_fail :
    smallManager.deinit.ready = false ∧
    (smallManager.deinit.setTypeGain 1 ⟨0⟩).1 = .ok () ∧
    (smallManager.deinit.stopChannel ⟨1, 1⟩).1 = .ok () ∧
    (smallManager.deinit.isPlaying ⟨1, 1⟩).1 = .ok false ∧
    (smallManager.deinit.startChannel ⟨1, 1⟩).1 = .error .invalidChannel := by
  decide

theorem isPlaying_invalid (m : SoundManager) (h : ChannelHandle)
    (hin : h.channel < m.kChannelCount) (hv : m.isValidChannel h = .ok false) :
    m.isPlaying h = (.ok false, m) := by
  have hv := (isValidChannel_false_iff m h hin).1 hv
  unfold SoundManager.isPlaying SoundManager.slot
  by_cases h0 : h.channel = 0 ∨ h.id = 0
  · simp [h0]
  · push_neg at h0
    rcases hv with hv | hv | hv
    · exact absurd hv h0.1
    · exact absurd hv h0.2
    · cases hc : m.channels h.channel with
      | none => simp [h0, hin]
      | some c => simp [h0, hin, hv c hc]

/-- C11, amended: while `ready` is false, `triggerUpdate`, `playAudioStream` (for a
sound type below `kSoundTypeMAX`), `playSoundFile` and `setListenerGain` fail with
"SoundManager not ready" and change nothing.  The other operations do not look at
`ready`: for a handle inside the table that is not valid, `startChannel`,
`pauseChannel`, `setChannelPosition`, `getChannelPosition` and `setChannelGain` fail
with "Invalid channel", `stopChannel` succeeds and `isPlaying` returns false, all
without changing the manager; `setTypeGain` succeeds and stores the gain. -/
theorem notReady_spec (m : SoundManager) (hr : m.ready = false) :
    m.triggerUpdate = (.error .notReady, m) ∧
    (∀ s T d, T < m.kSoundTypeMAX → m.playAudioStream s T d = (.error .notReady, m)) ∧
    (∀ lib w T loop, m.playSoundFile lib w T loop = (.error .notReady, m)) ∧
    (∀ g, m.setListenerGain g = (.error .notReady, m)) ∧
    (∀ h : ChannelHandle, h.channel < m.kChannelCount → m.isValidChannel h = .ok false →
      m.startChannel h = (.error .invalidChannel, m) ∧
      (∀ p, m.pauseChannel h p = (.error .invalidChannel, m)) ∧
      (∀ x y z, m.setChannelPosition h x y z = (.error .invalidChannel, m)) ∧
      (∀ out, m.getChannelPosition h out = (.error .invalidChannel, m)) ∧
      (∀ g, m.setChannelGain h g = (.error .invalidChannel, m)) ∧
      m.stopChannel h = (.ok (), ⟨0, 0⟩, m) ∧
      m.isPlaying h = (.ok false, m)) ∧
    (∀ T g, T < m.kSoundTypeMAX →
      (m.setTypeGain T g).1 = .ok () ∧ ((m.setTypeGain T g).2.types T).gain = g) := by
  have hc : m.checkReady = .error .notReady := by simp [SoundManager.checkReady, hr]
  refine ⟨?_, ?_, ?_, ?_, ?_, ?_⟩
  · simp [SoundManager.triggerUpdate, hc]
  · intro s T d hT
    simp [SoundManager.playAudioStream, hT, hc]
  · intro lib w T loop
    simp [SoundManager.playSoundFile, hc]
  · intro g
    simp [SoundManager.setListenerGain, hc]
  · intro h hin hv
    have hg := getChannel_invalid m h hin hv
    refine ⟨?_, ?_, ?_, ?_, ?_, stopChannel_invalid m h hv hin, isPlaying_invalid m h hin hv⟩
    · simp [SoundManager.startChannel, hg]
    · intro p; simp [SoundManager.pauseChannel, hg]
    · intro x y z; simp [SoundManager.setChannelPosition, hg]
    · intro out; simp [SoundManager.getChannelPosition, hg]
    · intro g; simp [SoundManager.setChannelGain, hg]
  · intro T g hT
    simp [SoundManager.setTypeGain, hT]

/-- C11, witness: the small manager after `deinit`. -/
theorem notReady_spec_witness :
    smallManager.deinit.triggerUpdate = (.error .notReady, smallManager.deinit) :=
  (notReady_spec smallManager.deinit (by decide)).1

/-! ### The scan for a free slot -/

/-- The scan finds nothing when every slot it visits, slot 0 apart, is occupied. -/
theorem newChannelScan_full (m : SoundManager) (fuel : Nat) : ∀ (i cur : Nat),
    (∀ j, i ≤ j → j < i + fuel → j ≠ 0 → m.channels j ≠ none) →
    (m.newChannelScan fuel i 0 cur).1 = 0 := by
  induction fuel with
  | zero => intro i cur _; rfl
  | succ n ih =>
    intro i cur h
    rw [SoundManager.newChannelScan]
    simp only [ne_eq, not_true_eq_false, if_false]
    have hrest : ∀ j, i + 1 ≤ j → j < i + 1 + n → j ≠ 0 → m.channels j ≠ none :=
      fun j h1 h2 h3 => h j (by omega) (by omega) h3
    by_cases hfree : (m.channels i).isNone = true
    · have hi : i = 0 := by
        by_contra hne
        exact h i (le_refl i) (by omega) hne (by simpa using hfree)
      subst hi
      simp only [hfree, if_true, Nat.zero_mod]
      exact ih _ _ hrest
    · simp only [hfree, Bool.false_eq_true, if_false]
      exact ih _ _ hrest

/-- The scan over a table of at most `2 ^ 16` slots: what it finds is the first empty
slot other than slot 0, and it finds nothing only if there is none. -/
theorem newChannelScan_spec (m : SoundManager) (fuel : Nat) : ∀ (i cur : Nat),
    i + fuel ≤ 65536 →
    ((m.newChannelScan fuel i 0 cur).1 ≠ 0 →
      i ≤ (m.newChannelScan fuel i 0 cur).1 ∧ (m.newChannelScan fuel i 0 cur).1 < i + fuel ∧
      m.channels (m.newChannelScan fuel i 0 cur).1 = none ∧
      ∀ j, i ≤ j → j < (m.newChannelScan fuel i 0 cur).1 → j ≠ 0 → m.channels j ≠ none) ∧
    ((m.newChannelScan fuel i 0 cur).1 = 0 →
      ∀ j, i ≤ j → j < i + fuel → j ≠ 0 → m.channels j ≠ none) := by
  induction fuel with
  | zero =>
    intro i cur _
    refine ⟨fun h => absurd rfl h, fun _ j h1 h2 => by omega⟩
  | succ n ih =>
    intro i cur hb
    rw [SoundManager.newChannelScan]
    simp only [ne_eq, not_true_eq_false, if_false]
    have hmod : i % 65536 = i := Nat.mod_eq_of_lt (by omega)
    by_cases hfree : (m.channels i).isNone = true
    · simp only [hfree, if_true, hmod]
      by_cases hi : i = 0
      · subst hi
        rw [Nat.zero_add]
        obtain ⟨a, b⟩ := ih 1 (if cur ≥ m.kChannelCount then 1 else (cur + 1) % 65536) (by omega)
        constructor
        · intro hr
          obtain ⟨a1, a2, a3, a4⟩ := a hr
          exact ⟨by omega, by omega, a3, fun j _ h2 h3 => a4 j (by omega) h2 h3⟩
        · intro hr j _ h2 h3
          exact b hr j (by omega) (by omega) h3
      · rw [newChannelScan_of_found m n (i + 1) i _ hi]
        refine ⟨fun _ => ⟨le_refl i, by omega, by simpa using hfree, fun j h1 h2 => by omega⟩,
          fun hr => absurd hr hi⟩
    · simp only [hfree, Bool.false_eq_true, if_false]
      have hocc : m.channels i ≠ none := by
        intro hn; rw [hn] at hfree; simp at hfree
      obtain ⟨a, b⟩ := ih (i + 1) (if cur ≥ m.kChannelCount then 1 else (cur + 1) % 65536)
        (by omega)
      constructor
      · intro hr
        obtain ⟨a1, a2, a3, a4⟩ := a hr
        refine ⟨by omega, by omega, a3, fun j h1 h2 h3 => ?_⟩
        by_cases hj : j = i
        · subst hj; exact hocc
        · exact a4 j (by omega) h2 h3
      · intro hr j h1 h2 h3
        by_cases hj : j = i
        · subst hj; exact hocc
        · exact b hr j (by omega) (by omega) h3

theorem newChannel_result (m : SoundManager) :
    (m.newChannel).1 =
      if (m.newChannelScan m.kChannelCount 0 0 m.curChannel).1 = 0 then
        .error .allChannelsOccupied
      else .ok ⟨(m.newChannelScan m.kChannelCount 0 0 m.curChannel).1, m.curID⟩ := by
  unfold SoundManager.newChannel
  by_cases hf : (m.newChannelScan m.kChannelCount 0 0 m.curChannel).1 = 0
  · simp [hf]
  · simp [hf]

/-- C12: for a sound type below `kSoundTypeMAX`, `playAudioStream` fails with
"SoundManager not ready" when `ready` is false, whatever the stream, and leaves the
manager as it was; it fails with "No audio stream" when the manager is ready and the
stream is null, and leaves the manager as it was; it fails with "All sound channels
occupied" when the manager is ready, the stream is not null and every slot from 1 to
`kChannelCount - 1` is occupied, and then the channel table, the type entries (lists
and gains), the OpenAL state, `_curID` and the deleted streams are as before. -/
theorem playAudioStream_failures (m : SoundManager) (T : Nat) (d : Bool)
    (hT : T < m.kSoundTypeMAX) :
    (m.ready = false → ∀ s, m.playAudioStream s T d = (.error .notReady, m)) ∧
    (m.ready = true → m.playAudioStream none T d = (.error .noStream, m)) ∧
    (m.ready = true → (∀ j, 1 ≤ j → j < m.kChannelCount → m.channels j ≠ none) →
      ∀ a, (m.playAudioStream (some a) T d).1 = .error .allChannelsOccupied ∧
        (m.playAudioStream (some a) T d).2.channels = m.channels ∧
        (m.playAudioStream (some a) T d).2.types = m.types ∧
        (m.playAudioStream (some a) T d).2.al = m.al ∧
        (m.playAudioStream (some a) T d).2.curID = m.curID ∧
        (m.playAudioStream (some a) T d).2.deletedStreams = m.deletedStreams ∧
        (m.playAudioStream (some a) T d).2.ready = m.ready) := by
  refine ⟨fun hr s => ?_, fun hr => ?_, fun hr hfull a => ?_⟩
  · simp [SoundManager.playAudioStream, hT, SoundManager.checkReady, hr]
  · simp [SoundManager.playAudioStream, hT, SoundManager.checkReady, hr]
  · have hscan : (m.newChannelScan m.kChannelCount 0 0 m.curChannel).1 = 0 :=
      newChannelScan_full m _ 0 _ (fun j _ h2 h3 => hfull j (by omega) (by omega))
    have hres := newChannel_result m
    rw [hscan] at hres
    simp only [if_true] at hres
    rcases hn : m.newChannel with ⟨r, m1⟩
    rw [hn] at hres
    simp only [] at hres
    subst hres
    obtain ⟨cc, rfl⟩ := newChannel_error m _ m1 hn
    simp [SoundManager.playAudioStream, hT, SoundManager.checkReady, hr, hn]

/-- C12, witness: `playAudioStream` on `fullManager`, whose only slot is occupied. -/
theorem playAudioStream_failures_witness :
    (fullManager.playAudioStream (some stereoStream) 2 false).1 = .error .allChannelsOccupied :=
  ((playAudioStream_failures fullManager 2 false (by decide)).2.2 (by decide)
    (by
      intro j h1 h2
      have hK : fullManager.kChannelCount = 2 := by decide
      have hj : j = 1 := by omega
      subst hj
      decide) stereoStream).1

theorem freeChannelHandle_other (m : SoundManager) (h : ChannelHandle) (j : Nat)
    (hj : j ≠ h.channel) : (m.freeChannelHandle h).2.2.channels j = m.channels j := by
  unfold SoundManager.freeChannelHandle
  split
  · rename_i h0
    split
    · rfl
    · rfl
    · split
      · rw [freeChannel_channels m h.channel h0.1]; simp [hj]
      · rfl
  · rfl

/-- The `try` block of `playAudioStream` writes to no slot but the one it works on. -/
theorem setupChannel_other (m : SoundManager) (index : Nat) (channel : Channel) (j : Nat)
    (hj : j ≠ index) : (m.setupChannel index channel).2.channels j = m.channels j := by
  unfold SoundManager.setupChannel
  split
  · rfl
  · simp only []
    split
    · simp [SoundManager.setSlot, hj]
    · rcases hcb : createBuffers kOpenALBufferCount
          { channel with source := (alGenSources m.al channel.source).1 }
          (alGetError (alGenSources m.al channel.source).2).2 with ⟨r, c2, al2⟩
      cases r with
      | error e => simp [SoundManager.setSlot, hj]
      | ok u => simp [SoundManager.setSlot, SoundManager.setList, hj]

/-- `playAudioStream` writes to no slot but the one of the handle it allocated; slot 0
is never written. -/
theorem playAudioStream_slot_zero (m : SoundManager) (s : Option AudioStream) (T : Nat)
    (d : Bool) : (m.playAudioStream s T d).2.channels 0 = m.channels 0 := by
  by_cases hT : T < m.kSoundTypeMAX
  · cases hr : m.checkReady with
    | error e => simp [SoundManager.playAudioStream, hT, hr]
    | ok u =>
      cases s with
      | none => simp [SoundManager.playAudioStream, hT, hr]
      | some a =>
        rcases hn : m.newChannel with ⟨r, m1⟩
        cases r with
        | error e =>
          obtain ⟨cc, rfl⟩ := newChannel_error m e m1 hn
          simp [SoundManager.playAudioStream, hT, hr, hn]
        | ok h =>
          obtain ⟨h0, -, -, cc, rfl⟩ := newChannel_ok m h m1 hn
          simp only [SoundManager.playAudioStream, hT, hr, hn, not_true_eq_false, if_false]
          generalize hch : (⟨h.id, AL_PAUSED, some a, 0, d, T, false, [], []⟩ : Channel) = ch
          generalize hm2 : SoundManager.setSlot
            { m with
              curChannel := cc
              curID := if (m.curID + 1) % 65536 = 0 then ((m.curID + 1) % 65536 + 1) % 65536
                       else (m.curID + 1) % 65536 }
            h.channel (some ch) = m2
          have h2 : m2.channels 0 = m.channels 0 := by
            rw [← hm2]; simp [SoundManager.setSlot, Ne.symm h0]
          have h3 := setupChannel_other m2 h.channel ch 0 (Ne.symm h0)
          rcases hsu : m2.setupChannel h.channel ch with ⟨r2, m3⟩
          rw [hsu] at h3
          cases r2 with
          | error e =>
            simp only []
            rw [freeChannelHandle_other m3 h 0 (Ne.symm h0)]
            exact h3.trans h2
          | ok u => exact h3.trans h2
  · simp [SoundManager.playAudioStream, hT]

theorem liveChannels_le (m : SoundManager) (h0 : m.channels 0 = none) :
    liveChannels m ≤ m.kChannelCount - 1 := by
  unfold liveChannels
  cases hk : m.kChannelCount with
  | zero => simp
  | succ k =>
    rw [List.range_succ_eq_map, List.filter_cons]
    simp only [h0, Option.isSome_none, Bool.false_eq_true, if_false]
    calc (List.filter (fun i => (m.channels i).isSome) (List.map Nat.succ (List.range k))).length
        ≤ (List.map Nat.succ (List.range k)).length := List.length_filter_le _ _
      _ = k := by simp
      _ = k + 1 - 1 := by omega

/-- C13: on a table of at most `2 ^ 16` slots, a successful `newChannel` returns the
smallest index from 1 to `kChannelCount - 1` whose slot is empty; `newChannel` fails,
with "All sound channels occupied", if and only if every slot from 1 to
`kChannelCount - 1` is occupied; it never returns slot 0, `playAudioStream` never
writes to slot 0, and with slot 0 empty at most `kChannelCount - 1` slots are
occupied. -/
theorem newChannel_spec (m : SoundManager) (hK : m.kChannelCount ≤ 65536) :
    (∀ h, (m.newChannel).1 = .ok h →
      1 ≤ h.channel ∧ h.channel < m.kChannelCount ∧ m.channels h.channel = none ∧
      ∀ j, 1 ≤ j → j < h.channel → m.channels j ≠ none) ∧
    ((m.newChannel).1 = .error .allChannelsOccupied ↔
      ∀ j, 1 ≤ j → j < m.kChannelCount → m.channels j ≠ none) ∧
    (∀ e, (m.newChannel).1 = .error e → e = .allChannelsOccupied) ∧
    (∀ s T d, (m.playAudioStream s T d).2.channels 0 = m.channels 0) ∧
    (m.channels 0 = none → liveChannels m ≤ m.kChannelCount - 1) := by
  obtain ⟨a, b⟩ := newChannelScan_spec m m.kChannelCount 0 m.curChannel (by omega)
  have hres := newChannel_result m
  refine ⟨?_, ?_, ?_, playAudioStream_slot_zero m, liveChannels_le m⟩
  · intro h hh
    by_cases hf : (m.newChannelScan m.kChannelCount 0 0 m.curChannel).1 = 0
    · rw [hres, if_pos hf] at hh; cases hh
    · rw [hres, if_neg hf] at hh
      cases hh
      obtain ⟨a1, a2, a3, a4⟩ := a hf
      simp only [Nat.zero_add] at a2
      exact ⟨Nat.one_le_iff_ne_zero.2 hf, a2, a3, fun j h1 h2 => a4 j (by omega) h2 (by omega)⟩
  · by_cases hf : (m.newChannelScan m.kChannelCount 0 0 m.curChannel).1 = 0
    · rw [hres, if_pos hf]
      exact ⟨fun _ j h1 h2 => b hf j (by omega) (by omega) (by omega), fun _ => rfl⟩
    · rw [hres, if_neg hf]
      constructor
      · intro hh; cases hh
      · intro hall
        obtain ⟨a1, a2, a3, a4⟩ := a hf
        exact absurd a3 (hall _ (Nat.one_le_iff_ne_zero.2 hf) (by omega))
  · intro e he
    by_cases hf : (m.newChannelScan m.kChannelCount 0 0 m.curChannel).1 = 0
    · rw [hres, if_pos hf] at he; cases he; rfl
    · rw [hres, if_neg hf] at he; cases he

/-- C13, witness: `newChannel` on `playingManager` returns slot 2, the first empty
one. -/
theorem newChannel_spec_witness :
    1 ≤ (2 : Nat) ∧ 2 < playingManager.kChannelCount ∧ playingManager.channels 2 = none ∧
    ∀ j, 1 ≤ j → j < 2 → playingManager.channels j ≠ none :=
  (newChannel_spec playingManager (by decide)).1 ⟨2, 2⟩ (by decide)

/-! ### The id counter -/

theorem init_curID (m : SoundManager) (d c t : Bool) : (m.init d c t).2.curID = 1 := by
  unfold SoundManager.init
  simp only []
  split
  · rfl
  · split
    · rfl
    · split <;> rfl

theorem nextID_eq (c : Nat) (h1 : 1 ≤ c) (h2 : c ≤ 65535) :
    nextID c = if c = 65535 then 1 else c + 1 := by
  unfold nextID
  split <;> split <;> omega

/-- `_curID` stays between 1 and 65535 under every operation. -/
theorem run_curID (ops : List Op) : ∀ (m : SoundManager), 1 ≤ m.curID → m.curID ≤ 65535 →
    1 ≤ (run m ops).curID ∧ (run m ops).curID ≤ 65535 := by
  induction ops with
  | nil => intro m h1 h2; exact ⟨h1, h2⟩
  | cons op ops ih =>
    intro m h1 h2
    show 1 ≤ (run (step m op) ops).curID ∧ (run (step m op) ops).curID ≤ 65535
    have hstep : 1 ≤ (step m op).curID ∧ (step m op).curID ≤ 65535 := by
      by_cases hi : op.isInit = true
      · cases op with
        | init a b c =>
          show 1 ≤ (m.init a b c).2.curID ∧ (m.init a b c).2.curID ≤ 65535
          rw [init_curID]; omega
        | _ => cases hi
      · by_cases hp : op.isPlay = true
        · cases op with
          | playAudioStream s t d =>
            show 1 ≤ (m.playAudioStream s t d).2.curID ∧ (m.playAudioStream s t d).2.curID ≤ 65535
            rcases playAudioStream_ids m s t d with hk | ⟨-, pid, -⟩
            · rw [hk.2.1]; exact ⟨h1, h2⟩
            · rw [pid]; exact nextID_range m.curID
          | _ => cases hp
        · have hk := step_keeps m op (by simpa using hi) (by simpa using hp)
          rw [hk.2.1]; exact ⟨h1, h2⟩
    exact ih _ hstep.1 hstep.2

/-- C14: `init` sets `_curID` to 1.  With `_curID` between 1 and 65535, a successful
`newChannel` hands out `_curID`, which is not 0, and moves `_curID` on to the next
id, which is one more, and 1 after 65535; a failing `newChannel` leaves `_curID` as
it is; `_curID` stays between 1 and 65535 under every sequence of operations; and
the ids of any 65535 consecutive allocations are pairwise distinct. -/
theorem curID_spec (m : SoundManager) (h1 : 1 ≤ m.curID) (h2 : m.curID ≤ 65535) :
    (∀ (m0 : SoundManager) (d c t : Bool), (m0.init d c t).2.curID = 1) ∧
    (∀ h m', m.newChannel = (.ok h, m') →
      h.id = m.curID ∧ h.id ≠ 0 ∧ m'.curID = nextID m.curID) ∧
    (nextID m.curID = if m.curID = 65535 then 1 else m.curID + 1) ∧
    (∀ e m', m.newChannel = (.error e, m') → m'.curID = m.curID) ∧
    (∀ ops, 1 ≤ (run m ops).curID ∧ (run m ops).curID ≤ 65535) ∧
    (∀ i j, i < j → j < i + 65535 → nextID^[i] m.curID ≠ nextID^[j] m.curID) := by
  refine ⟨init_curID, ?_, nextID_eq m.curID h1 h2, ?_, fun ops => run_curID ops m h1 h2, ?_⟩
  · intro h m' hn
    obtain ⟨-, hid, -, cc, rfl⟩ := newChannel_ok m h m' hn
    exact ⟨hid, by rw [hid]; omega, rfl⟩
  · intro e m' hn
    obtain ⟨cc, rfl⟩ := newChannel_error m e m' hn
    rfl
  · intro i j hij hj
    rw [nextID_iterate i m.curID h1 h2, nextID_iterate j m.curID h1 h2]
    omega

/-- C14, witness: the small manager, whose `_curID` is 1 after `init`. -/
theorem curID_spec_witness :
    nextID smallManager.curID = if smallManager.curID = 65535 then 1 else smallManager.curID + 1 :=
  (curID_spec smallManager (by decide) (by decide)).2.2.1

/-! ### Format dispatch -/

theorem subStream_to_end (s : SeekableReadStream) (begin_ : Nat) :
    SeekableSubReadStream s begin_ s.size = { bytes := s.bytes.drop begin_, position := 0 } := by
  simp [SeekableSubReadStream, SeekableReadStream.size]

theorem be32At_bytes (b : List Nat) (p i : Nat) (s : SeekableReadStream) (h : s.bytes = b) :
    ({ bytes := b, position := p } : SeekableReadStream).be32At i = s.be32At i := by
  subst h; rfl

theorem le32At_bytes (b : List Nat) (p i : Nat) (s : SeekableReadStream) (h : s.bytes = b) :
    ({ bytes := b, position := p } : SeekableReadStream).le32At i = s.le32At i := by
  subst h; rfl

/-- The chunk walk of a `RIFF` stream in closed form. -/
theorem walkRIFF_eq (s : SeekableReadStream) :
    walkRIFF s =
      if s.be32At 12 ≠ tagFmt then .error .corruptFormat
      else if s.be32At (riffDataOffset s) ≠ tagData then .error .corruptFormat
      else if s.le32At (riffDataOffset s + 4) = 0 then
        .ok (true, { bytes := s.bytes.drop (riffDataOffset s + 8), position := 0 })
      else .ok (false, { bytes := s.bytes, position := 0 }) := by
  have hb : ∀ p i, ({ bytes := s.bytes, position := p } : SeekableReadStream).be32At i
      = s.be32At i := fun p i => rfl
  have hl : ∀ p i, ({ bytes := s.bytes, position := p } : SeekableReadStream).le32At i
      = s.le32At i := fun p i => rfl
  unfold walkRIFF riffDataOffset
  simp only [SeekableReadStream.seek, SeekableReadStream.readUint32BE,
    SeekableReadStream.readUint32LE, SeekableReadStream.skip, SeekableReadStream.pos,
    SeekableReadStream.size, SeekableSubReadStream, hb, hl, List.take_length]
  generalize s.le32At (12 + 4) = n
  have e0 : (12 + 4 : Nat) = 16 := rfl
  have e1 : 12 + 4 + 4 + n = 20 + n := by omega
  have e2 : 20 + n + 4 = 24 + n := by omega
  simp only [e1, e2]
  by_cases hf : s.be32At 12 = tagFmt
  · simp only [hf, ne_eq, not_true_eq_false, if_false]
    by_cases hfact : s.be32At (20 + n) = tagFact
    · simp only [hfact, if_true]
      generalize s.le32At (24 + n) = k
      have e3 : 24 + n + 4 + k = 28 + n + k := by omega
      have e4 : 28 + n + k + 4 + 4 = 28 + n + k + 8 := by omega
      simp only [e3, e4, hl]
    · simp only [hfact, if_false, hl]
      have e5 : 24 + n + 4 = 20 + n + 8 := by omega
      simp only [e5, ← e2]
  · simp only [hf, ne_eq, not_false_eq_true, if_true]

theorem walkRIFF_position (s : SeekableReadStream) (p : Nat) :
    walkRIFF { bytes := s.bytes, position := p } = walkRIFF s := rfl

/-- C15: for a stream read from its start that begins with `RIFF`, has `fmt ` at
offset 12 and, after the `fmt ` chunk and at most one `fact` chunk, the tag `data`:
if the size declared after `data` is 0, `makeAudioStream` gives the MP3 decoder the
sub-stream that begins right after the size field and ends with the stream; if the
size is not 0, it gives the WAVE decoder the whole stream at position 0. -/
theorem makeAudioStream_riff (lib : AudioLibrary) (s : SeekableReadStream)
    (hp : s.position = 0) (hriff : s.be32At 0 = tagRIFF) (hfmt : s.be32At 12 = tagFmt)
    (hdata : s.be32At (riffDataOffset s) = tagData) :
    (s.le32At (riffDataOffset s + 4) = 0 →
      makeAudioStream lib s = .ok (lib.makeMP3Stream
        { bytes := s.bytes.drop (riffDataOffset s + 8), position := 0 })) ∧
    (s.le32At (riffDataOffset s + 4) ≠ 0 →
      makeAudioStream lib s = .ok (lib.makeWAVStream { bytes := s.bytes, position := 0 })) := by
  have hw := walkRIFF_eq s
  simp only [hfmt, hdata, ne_eq, not_true_eq_false, if_false] at hw
  have hne : tagRIFF ≠ 0xfff360c4 := by decide
  constructor
  · intro hd
    rw [if_pos hd] at hw
    simp [makeAudioStream, SeekableReadStream.readUint32BE, hp, hriff, hne,
      walkRIFF_position, hw, Except.map]
  · intro hd
    rw [if_neg hd] at hw
    simp [makeAudioStream, SeekableReadStream.readUint32BE, hp, hriff, hne,
      walkRIFF_position, hw, Except.map]

/-- C15, witness: `riffMP3Stream`, whose `data` tag stands at offset 48 and declares
the size 0. -/
theorem makeAudioStream_riff_witness :
    makeAudioStream tracingLibrary riffMP3Stream = .ok (tracingLibrary.makeMP3Stream
      { bytes := riffMP3Stream.bytes.drop (riffDataOffset riffMP3Stream + 8), position := 0 }) :=
  (makeAudioStream_riff tracingLibrary riffMP3Stream (by decide) (by decide) (by decide)
    (by decide)).1 (by decide)

theorem makeAudioStream_sentinel_eq (lib : AudioLibrary) (s : SeekableReadStream)
    (hp : s.position = 0) (htag : s.be32At 0 = 0xfff360c4) :
    makeAudioStream lib s
      = .ok (lib.makeWAVStream { bytes := s.bytes.drop 0x1D6, position := 0 }) := by
  simp [makeAudioStream, SeekableReadStream.readUint32BE, hp, htag, SeekableSubReadStream,
    SeekableReadStream.size]

/-- C16, counterexample: `sentinelStream` begins with FF F3 60 C4; `makeAudioStream`
gives the bytes from offset 0x1D6 on to the WAVE decoder (the stream it returns has
the mark 3 of the WAVE decoder of `tracingLibrary`), not to the MP3 decoder. -/
theorem sentinel_goes_to_wave_decoder :
    sentinelStream.be32At 0 = 0xfff360c4 ∧
    makeAudioStream tracingLibrary sentinelStream = .ok (tracingLibrary.makeWAVStream
      { bytes := sentinelStream.bytes.drop 0x1D6, position := 0 }) ∧
    makeAudioStream tracingLibrary sentinelStream ≠ .ok (tracingLibrary.makeMP3Stream
      { bytes := sentinelStream.bytes.drop 0x1D6, position := 0 }) := by
  have h0 : sentinelStream.be32At 0 = 0xfff360c4 := by decide
  have h := makeAudioStream_sentinel_eq tracingLibrary sentinelStream (by decide) h0
  refine ⟨h0, h, ?_⟩
  rw [h]
  simp [tracingLibrary]

/-- C16, amended: for a stream read from its start whose first four bytes are
FF F3 60 C4, `makeAudioStream` skips the header of 0x1D6 bytes and gives the rest of
the stream, from offset 0x1D6 to its end, to the WAVE decoder. -/
theorem makeAudioStream_sentinel (lib : AudioLibrary) (s : SeekableReadStream)
    (hp : s.position = 0) (htag : s.be32At 0 = 0xfff360c4) :
    makeAudioStream lib s
      = .ok (lib.makeWAVStream { bytes := s.bytes.drop 0x1D6, position := 0 }) :=
  makeAudioStream_sentinel_eq lib s hp htag

/-- C16, witness: `sentinelStream`. -/
theorem makeAudioStream_sentinel_witness :
    makeAudioStream tracingLibrary sentinelStream
      = .ok (tracingLibrary.makeWAVStream
          { bytes := sentinelStream.bytes.drop 0x1D6, position := 0 }) :=
  makeAudioStream_sentinel tracingLibrary sentinelStream (by decide) (by decide)

/-- C17: for a stream read from its start whose first four bytes are neither
FF F3 60 C4 nor `RIFF` nor `OggS`, and which does not begin with `BMU ` followed by
`V1.0`, `makeAudioStream` fails with "Unknown sound format" and calls no decoder; so it
does for a stream that begins with `BMU ` followed by another version tag. -/
theorem makeAudioStream_unknown (lib : AudioLibrary) (s : SeekableReadStream)
    (hp : s.position = 0) (h1 : s.be32At 0 ≠ 0xfff360c4) (h2 : s.be32At 0 ≠ tagRIFF)
    (h3 : s.be32At 0 ≠ tagOggS) (h4 : ¬ (s.be32At 0 = tagBMU ∧ s.be32At 4 = tagV10)) :
    makeAudioStream lib s = .error .unknownFormat ∧
    (s.be32At 0 = tagBMU → s.be32At 4 ≠ tagV10 →
      makeAudioStream lib s = .error .unknownFormat) := by
  have hb : ∀ p i, ({ bytes := s.bytes, position := p } : SeekableReadStream).be32At i
      = s.be32At i := fun p i => rfl
  have key : makeAudioStream lib s = .error .unknownFormat := by
    by_cases hbmu : s.be32At 0 = tagBMU
    · have hv : s.be32At 4 ≠ tagV10 := fun hv => h4 ⟨hbmu, hv⟩
      have n1 : tagBMU ≠ 0xfff360c4 := by decide
      have n2 : tagBMU ≠ tagRIFF := by decide
      have n3 : tagBMU ≠ tagOggS := by decide
      simp [makeAudioStream, SeekableReadStream.readUint32BE, hp, hbmu, hb, hv, n1, n2, n3]
    · simp [makeAudioStream, SeekableReadStream.readUint32BE, hp, h1, h2, h3, hbmu]
  exact ⟨key, fun _ _ => key⟩

/-- C17, witness: `bmu2Stream`, which begins with `BMU V2.0`. -/
theorem makeAudioStream_unknown_witness :
    makeAudioStream tracingLibrary bmu2Stream = .error .unknownFormat :=
  (makeAudioStream_unknown tracingLibrary bmu2Stream (by decide) (by decide) (by decide)
    (by decide) (by decide)).1

/-- C18: for a stream read from its start that begins with `RIFF`, `makeAudioStream`
fails with the error of a corrupt WAVE file and calls no decoder when the tag at
offset 12 is not `fmt `, and when the tag after the `fmt ` chunk and at most one `fact`
chunk is not `data`. -/
theorem makeAudioStream_corrupt (lib : AudioLibrary) (s : SeekableReadStream)
    (hp : s.position = 0) (hriff : s.be32At 0 = tagRIFF) :
    (s.be32At 12 ≠ tagFmt → makeAudioStream lib s = .error .corruptFormat) ∧
    (s.be32At 12 = tagFmt → s.be32At (riffDataOffset s) ≠ tagData →
      makeAudioStream lib s = .error .corruptFormat) := by
  have hw := walkRIFF_eq s
  have hne : tagRIFF ≠ 0xfff360c4 := by decide
  constructor
  · intro hfmt
    rw [if_pos hfmt] at hw
    simp [makeAudioStream, SeekableReadStream.readUint32BE, hp, hriff, hne,
      walkRIFF_position, hw, Except.map]
  · intro hfmt hdata
    rw [if_neg (by simpa using hfmt), if_pos hdata] at hw
    simp [makeAudioStream, SeekableReadStream.readUint32BE, hp, hriff, hne,
      walkRIFF_position, hw, Except.map]

/-- C18, witness: `brokenRiffStream`, whose tag at offset 12 is not `fmt `. -/
theorem makeAudioStream_corrupt_witness :
    makeAudioStream tracingLibrary brokenRiffStream = .error .corruptFormat :=
  (makeAudioStream_corrupt tracingLibrary brokenRiffStream (by decide) (by decide)).1
    (by decide)

/-- C19: for a stream read from its start that begins with `BMU ` followed by `V1.0`,
`makeAudioStream` gives the MP3 decoder the sub-stream that begins after the 8 bytes
of the header and ends with the stream; for a stream that begins with `OggS` it gives
the Vorbis decoder the whole stream at position 0. -/
theorem makeAudioStream_bmu_ogg (lib : AudioLibrary) (s : SeekableReadStream)
    (hp : s.position = 0) :
    (s.be32At 0 = tagBMU → s.be32At 4 = tagV10 →
      makeAudioStream lib s = .ok (lib.makeMP3Stream { bytes := s.bytes.drop 8, position := 0 })) ∧
    (s.be32At 0 = tagOggS →
      makeAudioStream lib s = .ok (lib.makeVorbisStream { bytes := s.bytes, position := 0 })) := by
  have hb : ∀ p i, ({ bytes := s.bytes, position := p } : SeekableReadStream).be32At i
      = s.be32At i := fun p i => rfl
  constructor
  · intro h1 h2
    have n1 : tagBMU ≠ 0xfff360c4 := by decide
    have n2 : tagBMU ≠ tagRIFF := by decide
    simp [makeAudioStream, SeekableReadStream.readUint32BE, hp, h1, h2, hb, n1, n2,
      SeekableSubReadStream, SeekableReadStream.size, SeekableReadStream.pos]
  · intro h1
    have n1 : tagOggS ≠ 0xfff360c4 := by decide
    have n2 : tagOggS ≠ tagRIFF := by decide
    have n3 : tagOggS ≠ tagBMU := by decide
    simp [makeAudioStream, SeekableReadStream.readUint32BE, hp, h1, n1, n2, n3,
      SeekableReadStream.seek]

/-- C19, witness: `bmuStream`. -/
theorem makeAudioStream_bmu_ogg_witness :
    makeAudioStream tracingLibrary bmuStream
      = .ok (tracingLibrary.makeMP3Stream { bytes := bmuStream.bytes.drop 8, position := 0 }) :=
  (makeAudioStream_bmu_ogg tracingLibrary bmuStream (by decide)).1 (by decide) (by decide)

/-! ### playSoundFile -/

/-- The channel of a successful `playAudioStream` carries the ownership flag and the
stream of the call. -/
theorem playAudioStream_ok_channel (m : SoundManager) (a : AudioStream) (T : Nat) (d : Bool)
    (h : ChannelHandle) (hok : (m.playAudioStream (some a) T d).1 = .ok h) :
    ∃ c, (m.playAudioStream (some a) T d).2.channels h.channel = some c ∧
      c.disposeAfterUse = d ∧ c.stream.map AudioStream.ident = some a.ident := by
  obtain ⟨m1, m2, hn, hsu, hp⟩ := playAudioStream_ok_inv m a T d h hok
  obtain ⟨c, src, s1, -, -, s4, -, -, s7, -⟩ := setupChannel_ok _ _ _ _ hsu
  rw [hp]
  exact ⟨c, by rw [s1]; simp, s4, s7⟩

theorem playSoundFile_ready (m : SoundManager) (lib : AudioLibrary) (w : SeekableReadStream)
    (T : Nat) (loop : Bool) (hr : m.ready = true) (a : AudioStream)
    (hmake : makeAudioStream lib w = .ok (some a)) :
    m.playSoundFile lib (some w) T loop =
      m.playAudioStream
        (some (if loop = true ∧ a.rewindable = true then lib.makeLoopingAudioStream a 0 else a))
        T true := by
  cases loop <;> cases hrw : a.rewindable <;>
    simp [SoundManager.playSoundFile, SoundManager.checkReady, hr, hmake, hrw]

theorem playSoundFile_null (m : SoundManager) (lib : AudioLibrary) (w : SeekableReadStream)
    (T : Nat) (loop : Bool) (hr : m.ready = true)
    (hmake : makeAudioStream lib w = .ok none) :
    m.playSoundFile lib (some w) T loop = m.playAudioStream none T true := by
  cases loop <;> simp [SoundManager.playSoundFile, SoundManager.checkReady, hr, hmake]

theorem playAudioStream_null (m : SoundManager) (T : Nat) (d : Bool) (h : ChannelHandle) :
    (m.playAudioStream none T d).1 ≠ .ok h := by
  unfold SoundManager.playAudioStream
  intro hok
  split at hok
  · cases hok
  · split at hok <;> cases hok

/-- C20: `playSoundFile` fails with "SoundManager not ready" when the manager is not
ready and, when it is ready, with "No stream" when the stream is null.  On a ready
manager, when `makeAudioStream` returns the stream `a`: without `loop` it is
`playAudioStream(a, type, true)`; with `loop` and `a` not rewindable it is the same
call, so it plays the stream once exactly as without `loop`; with `loop` and `a`
rewindable it is `playAudioStream(makeLoopingAudioStream(a, 0), type, true)`.
Whenever `playSoundFile` succeeds, the channel of the returned handle has
`disposeAfterUse` set. -/
theorem playSoundFile_spec (m : SoundManager) (lib : AudioLibrary) (T : Nat) :
    (m.ready = false → ∀ w loop, m.playSoundFile lib w T loop = (.error .notReady, m)) ∧
    (m.ready = true → ∀ loop, m.playSoundFile lib none T loop = (.error .noStream, m)) ∧
    (m.ready = true → ∀ w a, makeAudioStream lib w = .ok (some a) →
      m.playSoundFile lib (some w) T false = m.playAudioStream (some a) T true ∧
      (a.rewindable = false →
        m.playSoundFile lib (some w) T true = m.playAudioStream (some a) T true ∧
        m.playSoundFile lib (some w) T true = m.playSoundFile lib (some w) T false) ∧
      (a.rewindable = true →
        m.playSoundFile lib (some w) T true
          = m.playAudioStream (some (lib.makeLoopingAudioStream a 0)) T true)) ∧
    (∀ w loop h, (m.playSoundFile lib w T loop).1 = .ok h →
      ∃ c, (m.playSoundFile lib w T loop).2.channels h.channel = some c ∧
        c.disposeAfterUse = true) := by
  refine ⟨fun hr w loop => ?_, fun hr loop => ?_, fun hr w a hmake => ?_, fun w loop h hok => ?_⟩
  · simp [SoundManager.playSoundFile, SoundManager.checkReady, hr]
  · simp [SoundManager.playSoundFile, SoundManager.checkReady, hr]
  · have h0 := playSoundFile_ready m lib w T false hr a hmake
    have h1 := playSoundFile_ready m lib w T true hr a hmake
    simp only [Bool.false_eq_true, false_and, if_false] at h0
    refine ⟨h0, fun hrw => ?_, fun hrw => ?_⟩
    · simp only [hrw, Bool.false_eq_true, and_false, if_false] at h1
      exact ⟨h1, h1.trans h0.symm⟩
    · simp only [hrw, and_self, if_true] at h1
      exact h1
  · by_cases hr : m.ready = true
    · cases w with
      | none => simp [SoundManager.playSoundFile, SoundManager.checkReady, hr] at hok
      | some w =>
        cases hmake : makeAudioStream lib w with
        | error e =>
          simp [SoundManager.playSoundFile, SoundManager.checkReady, hr, hmake] at hok
        | ok oa =>
          cases oa with
          | none =>
            rw [playSoundFile_null m lib w T loop hr hmake] at hok
            exact absurd hok (playAudioStream_null m T true h)
          | some a =>
            rw [playSoundFile_ready m lib w T loop hr a hmake] at hok ⊢
            obtain ⟨c, h1, h2, -⟩ := playAudioStream_ok_channel m _ T true h hok
            exact ⟨c, h1, h2⟩
    · have hr' : m.ready = false := by simpa using hr
      simp [SoundManager.playSoundFile, SoundManager.checkReady, hr'] at hok

/-- C20, witness: on the small manager `playSoundFile` with `loop` plays the rewindable
stream of `riffWAVStream` wrapped in the looping decorator and the stream of
`riffMP3Stream`, which cannot be rewound, exactly as without `loop`; on a manager that
was never initialised it fails with "SoundManager not ready". -/
theorem playSoundFile_spec_witness :
    smallManager.playSoundFile tracingLibrary (some riffWAVStream) 1 true
      = smallManager.playAudioStream
          (some (tracingLibrary.makeLoopingAudioStream
            { ident := 3, stereo := false, rate := 22050, remaining := 48, rewindable := true } 0))
          1 true ∧
    smallManager.playSoundFile tracingLibrary (some riffMP3Stream) 1 true
      = smallManager.playSoundFile tracingLibrary (some riffMP3Stream) 1 false ∧
    (SoundManager.constructed 4 3).playSoundFile tracingLibrary (some riffWAVStream) 1 true
      = (.error .notReady, SoundManager.constructed 4 3) :=
  ⟨((playSoundFile_spec smallManager tracingLibrary 1).2.2.1 (by decide) riffWAVStream
      { ident := 3, stereo := false, rate := 22050, remaining := 48, rewindable := true }
      (by decide)).2.2 (by decide),
   (((playSoundFile_spec smallManager tracingLibrary 1).2.2.1 (by decide) riffMP3Stream
      { ident := 1, stereo := false, rate := 44100, remaining := 3 }
      (by decide)).2.1 (by decide)).2,
   (playSoundFile_spec (SoundManager.constructed 4 3) tracingLibrary 1).1 (by decide)
      (some riffWAVStream) true⟩

/-! ### init and deinit -/

theorem freeChannel_al (m : SoundManager) (i : Nat) (c : Channel) (hi : i ≠ 0)
    (hc : m.channels i = some c) :
    (m.freeChannel i).al =
      c.buffers.foldl alDeleteBuffers
        (if c.source ≠ 0 then alDeleteSources m.al c.source else m.al) := by
  simp [SoundManager.freeChannel, hi, hc]

/-- What `freeChannel` has deleted stays deleted: it creates no source and no buffer. -/
theorem freeChannel_gone (m : SoundManager) (i : Nat) :
    (∀ s, m.al.sources s = none → (m.freeChannel i).al.sources s = none) ∧
    (∀ b, m.al.buffers b = none → (m.freeChannel i).al.buffers b = none) := by
  by_cases hi : i = 0
  · subst hi; rw [freeChannel_zero]; exact ⟨fun _ h => h, fun _ h => h⟩
  · cases hc : m.channels i with
    | none => rw [freeChannel_empty m i hc]; exact ⟨fun _ h => h, fun _ h => h⟩
    | some c =>
      rw [freeChannel_al m i c hi hc]
      constructor
      · intro s hs
        rw [deleteAll_sources]
        by_cases h0 : c.source ≠ 0
        · rw [if_pos h0, alDeleteSources_sources]
          by_cases hsc : s = c.source
          · subst hsc; simp
          · simp [Function.update_apply, hsc, hs]
        · rw [if_neg h0]; exact hs
      · intro b hb
        rw [deleteAll_buffers]
        by_cases hbm : b ∈ c.buffers
        · simp [hbm]
        · simp only [hbm, if_false]
          by_cases h0 : c.source ≠ 0
          · rw [if_pos h0, alDeleteSources_buffers]; exact hb
          · rw [if_neg h0]; exact hb

/-- After `freeChannel` the source and the buffers of the channel are deleted. -/
theorem freeChannel_deletes (m : SoundManager) (i : Nat) (c : Channel) (hi : i ≠ 0)
    (hc : m.channels i = some c) :
    (c.source ≠ 0 → (m.freeChannel i).al.sources c.source = none) ∧
    (∀ b ∈ c.buffers, (m.freeChannel i).al.buffers b = none) := by
  rw [freeChannel_al m i c hi hc]
  constructor
  · intro h0
    rw [deleteAll_sources, if_pos h0, alDeleteSources_sources]
    simp
  · intro b hb
    rw [deleteAll_buffers]
    simp [hb]

theorem freeAll_gone (fuel : Nat) : ∀ (i : Nat) (m : SoundManager),
    (∀ s, m.al.sources s = none → (m.freeAll fuel i).al.sources s = none) ∧
    (∀ b, m.al.buffers b = none → (m.freeAll fuel i).al.buffers b = none) := by
  induction fuel with
  | zero => intro i m; exact ⟨fun _ h => h, fun _ h => h⟩
  | succ n ih =>
    intro i m
    rw [SoundManager.freeAll]
    have h1 := freeChannel_gone m i
    have h2 := ih (i + 1) (m.freeChannel i)
    exact ⟨fun s hs => h2.1 s (h1.1 s hs), fun b hb => h2.2 b (h1.2 b hb)⟩

theorem freeAll_channels (fuel : Nat) : ∀ (i : Nat) (m : SoundManager) (j : Nat),
    (m.freeAll fuel i).channels j =
      if i ≤ j ∧ j < i + fuel ∧ j ≠ 0 then none else m.channels j := by
  induction fuel with
  | zero =>
    intro i m j
    have h : ¬ (i ≤ j ∧ j < i + 0 ∧ j ≠ 0) := by omega
    rw [if_neg h]; rfl
  | succ n ih =>
    intro i m j
    rw [SoundManager.freeAll, ih]
    by_cases hi : i = 0
    · subst hi
      rw [freeChannel_zero]
      by_cases hj : j = 0
      · simp [hj]
      · have e1 : (0 + 1 ≤ j ∧ j < 0 + 1 + n ∧ j ≠ 0) ↔ (0 ≤ j ∧ j < 0 + (n + 1) ∧ j ≠ 0) := by
          constructor <;> intro h <;> refine ⟨by omega, by omega, hj⟩
        simp only [e1]
    · rw [freeChannel_channels m i hi]
      by_cases hji : j = i
      · subst hji
        have e1 : ¬ (j + 1 ≤ j ∧ j < j + 1 + n ∧ j ≠ 0) := by omega
        have e2 : (j ≤ j ∧ j < j + (n + 1) ∧ j ≠ 0) := ⟨le_refl _, by omega, hi⟩
        simp [e1, e2]
      · have e1 : (i + 1 ≤ j ∧ j < i + 1 + n ∧ j ≠ 0) ↔ (i ≤ j ∧ j < i + (n + 1) ∧ j ≠ 0) := by
          constructor <;> intro h <;> refine ⟨by omega, by omega, h.2.2⟩
        simp only [e1, Function.update_apply, hji, if_false]

theorem freeAll_deletes (fuel : Nat) : ∀ (i : Nat) (m : SoundManager) (j : Nat) (c : Channel),
    i ≤ j → j < i + fuel → j ≠ 0 → m.channels j = some c →
    (c.source ≠ 0 → (m.freeAll fuel i).al.sources c.source = none) ∧
    (∀ b ∈ c.buffers, (m.freeAll fuel i).al.buffers b = none) := by
  induction fuel with
  | zero => intro i m j c h1 h2; omega
  | succ n ih =>
    intro i m j c h1 h2 h0 hc
    rw [SoundManager.freeAll]
    by_cases hji : j = i
    · subst hji
      have hd := freeChannel_deletes m j c h0 hc
      have hg := freeAll_gone n (j + 1) (m.freeChannel j)
      exact ⟨fun hs => hg.1 _ (hd.1 hs), fun b hb => hg.2 _ (hd.2 b hb)⟩
    · have hcj : (m.freeChannel i).channels j = some c := by
        by_cases hi : i = 0
        · subst hi; rw [freeChannel_zero]; exact hc
        · rw [freeChannel_channels m i hi]; simp [Function.update_apply, hji, hc]
      exact ih (i + 1) (m.freeChannel i) j c (by omega) (by omega) h0 hcj

theorem freeAll_ready (fuel : Nat) : ∀ (i : Nat) (m : SoundManager),
    (m.freeAll fuel i).kChannelCount = m.kChannelCount := by
  induction fuel with
  | zero => intro i m; rfl
  | succ n ih => intro i m; rw [SoundManager.freeAll, ih, freeChannel_kChannelCount]

/-- C21: a successful `init()` leaves the manager ready, with every slot of the table
empty and the gain of every sound type at 1.0; a failing `init()` leaves `ready` as it
was, so false stays false.  `deinit()` on a ready manager leaves it not ready, with
every slot from 1 on empty and slot 0 as it was (empty, from `init()` on), and with the
source and every buffer of every channel that was in the table deleted; `deinit()` on
a manager that is not ready returns the manager unchanged. -/
theorem init_deinit_spec (m : SoundManager) :
    (∀ d c t, (m.init d c t).1 = .ok () →
      (m.init d c t).2.ready = true ∧
      (∀ i, i < m.kChannelCount → (m.init d c t).2.channels i = none) ∧
      (∀ T, T < m.kSoundTypeMAX → ((m.init d c t).2.types T).gain = ALfloat.one)) ∧
    (∀ d c t, (m.init d c t).1 ≠ .ok () → (m.init d c t).2.ready = m.ready) ∧
    (m.ready = true →
      m.deinit.ready = false ∧
      (∀ i, 1 ≤ i → i < m.kChannelCount → m.deinit.channels i = none) ∧
      m.deinit.channels 0 = m.channels 0 ∧
      (∀ i c, 1 ≤ i → i < m.kChannelCount → m.channels i = some c →
        (c.source ≠ 0 → m.deinit.al.sources c.source = none) ∧
        (∀ b ∈ c.buffers, m.deinit.al.buffers b = none))) ∧
    (m.ready = false → m.deinit = m) := by
  refine ⟨?_, ?_, ?_, ?_⟩
  · intro d c t hok
    cases d <;> cases c <;> cases t <;>
      simp [SoundManager.init] at hok ⊢
    exact ⟨fun i hi => by simp [hi], fun T hT => by simp [hT]⟩
  · intro d c t hne
    cases d <;> cases c <;> cases t <;> simp [SoundManager.init] at hne ⊢
  · intro hr
    have hd : m.deinit = { (({ m with thread := false } : SoundManager).freeAll
        (m.kChannelCount - 1) 1) with dev := false, ctx := false, ready := false } := by
      simp [SoundManager.deinit, hr]
    rw [hd]
    refine ⟨rfl, ?_, ?_, ?_⟩
    · intro i h1 h2
      show (({ m with thread := false } : SoundManager).freeAll (m.kChannelCount - 1) 1).channels i
        = none
      rw [freeAll_channels]
      have : 1 ≤ i ∧ i < 1 + (m.kChannelCount - 1) ∧ i ≠ 0 := ⟨h1, by omega, by omega⟩
      simp [this]
    · show (({ m with thread := false } : SoundManager).freeAll (m.kChannelCount - 1) 1).channels 0
        = m.channels 0
      rw [freeAll_channels]
      simp
    · intro i c h1 h2 hc
      exact freeAll_deletes (m.kChannelCount - 1) 1 { m with thread := false } i c h1
        (by omega) (by omega) hc
  · intro hr
    simp [SoundManager.deinit, hr]

/-- C21, witness: `deinit()` on `playingManager`, whose slot 1 holds a channel with
the source 1 and the buffers 2 to 6. -/
theorem init_deinit_spec_witness :
    playingManager.deinit.ready = false ∧
    (∀ i, 1 ≤ i → i < playingManager.kChannelCount → playingManager.deinit.channels i = none) ∧
    playingManager.deinit.al.sources 1 = none ∧
    playingManager.deinit.al.buffers 2 = none :=
  ⟨((init_deinit_spec playingManager).2.2.1 (by decide)).1,
   ((init_deinit_spec playingManager).2.2.1 (by decide)).2.1,
   (((init_deinit_spec playingManager).2.2.1 (by decide)).2.2.2 1 playingChannel (by decide)
      (by decide) (by decide)).1 (by decide),
   (((init_deinit_spec playingManager).2.2.1 (by decide)).2.2.2 1 playingChannel (by decide)
      (by decide) (by decide)).2 2 (by decide)⟩

/-! ### Handles outside the table -/

/-- C29: the operations that take a handle do not compare `handle.channel` with
`kChannelCount`.  For a handle whose two fields are not 0 and whose channel index is
`kChannelCount` or more, each of them reads `_channels[handle.channel]` outside the
table (the outcome `outOfBounds` marks that read) instead of treating the handle as
invalid. -/
theorem garbage_handle_reads_outside_table (m : SoundManager) (h : ChannelHandle)
    (hout : m.kChannelCount ≤ h.channel) (h0 : h.channel ≠ 0) (hid : h.id ≠ 0) :
    m.slot h.channel = .error .outOfBounds ∧
    m.isValidChannel h = .error .outOfBounds ∧
    (m.isPlaying h).1 = .error .outOfBounds ∧
    (m.startChannel h).1 = .error .outOfBounds ∧
    (∀ p, (m.pauseChannel h p).1 = .error .outOfBounds) ∧
    (m.stopChannel h).1 = .error .outOfBounds ∧
    (∀ x y z, (m.setChannelPosition h x y z).1 = .error .outOfBounds) ∧
    (∀ out, (m.getChannelPosition h out).1 = .error .outOfBounds) ∧
    (∀ g, (m.setChannelGain h g).1 = .error .outOfBounds) := by
  have hs : m.slot h.channel = .error .outOfBounds := by
    simp [SoundManager.slot, Nat.not_lt.2 hout]
  have hg : m.getChannel h = .error .outOfBounds := by
    simp [SoundManager.getChannel, h0, hid, hs]
  refine ⟨hs, ?_, ?_, ?_, ?_, ?_, ?_, ?_, ?_⟩
  · simp [SoundManager.isValidChannel, h0, hid, hs]
  · simp [SoundManager.isPlaying, h0, hid, hs]
  · simp [SoundManager.startChannel, hg]
  · intro p; simp [SoundManager.pauseChannel, hg]
  · simp [SoundManager.stopChannel, SoundManager.freeChannelHandle, h0, hid, hs]
  · intro x y z; simp [SoundManager.setChannelPosition, hg]
  · intro out; simp [SoundManager.getChannelPosition, hg]
  · intro g; simp [SoundManager.setChannelGain, hg]

/-- C29, witness: the handle (4, 1) on the small manager, whose table has the slots 0
to 3. -/
theorem garbage_handle_reads_outside_table_witness :
    smallManager.isValidChannel ⟨4, 1⟩ = .error .outOfBounds ∧
    (smallManager.stopChannel ⟨4, 1⟩).1 = .error .outOfBounds :=
  ⟨(garbage_handle_reads_outside_table smallManager ⟨4, 1⟩ (by decide) (by decide)
      (by decide)).2.1,
   (garbage_handle_reads_outside_table smallManager ⟨4, 1⟩ (by decide) (by decide)
      (by decide)).2.2.2.2.2.1⟩

/-- A handle with a field that is 0, or with its channel index inside the table, makes
none of the reads fall outside the table. -/
theorem handle_read_inside_table (m : SoundManager) (h : ChannelHandle)
    (hin : h.channel < m.kChannelCount ∨ h.channel = 0 ∨ h.id = 0) :
    m.isValidChannel h ≠ .error .outOfBounds ∧ m.getChannel h ≠ .error .outOfBounds := by
  by_cases h0 : h.channel = 0 ∨ h.id = 0
  · simp [SoundManager.isValidChannel, SoundManager.getChannel, h0]
  · have hlt : h.channel < m.kChannelCount := by
      rcases hin with hin | hin | hin
      · exact hin
      · exact absurd (Or.inl hin) h0
      · exact absurd (Or.inr hin) h0
    simp only [SoundManager.isValidChannel, SoundManager.getChannel, h0, if_false,
      SoundManager.slot, hlt, if_true]
    cases m.channels h.channel with
    | none => simp
    | some c => by_cases hc : c.id = h.id <;> simp [hc]

/-! ### Play commands -/

theorem PlaysWithin.one (P : Nat → Prop) (al al' : OpenAL) (c : ALCall)
    (h : al'.calls = al.calls ++ [c]) (hc : ∀ s, c ≠ .sourcePlay s) : PlaysWithin P al al' := by
  refine ⟨[c], h, ?_⟩
  intro s hs
  simp only [List.mem_singleton] at hs
  exact absurd hs.symm (hc s)

theorem alGetError_calls (al : OpenAL) : (alGetError al).2.calls = al.calls := rfl

theorem bufferDataChannel_voice (c : Channel) (al : OpenAL) :
    (bufferDataChannel c al).2.1.source = c.source ∧
    (bufferDataChannel c al).2.1.state = c.state ∧
    (bufferDataChannel c al).2.1.type = c.type ∧
    (bufferDataChannel c al).2.1.typeIt = c.typeIt ∧
    (bufferDataChannel c al).2.1.buffers = c.buffers ∧
    (bufferDataChannel c al).2.1.disposeAfterUse = c.disposeAfterUse := by
  unfold bufferDataChannel
  split <;> simp

/-- The state after `isPlaying(uint16)` on an occupied slot whose source exists. -/
theorem isPlayingChannel_eq (m : SoundManager) (i : Nat) (c : Channel) (src : Source)
    (hi : i ≠ 0) (hc : m.channels i = some c) (hs : m.al.sources c.source = some src) :
    (m.isPlayingChannel i).2 =
      if src.state ≠ AL_PLAYING ∧ c.terminal src = false ∧ c.state = AL_PLAYING then
        { m with al := alSourcePlay m.al c.source }
      else m := by
  unfold SoundManager.isPlayingChannel Channel.terminal
  simp only [hi, if_false, hc, alGetSourcei_state _ _ _ _ hs, alGetSourcei_queued _ _ _ _ hs,
    alGetSourcei_processed _ _ _ _ hs]
  by_cases hst : src.state = AL_PLAYING
  · simp [hst]
  · cases hstream : c.stream with
    | none =>
      by_cases hq : src.queue.length = src.processed
      · simp [hst, hq]
      · by_cases hd : c.state = AL_PLAYING
        · simp [hst, hq, hd]
        · simp [hst, hq, hd]
    | some s =>
      by_cases he : s.endOfStream = true
      · by_cases hq : src.queue.length = src.processed
        · simp [hst, hq, he]
        · by_cases hd : c.state = AL_PLAYING
          · simp [hst, hq, hd, he]
          · simp [hst, hq, hd, he]
      · by_cases hd : c.state = AL_PLAYING
        · simp [hst, hd, he]
        · simp [hst, hd, he]

theorem bufferData_channels (m : SoundManager) (i j : Nat) (c' : Channel)
    (h : (m.bufferData i).2.channels j = some c') :
    ∃ c, m.channels j = some c ∧ c.source = c'.source ∧ c.state = c'.state ∧
      c.id = c'.id ∧ c.type = c'.type ∧ c.typeIt = c'.typeIt ∧ c.buffers = c'.buffers := by
  unfold SoundManager.bufferData at h
  by_cases hi : i = 0
  · simp only [hi, if_true] at h
    exact ⟨c', h, rfl, rfl, rfl, rfl, rfl, rfl⟩
  · simp only [hi, if_false] at h
    cases hc : m.channels i with
    | none =>
      simp only [hc] at h
      exact ⟨c', h, rfl, rfl, rfl, rfl, rfl, rfl⟩
    | some c =>
      simp only [hc, SoundManager.setSlot] at h
      by_cases hji : j = i
      · subst hji
        simp only [Function.update_same, Option.some.injEq] at h
        subst h
        have hv := bufferDataChannel_voice c m.al
        exact ⟨c, hc, hv.1.symm, hv.2.1.symm, (bufferDataChannel_id c m.al).symm, hv.2.2.1.symm,
          hv.2.2.2.1.symm, hv.2.2.2.2.1.symm⟩
      · simp only [Function.update_apply, hji, if_false] at h
        exact ⟨c', h, rfl, rfl, rfl, rfl, rfl, rfl⟩

theorem bufferData_other (m : SoundManager) (i j : Nat) (hj : j ≠ i) :
    (m.bufferData i).2.channels j = m.channels j := by
  unfold SoundManager.bufferData
  split
  · rfl
  · split
    · rfl
    · simp [SoundManager.setSlot, Function.update_apply, hj]

/-- The loop of `update` over `a + b` slots is the loop over the first `a` slots
followed, unless that one fails, by the loop over the other `b` slots. -/
theorem updateLoop_add (a : Nat) : ∀ (b i : Nat) (m : SoundManager),
    m.updateLoop (a + b) i =
      match m.updateLoop a i with
      | (.error e, m') => (.error e, m')
      | (.ok _, m') => m'.updateLoop b (i + a) := by
  induction a with
  | zero => intro b i m; simp [SoundManager.updateLoop]
  | succ n ih =>
    intro b i m
    have e1 : n + 1 + b = (n + b) + 1 := by omega
    have e2 : i + (n + 1) = i + 1 + n := by omega
    rw [e1, e2, SoundManager.updateLoop, SoundManager.updateLoop]
    cases hc : m.channels i with
    | none => exact ih b (i + 1) m
    | some c =>
      simp only []
      rcases hp : m.isPlayingChannel i with ⟨playing, m1⟩
      cases playing with
      | false =>
        simp only [Bool.not_false, if_true]
        exact ih b (i + 1) _
      | true =>
        simp only [Bool.not_true, Bool.false_eq_true, if_false]
        rcases hbd : m1.bufferData i with ⟨r, m2⟩
        cases r with
        | error e => rfl
        | ok u => exact ih b (i + 1) m2

theorem updateLoop_initial (a b i : Nat) (m : SoundManager)
    (hok : (m.updateLoop (a + b) i).1 = .ok ()) :
    (m.updateLoop a i).1 = .ok () ∧
    m.updateLoop (a + b) i = (m.updateLoop a i).2.updateLoop b (i + a) := by
  have h := updateLoop_add a b i m
  rcases hp : m.updateLoop a i with ⟨r, m'⟩
  rw [hp] at h
  cases r with
  | error e =>
    simp only [] at h
    rw [h] at hok
    cases hok
  | ok u =>
    simp only [] at h
    exact ⟨rfl, h⟩

theorem bufferData_slot (m : SoundManager) (j : Nat) (c : Channel) (hj : j ≠ 0)
    (hc : m.channels j = some c) :
    (m.bufferData j).2.channels j = some (bufferDataChannel c m.al).2.1 := by
  unfold SoundManager.bufferData
  simp [hj, hc, SoundManager.setSlot]

/-! ### Filling buffers -/

theorem readRounds_le (n : Nat) : ∀ s : AudioStream, (readRounds n s).1 ≤ n := by
  induction n with
  | zero => intro s; simp [readRounds]
  | succ k ih =>
    intro s
    rw [readRounds]
    split
    · simp
    · have := ih (s.readBuffer (samplesPerBuffer s)).2
      simp only []
      omega

theorem readRounds_end (n : Nat) (s : AudioStream) (h : s.endOfData = true) :
    readRounds n s = (0, s) := by
  cases n with
  | zero => rfl
  | succ k => rw [readRounds]; simp [h]

/-- The stream has no data left after the rounds, unless every buffer got data. -/
theorem readRounds_stop (n : Nat) : ∀ s : AudioStream,
    (readRounds n s).1 < n → (readRounds n s).2.endOfData = true := by
  induction n with
  | zero => intro s h; simp [readRounds] at h
  | succ k ih =>
    intro s h
    rw [readRounds] at h ⊢
    by_cases he : s.endOfData = true
    · simp [he]
    · simp only [he, Bool.false_eq_true, if_false] at h ⊢
      exact ih _ (by omega)

theorem readRounds_reads (n : Nat) : ∀ s : AudioStream,
    (readRounds n s).2.reads = s.reads + (readRounds n s).1 ∧
    (readRounds n s).2.ident = s.ident ∧ (readRounds n s).2.stereo = s.stereo ∧
    (readRounds n s).2.rate = s.rate := by
  induction n with
  | zero => intro s; simp [readRounds]
  | succ k ih =>
    intro s
    rw [readRounds]
    by_cases he : s.endOfData = true
    · simp [he]
    · simp only [he, Bool.false_eq_true, if_false]
      obtain ⟨a, b, c, d⟩ := ih (s.readBuffer (samplesPerBuffer s)).2
      exact ⟨by rw [a]; simp only [AudioStream.readBuffer]; omega, by rw [b]; rfl,
        by rw [c]; rfl, by rw [d]; rfl⟩

theorem attempt_facts (al : OpenAL) :
    al.attempt.2.sources = al.sources ∧ al.attempt.2.buffers = al.buffers ∧
    al.attempt.2.lastName = al.lastName ∧ al.attempt.2.error = al.error := by
  unfold OpenAL.attempt
  split <;> simp

/-- When no error is pending after `alSourceQueueBuffers`, the buffer was appended to
the queue of the source. -/
theorem alSourceQueueBuffers_ok (al : OpenAL) (source buffer : Nat) (src : Source)
    (hs : al.sources source = some src)
    (h : (alGetError (alSourceQueueBuffers al source buffer)).1 = AL_NO_ERROR) :
    (alSourceQueueBuffers al source buffer).sources =
      Function.update al.sources source (some { src with queue := src.queue ++ [buffer] }) := by
  unfold alSourceQueueBuffers at h ⊢
  obtain ⟨a1, a2, a3, a4⟩ := attempt_facts (al.record (.sourceQueueBuffers source buffer))
  simp only [] at h ⊢
  generalize (al.record (.sourceQueueBuffers source buffer)).attempt.1 = e at h ⊢
  generalize (al.record (.sourceQueueBuffers source buffer)).attempt.2 = al1 at h a1 a2 a3 a4 ⊢
  have hs1 : al1.sources source = some src := by rw [a1]; exact hs
  by_cases he : e ≠ AL_NO_ERROR
  · rw [if_pos he] at h
    exact absurd h (OpenAL.raise_error_ne _ _ he)
  · rw [if_neg he] at h
    rw [if_neg he]
    simp only [hs1] at h ⊢
    cases hb : al1.buffers buffer with
    | none =>
      simp only [hb, alGetError] at h
      exact absurd h (OpenAL.raise_error_ne _ _ (by decide))
    | some b =>
      simp only [a1]
      rfl

theorem hardware_or_true (P : Prop) [Decidable P] (r : Bool)
    (h : (if P then (Except.error Error.hardware : Except Error Bool) else .ok true) = .ok r) :
    r = true := by
  split_ifs at h
  simp only [Except.ok.injEq] at h
  exact h.symm

/-- The outcome and the stream of a `fillBuffer` that did not fail. -/
theorem fillBuffer_ok (al : OpenAL) (source buffer : Nat) (s : AudioStream) (r : Bool)
    (st : Option AudioStream) (al' : OpenAL)
    (h : fillBuffer al source buffer (some s) = (.ok r, st, al')) :
    r = !s.endOfData ∧
    st = some (if s.endOfData then s else (s.readBuffer (samplesPerBuffer s)).2) ∧
    (s.endOfData = true → al' = al) := by
  unfold fillBuffer at h
  by_cases he : s.endOfData = true
  · simp only [he, if_true, Prod.mk.injEq, Except.ok.injEq] at h
    obtain ⟨h1, h2, h3⟩ := h
    simp [he, ← h1, ← h2, ← h3]
  · simp only [he, Bool.false_eq_true, if_false, Prod.mk.injEq] at h
    obtain ⟨h1, h2, h3⟩ := h
    refine ⟨?_, ?_, fun hh => absurd hh he⟩
    · rw [hardware_or_true _ _ h1]
      simp [he]
    · simp only [he, Bool.false_eq_true, if_false, ← h2, samplesPerBuffer]

/-- A successful run of the buffer loop in detail: the first buffers, as many as
`readRounds` counts, were filled by one read each and queued on the source in the
order of their creation; the others went to the free list; no other source
changed. -/
theorem createBuffers_detail (n : Nat) : ∀ (c : Channel) (al : OpenAL) (c' : Channel)
    (al' : OpenAL) (s : AudioStream) (src : Source),
    createBuffers n c al = (.ok (), c', al') → c.stream = some s →
    al.sources c.source = some src →
    c'.stream = some (readRounds n s).2 ∧
    c'.freeBuffers = c.freeBuffers ++
      List.range' (al.lastName + 1 + (readRounds n s).1) (n - (readRounds n s).1) ∧
    al'.sources c.source =
      some { src with queue := src.queue ++ List.range' (al.lastName + 1) (readRounds n s).1 } ∧
    (∀ k, k ≠ c.source → al'.sources k = al.sources k) := by
  induction n with
  | zero =>
    intro c al c' al' s src h hst hsrc
    simp only [createBuffers, Prod.mk.injEq, true_and] at h
    obtain ⟨rfl, rfl⟩ := h
    simp [readRounds, hst, hsrc]
  | succ n ih =>
    intro c al c' al' s src h hst hsrc
    rw [createBuffers] at h
    by_cases he : (alGetError (alGenBuffers al 0).2).1 = AL_NO_ERROR
    · obtain ⟨g1, g2, g3, g4⟩ := alGenBuffers_ok al 0 he
      simp only [he, ne_eq, not_true_eq_false, if_false] at h
      obtain ⟨f1, f2, f3, f4⟩ := fillBuffer_facts (alGetError (alGenBuffers al 0).2).2 c.source
        (alGenBuffers al 0).1 c.stream
      rcases hf : fillBuffer (alGetError (alGenBuffers al 0).2).2 c.source
        (alGenBuffers al 0).1 c.stream with ⟨r, st, al3⟩
      rw [hf] at h f1 f2 f3 f4
      simp only [] at f1 f2 f3 f4
      have hsrc3 : al3.sources c.source = some src := by rw [f2, g3, hsrc]
      cases r with
      | error e => simp at h
      | ok filled =>
        rw [hst] at hf
        obtain ⟨o1, o2, o3⟩ := fillBuffer_ok _ _ _ _ _ _ _ hf
        cases filled with
        | true =>
          have hnd : s.endOfData = false := by simpa using o1
          simp only [hnd, Bool.false_eq_true, if_false] at o2
          simp only [] at h
          by_cases hq : (alGetError (alSourceQueueBuffers al3 c.source (alGenBuffers al 0).1)).1
              = AL_NO_ERROR
          · simp only [hq, ne_eq, not_true_eq_false, if_false] at h
            have hqs := alSourceQueueBuffers_ok al3 c.source (alGenBuffers al 0).1 src hsrc3 hq
            obtain ⟨q1, q2, q3, q4⟩ := alSourceQueueBuffers_facts al3 c.source (alGenBuffers al 0).1
            obtain ⟨i1, i2, i3, i4⟩ := ih _ _ _ _ _
              { src with queue := src.queue ++ [(alGenBuffers al 0).1] } h o2
              (by simp only [alGetError, hqs, Function.update_same])
            have g4' : (alGenBuffers al 0).2.lastName = al.lastName + 1 := g4
            simp only [alGetError, q2, f3, g4'] at i1 i2 i3 i4
            rw [readRounds]
            simp only [hnd, Bool.false_eq_true, if_false]
            have hle := readRounds_le n (s.readBuffer (samplesPerBuffer s)).2
            generalize (readRounds n (s.readBuffer (samplesPerBuffer s)).2).1 = k at i2 i3 hle ⊢
            have e1 : al.lastName + 1 + 1 + k = al.lastName + 1 + (k + 1) := by omega
            have e2 : n + 1 - (k + 1) = n - k := by omega
            refine ⟨i1, ?_, ?_, ?_⟩
            · rw [i2, e1, e2]
            · rw [i3, g1]
              simp only [List.append_assoc, List.singleton_append, Option.some.injEq]
              congr 1
            · intro k hk
              rw [i4 k hk, q4 k hk, f2, g3]
          · simp [hq] at h
        | false =>
          have hnd : s.endOfData = true := by simpa using o1
          simp only [hnd, if_true] at o2
          have hal3 := o3 hnd
          simp only [] at h
          obtain ⟨i1, i2, i3, i4⟩ := ih _ _ _ _ _ src h o2 hsrc3
          rw [readRounds_end _ _ hnd] at i1 i2 i3 ⊢
          have g4' : (alGenBuffers al 0).2.lastName = al.lastName + 1 := g4
          simp only [alGetError, f3, g4', Nat.add_zero, Nat.sub_zero, List.range'_zero,
            List.append_nil] at i1 i2 i3 i4 ⊢
          refine ⟨i1, ?_, i3, ?_⟩
          · rw [i2, g1, List.range'_succ]
            simp
          · intro k hk
            rw [i4 k hk, f2, g3]
    · simp [he] at h

theorem readRounds_spb (s : AudioStream) :
    samplesPerBuffer (s.readBuffer (samplesPerBuffer s)).2 = samplesPerBuffer s := rfl

/-- Buffer number `i` (counted from 0) gets data exactly when the stream holds more
than `i` buffer loads. -/
theorem readRounds_lt (n : Nat) : ∀ (s : AudioStream) (i : Nat),
    i < (readRounds n s).1 ↔ i < n ∧ i * samplesPerBuffer s < s.remaining := by
  induction n with
  | zero => intro s i; simp [readRounds]
  | succ k ih =>
    intro s i
    rw [readRounds]
    by_cases he : s.endOfData = true
    · have hr : s.remaining = 0 := by simpa [AudioStream.endOfData] using he
      simp [he, hr]
    · have hr : s.remaining ≠ 0 := by simpa [AudioStream.endOfData] using he
      simp only [he, Bool.false_eq_true, if_false]
      cases i with
      | zero => simp; omega
      | succ j =>
        have h1 := ih (s.readBuffer (samplesPerBuffer s)).2 j
        rw [readRounds_spb s] at h1
        have h2 : (s.readBuffer (samplesPerBuffer s)).2.remaining
            = s.remaining - min (samplesPerBuffer s) s.remaining := rfl
        rw [h2] at h1
        rw [Nat.succ_mul]
        constructor
        · intro h
          have := h1.1 (by omega)
          omega
        · intro h
          have := h1.2 ⟨by omega, by omega⟩
          omega

theorem alBufferData_quiet (al : OpenAL) (buffer format size freq : Nat) (hf : al.faults = [])
    (he : al.error = AL_NO_ERROR) (hb : (al.buffers buffer).isSome = true) :
    (alBufferData al buffer format size freq).faults = [] ∧
    (alBufferData al buffer format size freq).error = AL_NO_ERROR := by
  obtain ⟨b, hb⟩ := Option.isSome_iff_exists.1 hb
  simp [alBufferData, OpenAL.attempt, OpenAL.record, hf, he, hb, AL_NO_ERROR]

theorem alSourceQueueBuffers_quiet (al : OpenAL) (source buffer : Nat) (hf : al.faults = [])
    (he : al.error = AL_NO_ERROR) (hs : (al.sources source).isSome = true)
    (hb : (al.buffers buffer).isSome = true) :
    (alSourceQueueBuffers al source buffer).faults = [] ∧
    (alSourceQueueBuffers al source buffer).error = AL_NO_ERROR := by
  obtain ⟨b, hb⟩ := Option.isSome_iff_exists.1 hb
  obtain ⟨src, hs⟩ := Option.isSome_iff_exists.1 hs
  simp [alSourceQueueBuffers, OpenAL.attempt, OpenAL.record, hf, he, hb, hs, AL_NO_ERROR]

/-- On a device that does not fail, `fillBuffer` does not fail. -/
theorem fillBuffer_quiet (al : OpenAL) (source buffer : Nat) (s : AudioStream)
    (hf : al.faults = []) (he : al.error = AL_NO_ERROR)
    (hb : (al.buffers buffer).isSome = true) :
    ∃ r st al', fillBuffer al source buffer (some s) = (.ok r, st, al') ∧
      al'.faults = [] ∧ al'.error = AL_NO_ERROR := by
  unfold fillBuffer
  by_cases hd : s.endOfData = true
  · exact ⟨false, some s, al, by simp [hd], hf, he⟩
  · simp only [hd, Bool.false_eq_true, if_false]
    obtain ⟨q1, q2⟩ := alBufferData_quiet al buffer
      (if (s.readBuffer (if s.isStereo = true then kOpenALBufferSize / 2 / 2
          else kOpenALBufferSize / 2)).2.isStereo = true then AL_FORMAT_STEREO16
        else AL_FORMAT_MONO16)
      ((s.readBuffer (if s.isStereo = true then kOpenALBufferSize / 2 / 2
          else kOpenALBufferSize / 2)).1 * 2)
      (s.readBuffer (if s.isStereo = true then kOpenALBufferSize / 2 / 2
          else kOpenALBufferSize / 2)).2.getRate hf he hb
    simp only [alGetError, q2, ne_eq, not_true_eq_false, if_false]
    exact ⟨true, _, _, rfl, q1, rfl⟩

/-- On a device that does not fail, the buffer loop does not fail. -/
theorem createBuffers_quiet (n : Nat) : ∀ (c : Channel) (al : OpenAL) (s : AudioStream),
    c.stream = some s → al.faults = [] → al.error = AL_NO_ERROR →
    (al.sources c.source).isSome = true →
    ∃ c' al', createBuffers n c al = (.ok (), c', al') ∧ al'.faults = [] ∧
      al'.error = AL_NO_ERROR := by
  induction n with
  | zero => intro c al s _ hf he _; exact ⟨c, al, rfl, hf, he⟩
  | succ n ih =>
    intro c al s hst hf he hsrc
    obtain ⟨q1, q2, q3⟩ := alGenBuffers_quiet al 0 hf he
    obtain ⟨g1, g2, g3, g4⟩ := alGenBuffers_ok al 0 q1
    have hb : ((alGetError (alGenBuffers al 0).2).2.buffers (alGenBuffers al 0).1).isSome = true := by
      rw [g2, g1]; simp
    obtain ⟨r, st, al3, hfill, f1, f2⟩ := fillBuffer_quiet _ c.source _ s q2 q3 hb
    obtain ⟨o1, o2, o3⟩ := fillBuffer_ok _ _ _ _ _ _ _ hfill
    obtain ⟨x1, x2, x3, x4⟩ := fillBuffer_facts (alGetError (alGenBuffers al 0).2).2 c.source
      (alGenBuffers al 0).1 (some s)
    rw [hfill] at x1 x2 x3 x4
    simp only [] at x1 x2 x3 x4
    rw [createBuffers]
    simp only [q1, ne_eq, not_true_eq_false, if_false, hst, hfill]
    cases r with
    | true =>
      simp only []
      have hs3 : (al3.sources c.source).isSome = true := by rw [x2, g3]; exact hsrc
      have hb3 : (al3.buffers (alGenBuffers al 0).1).isSome = true := by rw [x4]; exact hb
      obtain ⟨y1, y2⟩ := alSourceQueueBuffers_quiet al3 c.source (alGenBuffers al 0).1 f1 f2 hs3 hb3
      obtain ⟨z1, z2, z3, z4⟩ := alSourceQueueBuffers_facts al3 c.source (alGenBuffers al 0).1
      simp only [alGetError, y2, ne_eq, not_true_eq_false, if_false]
      exact ih _ _ _ o2 y1 rfl (by simp only []; rw [z3]; exact hs3)
    | false =>
      simp only []
      exact ih _ _ _ o2 f1 f2 (by simp only []; rw [x2, g3]; exact hsrc)

theorem createBuffers_free (n : Nat) : ∀ (c : Channel) (al : OpenAL) (c' : Channel) (al' : OpenAL),
    createBuffers n c al = (.ok (), c', al') →
    ∀ b, (al.buffers b).isSome = true → (al'.buffers b).isSome = true := by
  intro c al c' al' h b hb
  exact (createBuffers_ok n c al c' al' h).2.2.2.2.2.2.2.2.2.2 b (Or.inl hb)

/-- A successful `try` block of `playAudioStream` in detail. -/
theorem setupChannel_detail (m : SoundManager) (index : Nat) (channel : Channel)
    (m' : SoundManager) (a : AudioStream)
    (h : m.setupChannel index channel = (.ok (), m')) (hst : channel.stream = some a)
    (hfree : channel.freeBuffers = []) :
    ∃ c src, m'.channels index = some c ∧ c.source = m.al.lastName + 1 ∧
      m'.al.sources c.source = some src ∧
      c.stream = some (readRounds kOpenALBufferCount a).2 ∧
      c.freeBuffers = List.range' (m.al.lastName + 2 + (readRounds kOpenALBufferCount a).1)
        (kOpenALBufferCount - (readRounds kOpenALBufferCount a).1) ∧
      src.queue = List.range' (m.al.lastName + 2) (readRounds kOpenALBufferCount a).1 ∧
      src.processed = 0 ∧ src.state = AL_INITIAL ∧
      (∀ k, k ≠ m.al.lastName + 1 → m'.al.sources k = m.al.sources k) ∧
      m'.al.lastName = m.al.lastName + 1 + kOpenALBufferCount ∧
      (∀ b, (m.al.buffers b).isSome = true → (m'.al.buffers b).isSome = true) ∧
      m'.ready = m.ready ∧ m'.curID = m.curID ∧ m'.kSoundTypeMAX = m.kSoundTypeMAX := by
  unfold SoundManager.setupChannel at h
  simp only [hst] at h
  by_cases he : (alGetError (alGenSources m.al channel.source).2).1 = AL_NO_ERROR
  · obtain ⟨g1, g2, g3, g4⟩ := alGenSources_ok m.al channel.source he
    simp only [he, ne_eq, not_true_eq_false, if_false] at h
    rcases hcb : createBuffers kOpenALBufferCount
        { channel with source := (alGenSources m.al channel.source).1, stream := some a }
        (alGetError (alGenSources m.al channel.source).2).2 with ⟨r, c2, al2⟩
    rw [hcb] at h
    cases r with
    | error e => simp at h
    | ok u =>
      obtain ⟨i1, i2, i3, i4, i5, i6, i7, i8, i9, i10, i11⟩ := createBuffers_ok _ _ _ _ _ hcb
      have hsrc1 : (alGetError (alGenSources m.al channel.source).2).2.sources
          (alGenSources m.al channel.source).1 = some {} := by rw [g2, g1]; simp
      obtain ⟨d1, d2, d3, d4⟩ := createBuffers_detail _ _ _ _ _ a {} hcb rfl hsrc1
      simp only [Prod.mk.injEq, true_and] at h
      subst h
      simp only [g1, g4, hfree, List.nil_append] at i3 i9 d1 d2 d3 d4
      have e2 : m.al.lastName + 1 + 1 = m.al.lastName + 2 := rfl
      refine ⟨{ c2 with typeIt := true },
        ({ queue := List.range' (m.al.lastName + 2) (readRounds kOpenALBufferCount a).1,
           gain := (m.types c2.type).gain } : Source),
        ?_, i3, ?_, d1, ?_, rfl, rfl, rfl, ?_, ?_, ?_, rfl, rfl, rfl⟩
      · simp [SoundManager.setSlot]
      · simp only [SoundManager.setSlot, SoundManager.setList, i3,
          alSourcef_sources _ _ _ _ d3, Function.update_same]
      · rw [d2]
      · intro k hk
        simp only [SoundManager.setSlot, SoundManager.setList, alSourcef_sources_apply, i3]
        rw [if_neg hk, d4 k hk, g2]
        simp [Function.update_apply, hk]
      · simp only [SoundManager.setSlot, SoundManager.setList]
        have : (alSourcef al2 c2.source (m.types c2.type).gain).lastName = al2.lastName := by
          unfold alSourcef; simp only []; split <;> simp [OpenAL.raise_lastName, OpenAL.record]
        rw [this, i9]
      · intro b hb
        have hb2 : (al2.buffers b).isSome = true := by
          apply i11; left; rw [g3]; exact hb
        have : (alSourcef al2 c2.source (m.types c2.type).gain).buffers = al2.buffers := by
          unfold alSourcef; simp only []; split <;> simp [OpenAL.raise_buffers, OpenAL.record]
        simp only [SoundManager.setSlot, SoundManager.setList, this]
        exact hb2
  · simp [he] at h

theorem range'_split (s k n : Nat) (h : k ≤ n) :
    List.range' s n = List.range' s k ++ List.range' (s + k) (n - k) := by
  rw [List.range'_append_1]
  congr 1
  omega

theorem take_range' (s k n : Nat) (h : k ≤ n) :
    (List.range' s n).take k = List.range' s k := by
  rw [range'_split s k n h]
  exact List.take_left' (by simp)

theorem drop_range' (s k n : Nat) (h : k ≤ n) :
    (List.range' s n).drop k = List.range' (s + k) (n - k) := by
  rw [range'_split s k n h]
  exact List.drop_left' (by simp)

theorem alSourcef_quiet (al : OpenAL) (source : Nat) (g : ALfloat)
    (hs : (al.sources source).isSome = true) :
    (alSourcef al source g).faults = al.faults ∧ (alSourcef al source g).error = al.error ∧
    (alSourcef al source g).buffers = al.buffers ∧
    (alSourcef al source g).lastName = al.lastName := by
  obtain ⟨src, hs⟩ := Option.isSome_iff_exists.1 hs
  simp [alSourcef, OpenAL.record, hs]

/-- On a device that does not fail, the `try` block of `playAudioStream` does not
fail. -/
theorem setupChannel_quiet (m : SoundManager) (index : Nat) (channel : Channel)
    (a : AudioStream) (hst : channel.stream = some a) (hf : m.al.faults = [])
    (he : m.al.error = AL_NO_ERROR) :
    ∃ m', m.setupChannel index channel = (.ok (), m') ∧ m'.al.faults = [] ∧
      m'.al.error = AL_NO_ERROR := by
  obtain ⟨q1, q2, q3⟩ := alGenSources_quiet m.al channel.source hf he
  obtain ⟨g1, g2, g3, g4⟩ := alGenSources_ok m.al channel.source q1
  have hsrc1 : ((alGetError (alGenSources m.al channel.source).2).2.sources
      (alGenSources m.al channel.source).1).isSome = true := by rw [g2, g1]; simp
  obtain ⟨c2, al2, hcb, b1, b2⟩ := createBuffers_quiet kOpenALBufferCount
    { channel with source := (alGenSources m.al channel.source).1, stream := some a }
    (alGetError (alGenSources m.al channel.source).2).2 a rfl q2 q3 hsrc1
  obtain ⟨i1, i2, i3, i4, i5, i6, i7, i8, i9, i10, i11⟩ := createBuffers_ok _ _ _ _ _ hcb
  have hs2 : (al2.sources c2.source).isSome = true := by rw [i3, i10]; exact hsrc1
  obtain ⟨s1, s2, -, -⟩ := alSourcef_quiet al2 c2.source (m.types c2.type).gain hs2
  unfold SoundManager.setupChannel
  simp only [hst, q1, ne_eq, not_true_eq_false, if_false, hcb]
  exact ⟨_, rfl, by simp only [SoundManager.setSlot, SoundManager.setList]; rw [s1, b1],
    by simp only [SoundManager.setSlot, SoundManager.setList]; rw [s2, b2]⟩

/-- On a ready manager with a free slot and a device that does not fail,
`playAudioStream` does not fail. -/
theorem playAudioStream_quiet (m : SoundManager) (a : AudioStream) (T : Nat) (d : Bool)
    (hr : m.ready = true) (hT : T < m.kSoundTypeMAX) (hK : m.kChannelCount ≤ 65536)
    (hfree : ∃ j, 1 ≤ j ∧ j < m.kChannelCount ∧ m.channels j = none)
    (hf : m.al.faults = []) (he : m.al.error = AL_NO_ERROR) :
    ∃ h, (m.playAudioStream (some a) T d).1 = .ok h ∧
      (m.playAudioStream (some a) T d).2.al.faults = [] ∧
      (m.playAudioStream (some a) T d).2.al.error = AL_NO_ERROR := by
  obtain ⟨-, hfull⟩ := newChannelScan_spec m m.kChannelCount 0 m.curChannel (by omega)
  have hscan : (m.newChannelScan m.kChannelCount 0 0 m.curChannel).1 ≠ 0 := by
    intro h0
    obtain ⟨j, j1, j2, j3⟩ := hfree
    exact hfull h0 j (by omega) (by omega) (by omega) j3
  have hres := newChannel_result m
  rw [if_neg hscan] at hres
  rcases hn : m.newChannel with ⟨r, m1⟩
  rw [hn] at hres
  simp only [] at hres
  subst hres
  obtain ⟨-, -, -, cc, hm1⟩ := newChannel_ok m _ m1 hn
  have hal : m1.al = m.al := by rw [hm1]
  obtain ⟨m2, hsu, f2, e2⟩ := setupChannel_quiet
    (m1.setSlot (m.newChannelScan m.kChannelCount 0 0 m.curChannel).1 (some
      { id := m.curID, state := AL_PAUSED, stream := some a, source := 0,
        disposeAfterUse := d, type := T, typeIt := false }))
    (m.newChannelScan m.kChannelCount 0 0 m.curChannel).1
    { id := m.curID, state := AL_PAUSED, stream := some a, source := 0,
      disposeAfterUse := d, type := T, typeIt := false } a rfl
    (by simp only [SoundManager.setSlot]; rw [hal]; exact hf)
    (by simp only [SoundManager.setSlot]; rw [hal]; exact he)
  have hplay : m.playAudioStream (some a) T d =
      (.ok ⟨(m.newChannelScan m.kChannelCount 0 0 m.curChannel).1, m.curID⟩, m2) := by
    unfold SoundManager.playAudioStream
    simp only [hT, not_true_eq_false, if_false, SoundManager.checkReady, hr, Bool.not_true,
      Bool.false_eq_true, hn, hsu]
  rw [hplay]
  exact ⟨_, rfl, f2, e2⟩

/-- C24: in a successful `playAudioStream` the five buffers are created one after the
other; buffer number `i` (counted from 0) gets data, by one read from the stream, and
is queued on the source exactly when the stream was not at the end of its data at its
turn, that is when the stream held more than `i` buffer loads; the others go to the
free list without a read.  On return the queue of the source holds the first buffers
in the order of their creation and the free list the rest, five in all, and the stream
has been read once per queued buffer.  For a stream that is at the end of its data all
five buffers are on the free list, and on a ready manager with a free slot and a
device that does not fail the call succeeds. -/
theorem playAudioStream_buffers (m : SoundManager) (a : AudioStream) (T : Nat) (d : Bool) :
    (∀ h, (m.playAudioStream (some a) T d).1 = .ok h →
      ∃ c src, (m.playAudioStream (some a) T d).2.channels h.channel = some c ∧
        (m.playAudioStream (some a) T d).2.al.sources c.source = some src ∧
        c.buffers.length = kOpenALBufferCount ∧
        src.queue = c.buffers.take (readRounds kOpenALBufferCount a).1 ∧
        c.freeBuffers = c.buffers.drop (readRounds kOpenALBufferCount a).1 ∧
        src.queue.length + c.freeBuffers.length = kOpenALBufferCount ∧
        c.stream = some (readRounds kOpenALBufferCount a).2 ∧
        (readRounds kOpenALBufferCount a).2.reads = a.reads + src.queue.length ∧
        (∀ i, i < (readRounds kOpenALBufferCount a).1 ↔
          i < kOpenALBufferCount ∧ i * samplesPerBuffer a < a.remaining) ∧
        (a.endOfData = true → src.queue = [] ∧ c.freeBuffers = c.buffers ∧ c.stream = some a)) ∧
    (a.endOfData = true → m.ready = true → T < m.kSoundTypeMAX → m.kChannelCount ≤ 65536 →
      (∃ j, 1 ≤ j ∧ j < m.kChannelCount ∧ m.channels j = none) →
      m.al.faults = [] → m.al.error = AL_NO_ERROR →
      ∃ h, (m.playAudioStream (some a) T d).1 = .ok h) := by
  constructor
  · intro h hok
    obtain ⟨m1, m2, hn, hsu, hp⟩ := playAudioStream_ok_inv m a T d h hok
    obtain ⟨-, -, -, cc, hm1⟩ := newChannel_ok m h m1 hn
    have hal : (m1.setSlot h.channel (some
        { id := h.id, state := AL_PAUSED, stream := some a, source := 0,
          disposeAfterUse := d, type := T, typeIt := false })).al = m.al := by
      simp only [SoundManager.setSlot]; rw [hm1]
    obtain ⟨c, src, s1, s2, s3, s4, s5, s6, -⟩ := setupChannel_detail _ _ _ _ a hsu rfl rfl
    obtain ⟨c', src', t1, -, -, -, -, -, -, -, -, -, t11, -⟩ := setupChannel_ok _ _ _ _ hsu
    have hcc : c' = c := by
      rw [t1] at s1
      simpa using s1
    subst hcc
    simp only [List.nil_append] at t11
    rw [hal] at s5 s6 t11
    have hle := readRounds_le kOpenALBufferCount a
    have hk5 : kOpenALBufferCount = 5 := rfl
    obtain ⟨r1, -⟩ := readRounds_reads kOpenALBufferCount a
    have htake : List.take (readRounds kOpenALBufferCount a).1 c'.buffers
        = List.range' (m.al.lastName + 2) (readRounds kOpenALBufferCount a).1 := by
      rw [t11, take_range' _ _ _ hle]
    have hdrop : List.drop (readRounds kOpenALBufferCount a).1 c'.buffers
        = List.range' (m.al.lastName + 2 + (readRounds kOpenALBufferCount a).1)
            (kOpenALBufferCount - (readRounds kOpenALBufferCount a).1) := by
      rw [t11, drop_range' _ _ _ hle]
    rw [hp]
    refine ⟨c', src, s1, s3, by rw [t11]; simp, by rw [s6, htake], by rw [s5, hdrop], ?_, s4,
      ?_, fun i => readRounds_lt _ a i, ?_⟩
    · rw [s6, s5]; simp only [List.length_range']; omega
    · rw [r1, s6]; simp
    · intro hend
      rw [readRounds_end _ _ hend] at s4 s5 s6
      refine ⟨by rw [s6]; rfl, ?_, s4⟩
      rw [s5, t11]; rfl
  · intro _ hr hT hK hfree hf he
    obtain ⟨h, hok, -⟩ := playAudioStream_quiet m a T d hr hT hK hfree hf he
    exact ⟨h, hok⟩

/-- C24, witness: `playAudioStream` on the small manager with `monoStream`, which
holds 40000 samples: three buffers of 16384 samples get data and are queued, two go to
the free list. -/
theorem playAudioStream_buffers_witness :
    ∃ c src, (smallManager.playAudioStream (some monoStream) 1 true).2.channels 1 = some c ∧
      (smallManager.playAudioStream (some monoStream) 1 true).2.al.sources c.source = some src ∧
      c.buffers.length = kOpenALBufferCount ∧
      src.queue = c.buffers.take (readRounds kOpenALBufferCount monoStream).1 ∧
      c.freeBuffers = c.buffers.drop (readRounds kOpenALBufferCount monoStream).1 ∧
      src.queue.length + c.freeBuffers.length = kOpenALBufferCount ∧
      c.stream = some (readRounds kOpenALBufferCount monoStream).2 ∧
      (readRounds kOpenALBufferCount monoStream).2.reads = monoStream.reads + src.queue.length ∧
      (∀ i, i < (readRounds kOpenALBufferCount monoStream).1 ↔
        i < kOpenALBufferCount ∧ i * samplesPerBuffer monoStream < monoStream.remaining) ∧
      (monoStream.endOfData = true →
        src.queue = [] ∧ c.freeBuffers = c.buffers ∧ c.stream = some monoStream) :=
  (playAudioStream_buffers smallManager monoStream 1 true).1 ⟨1, 1⟩ (by decide)

/-! ### bufferData -/

theorem alSourceUnqueueBuffers_spec (al : OpenAL) (source out : Nat) (src : Source) (b : Nat)
    (rest : List Nat) (p : Nat) (hs : al.sources source = some src) (hq : src.queue = b :: rest)
    (hp : src.processed = p + 1) :
    (alSourceUnqueueBuffers al source out).1 = b ∧
    (alSourceUnqueueBuffers al source out).2.sources =
      Function.update al.sources source (some { src with queue := rest, processed := p }) ∧
    (alSourceUnqueueBuffers al source out).2.buffers = al.buffers ∧
    (alSourceUnqueueBuffers al source out).2.faults = al.faults ∧
    (alSourceUnqueueBuffers al source out).2.error = al.error ∧
    (alSourceUnqueueBuffers al source out).2.lastName = al.lastName := by
  simp [alSourceUnqueueBuffers, OpenAL.record, hs, hq, hp]

/-- The first loop of `bufferData`: `n` processed buffers leave the head of the queue
of the source and are appended to the free list. -/
theorem unqueueProcessed_spec (n : Nat) : ∀ (source : Nat) (free : List Nat) (al : OpenAL)
    (src : Source), al.sources source = some src → n ≤ src.processed →
    n ≤ src.queue.length →
    (unqueueProcessed n source free al).1 = free ++ src.queue.take n ∧
    (unqueueProcessed n source free al).2.sources source =
      some { src with queue := src.queue.drop n, processed := src.processed - n } ∧
    (∀ k, k ≠ source → (unqueueProcessed n source free al).2.sources k = al.sources k) ∧
    (unqueueProcessed n source free al).2.buffers = al.buffers ∧
    (unqueueProcessed n source free al).2.faults = al.faults ∧
    (unqueueProcessed n source free al).2.error = al.error ∧
    (unqueueProcessed n source free al).2.lastName = al.lastName := by
  induction n with
  | zero =>
    intro source free al src hs _ _
    simp [unqueueProcessed, hs]
  | succ n ih =>
    intro source free al src hs hp hq
    cases hqueue : src.queue with
    | nil => rw [hqueue] at hq; simp at hq
    | cons b rest =>
      obtain ⟨p, hp'⟩ : ∃ p, src.processed = p + 1 := ⟨src.processed - 1, by omega⟩
      obtain ⟨u1, u2, u3, u4, u5, u6⟩ :=
        alSourceUnqueueBuffers_spec al source 0 src b rest p hs hqueue hp'
      rw [unqueueProcessed]
      simp only []
      have hs1 : (alSourceUnqueueBuffers al source 0).2.sources source
          = some { src with queue := rest, processed := p } := by rw [u2]; simp
      rw [hqueue] at hq
      obtain ⟨i1, i2, i3, i4, i5, i6, i7⟩ := ih source (free ++ [(alSourceUnqueueBuffers al source 0).1])
        (alSourceUnqueueBuffers al source 0).2 _ hs1 (by simp only []; omega)
        (by simp only []; simpa using hq)
      refine ⟨?_, ?_, ?_, by rw [i4, u3], by rw [i5, u4], by rw [i6, u5], by rw [i7, u6]⟩
      · rw [i1, u1]; simp
      · rw [i2]; simp only [List.drop_succ_cons, Option.some.injEq]
        congr 1
        omega
      · intro k hk
        rw [i3 k hk, u2]; simp [Function.update_apply, hk]

/-- The second loop of `bufferData` on a device that does not fail: the buffers at the
head of the free list, as many as `readRounds` counts, are filled by one read each and
queued on the source; the others stay on the free list. -/
theorem refillBuffers_quiet (l : List Nat) : ∀ (source : Nat) (s : AudioStream) (al : OpenAL)
    (src : Source), al.faults = [] → al.error = AL_NO_ERROR → al.sources source = some src →
    (∀ b ∈ l, (al.buffers b).isSome = true) →
    ∃ al', refillBuffers l source (some s) al =
        (.ok (), l.drop (readRounds l.length s).1, some (readRounds l.length s).2, al') ∧
      al'.sources source =
        some { src with queue := src.queue ++ l.take (readRounds l.length s).1 } ∧
      (∀ k, k ≠ source → al'.sources k = al.sources k) ∧
      (∀ b, (al'.buffers b).isSome = (al.buffers b).isSome) ∧
      al'.faults = [] ∧ al'.error = AL_NO_ERROR ∧ al'.lastName = al.lastName := by
  induction l with
  | nil =>
    intro source s al src hf he hs _
    exact ⟨al, by simp [refillBuffers, readRounds], by simp [readRounds, hs], fun _ _ => rfl,
      fun _ => rfl, hf, he, rfl⟩
  | cons b rest ih =>
    intro source s al src hf he hs hex
    have hb : (al.buffers b).isSome = true := hex b (List.mem_cons_self _ _)
    obtain ⟨r, st, al1, hfill, f1, f2⟩ := fillBuffer_quiet al source b s hf he hb
    obtain ⟨o1, o2, o3⟩ := fillBuffer_ok _ _ _ _ _ _ _ hfill
    obtain ⟨x1, x2, x3, x4⟩ := fillBuffer_facts al source b (some s)
    rw [hfill] at x1 x2 x3 x4
    simp only [] at x1 x2 x3 x4
    rw [refillBuffers, hfill]
    by_cases hd : s.endOfData = true
    · simp only [hd, Bool.not_true] at o1
      subst o1
      simp only [hd, if_true] at o2
      have hal := o3 hd
      subst hal
      subst o2
      simp only [List.length_cons, readRounds_end _ _ hd, List.drop_zero, List.take_zero,
        List.append_nil]
      exact ⟨al1, rfl, hs, fun _ _ => rfl, fun _ => rfl, hf, he, rfl⟩
    · have hd' : s.endOfData = false := by simpa using hd
      simp only [hd', Bool.not_false] at o1
      subst o1
      simp only [hd', Bool.false_eq_true, if_false] at o2
      subst o2
      simp only []
      have hs1 : al1.sources source = some src := by rw [x2]; exact hs
      have hb1 : (al1.buffers b).isSome = true := by rw [x4]; exact hb
      obtain ⟨y1, y2⟩ := alSourceQueueBuffers_quiet al1 source b f1 f2 (by rw [hs1]; rfl) hb1
      have hqs := alSourceQueueBuffers_ok al1 source b src hs1 (by simp only [alGetError]; exact y2)
      obtain ⟨z1, z2, z3, z4⟩ := alSourceQueueBuffers_facts al1 source b
      obtain ⟨al', i1, i2, i3, i4, i5, i6, i7⟩ := ih source (s.readBuffer (samplesPerBuffer s)).2
        (alSourceQueueBuffers al1 source b) { src with queue := src.queue ++ [b] } y1 y2
        (by rw [hqs]; simp)
        (by intro b' hb'; rw [z1, x4]; exact hex b' (List.mem_cons_of_mem _ hb'))
      refine ⟨al', ?_, ?_, ?_, ?_, i5, i6, by rw [i7, z2, x3]⟩
      · rw [i1]
        simp only [List.length_cons]
        rw [readRounds]
        simp [hd']
      · rw [i2]
        simp only [List.length_cons]
        rw [readRounds]
        simp [hd']
      · intro k hk
        rw [i3 k hk, z4 k hk, x2]
      · intro b'
        rw [i4, z1, x4]

/-- The buffers handed to `bufferData` after the processed ones were unqueued: the
free list followed by the processed buffers at the head of the queue. -/
theorem bufferDataChannel_unfold (c : Channel) (al : OpenAL) (s : AudioStream) (src : Source)
    (hst : c.stream = some s) (hnd : s.endOfData = false)
    (hs : al.sources c.source = some src) :
    bufferDataChannel c al =
      ((refillBuffers (unqueueProcessed src.processed c.source c.freeBuffers al).1 c.source
          (some s) (unqueueProcessed src.processed c.source c.freeBuffers al).2).1,
       { c with
          freeBuffers := (refillBuffers (unqueueProcessed src.processed c.source c.freeBuffers al).1
            c.source (some s) (unqueueProcessed src.processed c.source c.freeBuffers al).2).2.1,
          stream := (refillBuffers (unqueueProcessed src.processed c.source c.freeBuffers al).1
            c.source (some s) (unqueueProcessed src.processed c.source c.freeBuffers al).2).2.2.1 },
       (refillBuffers (unqueueProcessed src.processed c.source c.freeBuffers al).1 c.source
          (some s) (unqueueProcessed src.processed c.source c.freeBuffers al).2).2.2.2) := by
  unfold bufferDataChannel
  simp [hst, hnd, alGetSourcei_processed _ _ _ _ hs]

/-- `bufferData(Channel &)` on a device that does not fail, for a channel whose stream
has data left. -/
theorem bufferDataChannel_quiet (c : Channel) (al : OpenAL) (s : AudioStream) (src : Source)
    (hst : c.stream = some s) (hnd : s.endOfData = false)
    (hs : al.sources c.source = some src) (hf : al.faults = []) (he : al.error = AL_NO_ERROR)
    (hp : src.processed ≤ src.queue.length)
    (hex : ∀ b ∈ c.freeBuffers ++ src.queue, (al.buffers b).isSome = true) :
    ∃ al', bufferDataChannel c al =
        (.ok (),
         { c with
            freeBuffers := (c.freeBuffers ++ src.queue.take src.processed).drop
              (readRounds (c.freeBuffers ++ src.queue.take src.processed).length s).1,
            stream := some (readRounds (c.freeBuffers ++ src.queue.take src.processed).length s).2 },
         al') ∧
      al'.sources c.source =
        some { src with
          queue := src.queue.drop src.processed ++
            (c.freeBuffers ++ src.queue.take src.processed).take
              (readRounds (c.freeBuffers ++ src.queue.take src.processed).length s).1,
          processed := 0 } ∧
      (∀ k, k ≠ c.source → al'.sources k = al.sources k) ∧
      (∀ b, (al'.buffers b).isSome = (al.buffers b).isSome) ∧
      al'.faults = [] ∧ al'.error = AL_NO_ERROR ∧ al'.lastName = al.lastName := by
  obtain ⟨u1, u2, u3, u4, u5, u6, u7⟩ :=
    unqueueProcessed_spec src.processed c.source c.freeBuffers al src hs (le_refl _) hp
  rw [bufferDataChannel_unfold c al s src hst hnd hs]
  rcases hu : unqueueProcessed src.processed c.source c.freeBuffers al with ⟨F, al1⟩
  rw [hu] at u1 u2 u3 u4 u5 u6 u7
  simp only [] at u1 u2 u3 u4 u5 u6 u7 ⊢
  subst u1
  simp only [Nat.sub_self] at u2
  obtain ⟨al', r1, r2, r3, r4, r5, r6, r7⟩ := refillBuffers_quiet
    (c.freeBuffers ++ src.queue.take src.processed) c.source s al1 _ (by rw [u5, hf])
    (by rw [u6, he]) u2
    (by
      intro b hb
      rw [u4]
      apply hex
      rcases List.mem_append.1 hb with h | h
      · exact List.mem_append_left _ h
      · exact List.mem_append_right _ (List.mem_of_mem_take h))
  rw [r1]
  refine ⟨al', rfl, r2, ?_, ?_, r5, r6, by rw [r7, u7]⟩
  · intro k hk; rw [r3 k hk, u3 k hk]
  · intro b; rw [r4, u4]

/-- The buffers of the free list and of the queue after `bufferData` are those of
before, in another order. -/
theorem refill_perm (free queue : List Nat) (p k : Nat) :
    ((free ++ queue.take p).drop k ++ (queue.drop p ++ (free ++ queue.take p).take k)).Perm
      (free ++ queue) := by
  have h1 : ((free ++ queue.take p).drop k ++
      (queue.drop p ++ (free ++ queue.take p).take k)).Perm
      ((free ++ queue.take p).take k ++ (free ++ queue.take p).drop k ++ queue.drop p) := by
    rw [List.perm_iff_count]
    intro a
    simp only [List.count_append]
    omega
  rw [List.take_append_drop, List.append_assoc, List.take_append_drop] at h1
  exact h1

theorem bufferData_eq (m : SoundManager) (i : Nat) (c : Channel) (hi : i ≠ 0)
    (hc : m.channels i = some c) :
    m.bufferData i =
      ((bufferDataChannel c m.al).1,
        { m with al := (bufferDataChannel c m.al).2.2 }.setSlot i
          (some (bufferDataChannel c m.al).2.1)) := by
  unfold SoundManager.bufferData
  simp [hi, hc]

/-- For a channel whose stream is at the end of its data `bufferData` does nothing. -/
theorem bufferData_endOfData (m : SoundManager) (i : Nat) (c : Channel) (s : AudioStream)
    (hc : m.channels i = some c) (hst : c.stream = some s) (hd : s.endOfData = true) :
    m.bufferData i = (.ok (), m) := by
  unfold SoundManager.bufferData
  by_cases hi : i = 0
  · simp [hi]
  · have h1 : bufferDataChannel c m.al = (.ok (), c, m.al) := by
      unfold bufferDataChannel; simp [hst, hd]
    simp only [hi, if_false, hc, h1, SoundManager.setSlot]
    have h2 : Function.update m.channels i (some c) = m.channels := by
      rw [← hc]; exact Function.update_eq_self i m.channels
    rw [h2]

/-- C25, on a device that does not fail: `bufferData` on an occupied slot whose channel
has a stream, with the source and the buffers of the free list and of the queue
existing.  If the stream is at the end of its data nothing happens.  Otherwise the
buffers of the free list (`refillList`: the free list, followed by the processed
buffers taken off the queue) are filled in their order, by one read of the stream
each, queued on the source and removed from the free list, as long as the stream has
data: buffer number `j` exactly when the stream held more than `j` buffer loads.  On
return the free list is empty or the stream is at the end of its data, and the free
list and the queue hold the buffers they held before, in another order, so that no
buffer is in both when none was before. -/
theorem bufferData_refill_spec (m : SoundManager) (i : Nat) (c : Channel) (s : AudioStream)
    (src : Source) (hi : i ≠ 0) (hc : m.channels i = some c) (hst : c.stream = some s)
    (hs : m.al.sources c.source = some src) (hf : m.al.faults = [])
    (he : m.al.error = AL_NO_ERROR) (hp : src.processed ≤ src.queue.length)
    (hex : ∀ b ∈ c.freeBuffers ++ src.queue, (m.al.buffers b).isSome = true) :
    (s.endOfData = true → m.bufferData i = (.ok (), m)) ∧
    (s.endOfData = false →
      ∃ c' src', (m.bufferData i).1 = .ok () ∧ (m.bufferData i).2.channels i = some c' ∧
        (m.bufferData i).2.al.sources c.source = some src' ∧
        c'.freeBuffers = (refillList c src).drop (readRounds (refillList c src).length s).1 ∧
        src'.queue = src.queue.drop src.processed ++
          (refillList c src).take (readRounds (refillList c src).length s).1 ∧
        c'.stream = some (readRounds (refillList c src).length s).2 ∧
        (readRounds (refillList c src).length s).2.reads
          = s.reads + (readRounds (refillList c src).length s).1 ∧
        (∀ j, j < (readRounds (refillList c src).length s).1 ↔
          j < (refillList c src).length ∧ j * samplesPerBuffer s < s.remaining) ∧
        (c'.freeBuffers = [] ∨ (readRounds (refillList c src).length s).2.endOfData = true) ∧
        (c'.freeBuffers ++ src'.queue).Perm (c.freeBuffers ++ src.queue) ∧
        ((c.freeBuffers ++ src.queue).Nodup → ∀ b, ¬ (b ∈ c'.freeBuffers ∧ b ∈ src'.queue))) := by
  constructor
  · intro hd
    exact bufferData_endOfData m i c s hc hst hd
  · intro hd
    obtain ⟨al', q1, q2, q3, q4, q5, q6, q7⟩ := bufferDataChannel_quiet c m.al s src hst hd hs hf he
      hp hex
    have hres : (m.bufferData i).1 = (bufferDataChannel c m.al).1 := by
      rw [bufferData_eq m i c hi hc]
    have hch : (m.bufferData i).2.channels i = some (bufferDataChannel c m.al).2.1 :=
      bufferData_slot m i c hi hc
    have hal : (m.bufferData i).2.al = (bufferDataChannel c m.al).2.2 := by
      rw [bufferData_eq m i c hi hc]; rfl
    rw [q1] at hres hch hal
    have hperm := refill_perm c.freeBuffers src.queue src.processed
      (readRounds (refillList c src).length s).1
    refine ⟨{ c with
        freeBuffers := (refillList c src).drop (readRounds (refillList c src).length s).1,
        stream := some (readRounds (refillList c src).length s).2 },
      { src with
        queue := src.queue.drop src.processed ++
          (refillList c src).take (readRounds (refillList c src).length s).1,
        processed := 0 },
      hres, hch, by rw [hal]; exact q2, rfl, rfl, rfl,
      (readRounds_reads _ s).1, fun j => readRounds_lt _ s j, ?_, hperm, ?_⟩
    · by_cases hk : (readRounds (refillList c src).length s).1 < (refillList c src).length
      · exact Or.inr (readRounds_stop _ s hk)
      · left
        show List.drop _ (refillList c src) = []
        exact List.drop_eq_nil_of_le (by omega)
    · intro hnd b hb
      have hnd' := (List.Perm.nodup_iff hperm).2 hnd
      exact (List.disjoint_of_nodup_append hnd') hb.1 hb.2

/-- C25, witness: `bufferData` on `streamingManager`: the two processed buffers are
filled again, by two reads that take the last 18080 samples, and queued behind the
other three. -/
theorem bufferData_refill_spec_witness :
    ∃ c' src', (streamingManager.bufferData 1).1 = .ok () ∧
      (streamingManager.bufferData 1).2.channels 1 = some c' ∧
      (streamingManager.bufferData 1).2.al.sources 1 = some src' ∧
      c'.freeBuffers = [] ∧ src'.queue = [4, 5, 6, 2, 3] ∧
      c'.stream = some { ident := 10, stereo := false, rate := 22050, remaining := 0, reads := 7 } :=
  match (bufferData_refill_spec streamingManager 1 streamingChannel
      { ident := 10, stereo := false, rate := 22050, remaining := 18080, reads := 5 }
      { state := AL_PLAYING, queue := [2, 3, 4, 5, 6], processed := 2 }
      (by decide) (by decide) (by decide) (by decide) (by decide) (by decide) (by decide)
      (by decide)).2 (by decide) with
  | ⟨c', src', h1, h2, h3, h4, h5, h6, _⟩ => ⟨c', src', h1, h2, h3, h4, h5, h6⟩

/-- C26, counterexample: in `drainingManager` slot 1 holds a channel with a stream
(at the end of its data), and the source has finished two of the three buffers of its
queue; after `bufferData(1)` the queue and the free list are as before: the two
processed buffers are still queued. -/
theorem bufferData_leaves_processed_queued :
    drainingManager.channels 1 = some playingChannel ∧
    playingChannel.stream.isSome = true ∧
    drainingManager.al.sources 1 = some { state := AL_PLAYING, queue := [2, 3, 4], processed := 2 } ∧
    (drainingManager.bufferData 1).2.al.sources 1
      = some { state := AL_PLAYING, queue := [2, 3, 4], processed := 2 } ∧
    (drainingManager.bufferData 1).2.channels 1 = some playingChannel ∧
    playingChannel.freeBuffers = [5, 6] := by
  decide

/-- C26, amended: `bufferData` on an occupied slot whose channel has a stream and
whose source exists and has finished `p` buffers of its queue.  If the stream has data
left, `bufferData` asks the source for `p` and moves the first `p` buffers of the queue
to the end of the free list before it refills: the refill works on `refillList` and on
a source whose queue lost these buffers and whose count of processed buffers is 0.  On
a device that does not fail the source has, after the call, no processed buffer, and
its queue is what was left of the queue followed by the refilled buffers.  If the
stream is at the end of its data, `bufferData` asks nothing and moves nothing. -/
theorem bufferData_unqueue_spec (m : SoundManager) (i : Nat) (c : Channel) (s : AudioStream)
    (src : Source) (hi : i ≠ 0) (hc : m.channels i = some c) (hst : c.stream = some s)
    (hs : m.al.sources c.source = some src) (hp : src.processed ≤ src.queue.length) :
    (s.endOfData = false →
      alGetSourcei m.al c.source AL_BUFFERS_PROCESSED 0 = (src.processed, m.al) ∧
      (unqueueProcessed src.processed c.source c.freeBuffers m.al).1 = refillList c src ∧
      (unqueueProcessed src.processed c.source c.freeBuffers m.al).2.sources c.source
        = some { src with queue := src.queue.drop src.processed, processed := 0 } ∧
      (m.bufferData i).1 =
        (refillBuffers (refillList c src) c.source (some s)
          (unqueueProcessed src.processed c.source c.freeBuffers m.al).2).1 ∧
      (m.bufferData i).2.al =
        (refillBuffers (refillList c src) c.source (some s)
          (unqueueProcessed src.processed c.source c.freeBuffers m.al).2).2.2.2 ∧
      (m.al.faults = [] → m.al.error = AL_NO_ERROR →
        (∀ b ∈ c.freeBuffers ++ src.queue, (m.al.buffers b).isSome = true) →
        ∃ src', (m.bufferData i).2.al.sources c.source = some src' ∧ src'.processed = 0 ∧
          src'.queue = src.queue.drop src.processed ++
            (refillList c src).take (readRounds (refillList c src).length s).1)) ∧
    (s.endOfData = true → m.bufferData i = (.ok (), m)) := by
  constructor
  · intro hd
    obtain ⟨u1, u2, -⟩ :=
      unqueueProcessed_spec src.processed c.source c.freeBuffers m.al src hs (le_refl _) hp
    simp only [Nat.sub_self] at u2
    have hb := bufferData_eq m i c hi hc
    rw [bufferDataChannel_unfold c m.al s src hst hd hs, u1] at hb
    refine ⟨alGetSourcei_processed _ _ _ _ hs, u1, u2, ?_, ?_, ?_⟩
    · rw [hb]; rfl
    · rw [hb]; rfl
    · intro hf he hex
      obtain ⟨al', q1, q2, -⟩ := bufferDataChannel_quiet c m.al s src hst hd hs hf he hp hex
      have hal : (m.bufferData i).2.al = (bufferDataChannel c m.al).2.2 := by
        rw [bufferData_eq m i c hi hc]; rfl
      rw [q1] at hal
      exact ⟨_, by rw [hal]; exact q2, rfl, rfl⟩
  · intro hd
    exact bufferData_endOfData m i c s hc hst hd

/-- C26, witness: `bufferData` on `streamingManager` takes the processed buffers 2 and
3 off the queue. -/
theorem bufferData_unqueue_spec_witness :
    (unqueueProcessed 2 1 [] streamingManager.al).1 = [2, 3] ∧
    (unqueueProcessed 2 1 [] streamingManager.al).2.sources 1
      = some { state := AL_PLAYING, queue := [4, 5, 6], processed := 0 } :=
  ⟨((bufferData_unqueue_spec streamingManager 1 streamingChannel
      { ident := 10, stereo := false, rate := 22050, remaining := 18080, reads := 5 }
      { state := AL_PLAYING, queue := [2, 3, 4, 5, 6], processed := 2 }
      (by decide) (by decide) (by decide) (by decide) (by decide)).1 (by decide)).2.1,
   ((bufferData_unqueue_spec streamingManager 1 streamingChannel
      { ident := 10, stereo := false, rate := 22050, remaining := 18080, reads := 5 }
      { state := AL_PLAYING, queue := [2, 3, 4, 5, 6], processed := 2 }
      (by decide) (by decide) (by decide) (by decide) (by decide)).1 (by decide)).2.2.1⟩

/-! ### The type lists -/

/-- The invariant carries over to a state with the same lists and with channels of the
same types in the same slots. -/
theorem TypeListsOk.of_same (m m' : SoundManager) (h : TypeListsOk m)
    (hK : m'.kChannelCount = m.kChannelCount) (hr : m'.ready = m.ready)
    (hid : m'.ready = true → 1 ≤ m'.curID ∧ m'.curID ≤ 65535)
    (hl : ∀ T, (m'.types T).list = (m.types T).list)
    (hch : ∀ i, (m'.channels i).map (fun c => (c.type, c.typeIt))
      = (m.channels i).map (fun c => (c.type, c.typeIt))) : TypeListsOk m' := by
  obtain ⟨h1, h2, h3, h4, h5, h6⟩ := h
  have hsome : ∀ i c', m'.channels i = some c' →
      ∃ c, m.channels i = some c ∧ c.type = c'.type ∧ c.typeIt = c'.typeIt := by
    intro i c' hc'
    have := hch i
    rw [hc'] at this
    cases hc : m.channels i with
    | none => rw [hc] at this; simp at this
    | some c =>
      rw [hc] at this
      simp only [Option.map_some', Option.some.injEq, Prod.mk.injEq] at this
      exact ⟨c, rfl, this.1.symm, this.2.symm⟩
  have hsome' : ∀ i c, m.channels i = some c →
      ∃ c', m'.channels i = some c' ∧ c'.type = c.type ∧ c'.typeIt = c.typeIt := by
    intro i c hc
    have := hch i
    rw [hc] at this
    cases hc' : m'.channels i with
    | none => rw [hc'] at this; simp at this
    | some c' =>
      rw [hc'] at this
      simp only [Option.map_some', Option.some.injEq, Prod.mk.injEq] at this
      exact ⟨c', rfl, this.1, this.2⟩
  refine ⟨?_, ?_, ?_, ?_, hid, by rw [hK]; exact h6⟩
  · intro T i
    rw [hl, h1]
    constructor
    · rintro ⟨c, hc, ht⟩
      obtain ⟨c', hc', t1, -⟩ := hsome' i c hc
      exact ⟨c', hc', t1.trans ht⟩
    · rintro ⟨c', hc', ht⟩
      obtain ⟨c, hc, t1, -⟩ := hsome i c' hc'
      exact ⟨c, hc, t1.trans ht⟩
  · intro T; rw [hl]; exact h2 T
  · intro i c' hc'
    obtain ⟨c, hc, -, t2⟩ := hsome i c' hc'
    obtain ⟨a, b, d⟩ := h3 i c hc
    exact ⟨by rw [← t2]; exact a, b, by rw [hK]; exact d⟩
  · intro hr' i
    have := h4 (by rw [← hr]; exact hr') i
    have h' := hch i
    rw [this] at h'
    cases hc' : m'.channels i with
    | none => rfl
    | some c' => rw [hc'] at h'; simp at h'

/-- The invariant carries over to a state that differs in the OpenAL context, the
scan cursor and counters only. -/
theorem TypeListsOk.of_tables (m m' : SoundManager) (h : TypeListsOk m)
    (hK : m'.kChannelCount = m.kChannelCount) (hr : m'.ready = m.ready)
    (hid : m'.ready = true → 1 ≤ m'.curID ∧ m'.curID ≤ 65535)
    (hl : m'.types = m.types) (hch : m'.channels = m.channels) : TypeListsOk m' :=
  TypeListsOk.of_same m m' h hK hr hid (fun T => by rw [hl]) (fun i => by rw [hch])

theorem freeChannel_types (m : SoundManager) (i : Nat) (c : Channel) (hi : i ≠ 0)
    (hc : m.channels i = some c) :
    (m.freeChannel i).types =
      if c.typeIt then
        Function.update m.types c.type
          { m.types c.type with list := (m.types c.type).list.erase i }
      else m.types := by
  simp [SoundManager.freeChannel, hi, hc]

theorem freeChannel_preserves (m : SoundManager) (i : Nat) (h : TypeListsOk m) :
    TypeListsOk (m.freeChannel i) := by
  by_cases hi : i = 0
  · subst hi; rw [freeChannel_zero]; exact h
  · cases hc : m.channels i with
    | none => rw [freeChannel_empty m i hc]; exact h
    | some c =>
      obtain ⟨h1, h2, h3, h4, h5, h6⟩ := h
      have hit := (h3 i c hc).1
      have hty := freeChannel_types m i c hi hc
      rw [hit] at hty
      simp only [if_true] at hty
      have hch := freeChannel_channels m i hi
      obtain ⟨hr, -⟩ := freeChannel_ready m i
      refine ⟨?_, ?_, ?_, ?_, ?_, by rw [freeChannel_kChannelCount]; exact h6⟩
      · intro T j
        rw [hty, hch]
        by_cases hT : T = c.type
        · subst hT
          simp only [Function.update_same]
          rw [(h2 c.type).mem_erase_iff, h1]
          by_cases hj : j = i
          · subst hj; simp
          · simp [Function.update_apply, hj]
        · simp only [Function.update_apply, hT, if_false]
          rw [h1]
          by_cases hj : j = i
          · subst hj
            simp only [if_true]
            constructor
            · rintro ⟨c', hc', ht⟩
              rw [hc] at hc'
              cases hc'
              exact absurd ht.symm hT
            · rintro ⟨c', hc', -⟩
              cases hc'
          · simp [hj]
      · intro T
        rw [hty]
        by_cases hT : T = c.type
        · subst hT
          simp only [Function.update_same]
          exact (h2 c.type).erase i
        · simp only [Function.update_apply, hT, if_false]
          exact h2 T
      · intro j c' hc'
        rw [hch] at hc'
        by_cases hj : j = i
        · subst hj; simp at hc'
        · simp only [Function.update_apply, hj, if_false] at hc'
          rw [freeChannel_kChannelCount]
          exact h3 j c' hc'
      · intro hr' j
        rw [hr] at hr'
        rw [hch]
        by_cases hj : j = i
        · subst hj; simp
        · simp only [Function.update_apply, hj, if_false]
          exact h4 hr' j
      · intro hr'
        rw [hr] at hr'
        rw [freeChannel_curID]
        exact h5 hr'

theorem freeAll_preserves (fuel : Nat) : ∀ (i : Nat) (m : SoundManager), TypeListsOk m →
    TypeListsOk (m.freeAll fuel i) := by
  induction fuel with
  | zero => intro i m h; exact h
  | succ n ih =>
    intro i m h
    rw [SoundManager.freeAll]
    exact ih _ _ (freeChannel_preserves m i h)

theorem freeAll_fields (fuel : Nat) : ∀ (i : Nat) (m : SoundManager),
    (m.freeAll fuel i).ready = m.ready ∧ (m.freeAll fuel i).curID = m.curID := by
  induction fuel with
  | zero => intro i m; exact ⟨rfl, rfl⟩
  | succ n ih =>
    intro i m
    rw [SoundManager.freeAll]
    obtain ⟨a, b⟩ := ih (i + 1) (m.freeChannel i)
    exact ⟨by rw [a, (freeChannel_ready m i).1], by rw [b, freeChannel_curID]⟩

theorem deinit_preserves (m : SoundManager) (h : TypeListsOk m) : TypeListsOk m.deinit := by
  by_cases hr : m.ready = true
  · have hd : m.deinit = { (({ m with thread := false } : SoundManager).freeAll
        (m.kChannelCount - 1) 1) with dev := false, ctx := false, ready := false } := by
      simp [SoundManager.deinit, hr]
    have h0 : TypeListsOk ({ m with thread := false } : SoundManager) :=
      TypeListsOk.of_tables m _ h rfl rfl h.2.2.2.2.1 rfl rfl
    have h1 := freeAll_preserves (m.kChannelCount - 1) 1 _ h0
    have hempty : ∀ i, (({ m with thread := false } : SoundManager).freeAll
        (m.kChannelCount - 1) 1).channels i = none := by
      intro i
      rw [freeAll_channels]
      by_cases hi : 1 ≤ i ∧ i < 1 + (m.kChannelCount - 1) ∧ i ≠ 0
      · simp [hi]
      · rw [if_neg hi]
        cases hc : m.channels i with
        | none => rfl
        | some c =>
          obtain ⟨-, a, b⟩ := h.2.2.1 i c hc
          exact absurd ⟨a, by omega, by omega⟩ hi
    rw [hd]
    obtain ⟨a1, a2, a3, a4, a5, a6⟩ := h1
    refine ⟨a1, a2, a3, fun _ => hempty, fun hr' => absurd hr' Bool.false_ne_true, a6⟩
  · have : m.deinit = m := by simp [SoundManager.deinit, hr]
    rw [this]; exact h

theorem init_lists (m : SoundManager) (d c t : Bool) (T : Nat) :
    ((m.init d c t).2.types T).list = (m.types T).list := by
  cases d <;> cases c <;> cases t <;> simp only [SoundManager.init] <;>
    (simp only [Bool.not_true, Bool.not_false, Bool.false_eq_true, if_false, if_true]
     split_ifs <;> rfl)

theorem init_preserves (m : SoundManager) (d c t : Bool) (h : TypeListsOk m)
    (hr : m.ready = false) : TypeListsOk (m.init d c t).2 := by
  obtain ⟨h1, h2, h3, h4, h5, h6⟩ := h
  have hnone := h4 hr
  have hlist : ∀ T, (m.types T).list = [] := by
    intro T
    apply List.eq_nil_iff_forall_not_mem.2
    intro i hi
    obtain ⟨c', hc', -⟩ := (h1 T i).1 hi
    rw [hnone i] at hc'
    cases hc'
  have key : ∀ m' : SoundManager, m'.kChannelCount = m.kChannelCount →
      (∀ i, m'.channels i = none) → (∀ T, (m'.types T).list = []) → m'.curID = 1 →
      TypeListsOk m' := by
    intro m' k1 k2 k3 k4
    refine ⟨?_, ?_, ?_, fun _ => k2, fun _ => by rw [k4]; decide, by rw [k1]; exact h6⟩
    · intro T i; rw [k3, k2]; simp
    · intro T; rw [k3]; exact List.nodup_nil
    · intro i c hc; rw [k2] at hc; cases hc
  apply key
  · cases d <;> cases c <;> cases t <;> rfl
  · intro i
    cases d <;> cases c <;> cases t <;> simp [SoundManager.init, hnone]
  · intro T
    rw [init_lists, hlist]
  · exact init_curID m d c t

theorem bufferData_preserves (m : SoundManager) (i : Nat) (h : TypeListsOk m) :
    TypeListsOk (m.bufferData i).2 := by
  have hfields : (m.bufferData i).2.kChannelCount = m.kChannelCount ∧
      (m.bufferData i).2.ready = m.ready ∧ (m.bufferData i).2.curID = m.curID ∧
      (m.bufferData i).2.types = m.types := by
    unfold SoundManager.bufferData
    split
    · exact ⟨rfl, rfl, rfl, rfl⟩
    · split <;> exact ⟨rfl, rfl, rfl, rfl⟩
  obtain ⟨f1, f2, f3, f4⟩ := hfields
  refine TypeListsOk.of_same m _ h f1 f2 (fun hr => by rw [f3]; exact h.2.2.2.2.1 (by rw [← f2]; exact hr))
    (fun T => by rw [f4]) ?_
  intro j
  cases hc' : (m.bufferData i).2.channels j with
  | some c' =>
    obtain ⟨c, hc, -, -, -, t1, t2, -⟩ := bufferData_channels m i j c' hc'
    rw [hc]
    simp [t1, t2]
  | none =>
    by_cases hji : j = i
    · subst hji
      cases hc : m.channels j with
      | none => rfl
      | some c =>
        by_cases hj0 : j = 0
        · subst hj0
          have := (h.2.2.1 0 c hc).2.1
          omega
        · rw [bufferData_slot m j c hj0 hc] at hc'
          cases hc'
    · rw [bufferData_other m i j hji] at hc'
      rw [hc']

theorem isPlayingChannel_preserves (m : SoundManager) (i : Nat) (h : TypeListsOk m) :
    TypeListsOk (m.isPlayingChannel i).2 := by
  rw [isPlayingChannel_state]
  exact TypeListsOk.of_tables m _ h rfl rfl h.2.2.2.2.1 rfl rfl

theorem updateLoop_preserves (fuel : Nat) : ∀ (i : Nat) (m : SoundManager), TypeListsOk m →
    TypeListsOk (m.updateLoop fuel i).2 := by
  induction fuel with
  | zero => intro i m h; exact h
  | succ n ih =>
    intro i m h
    rw [SoundManager.updateLoop]
    cases hc : m.channels i with
    | none => exact ih (i + 1) m h
    | some c =>
      simp only []
      have h1 := isPlayingChannel_preserves m i h
      rcases hp : m.isPlayingChannel i with ⟨playing, m1⟩
      rw [hp] at h1
      simp only [] at h1
      cases playing with
      | false =>
        simp only [Bool.not_false, if_true]
        exact ih _ _ (freeChannel_preserves m1 i h1)
      | true =>
        simp only [Bool.not_true, Bool.false_eq_true, if_false]
        have h2 := bufferData_preserves m1 i h1
        rcases hb : m1.bufferData i with ⟨r, m2⟩
        rw [hb] at h2
        simp only [] at h2
        cases r with
        | error e => exact h2
        | ok u => exact ih _ _ h2

theorem createBuffers_type (n : Nat) : ∀ (c : Channel) (al : OpenAL),
    (createBuffers n c al).2.1.type = c.type ∧ (createBuffers n c al).2.1.typeIt = c.typeIt := by
  induction n with
  | zero => intro c al; exact ⟨rfl, rfl⟩
  | succ n ih =>
    intro c al
    rw [createBuffers]
    simp only []
    split
    · exact ⟨rfl, rfl⟩
    · split
      · exact ⟨rfl, rfl⟩
      · split
        · exact ⟨rfl, rfl⟩
        · exact ih _ _
      · exact ih _ _

/-- A failed `try` block of `playAudioStream` leaves the lists as they are and the new
channel, not linked into a list, in its slot. -/
theorem setupChannel_error (m : SoundManager) (index : Nat) (channel : Channel) (e : Error)
    (m' : SoundManager) (h : m.setupChannel index channel = (.error e, m'))
    (hc : m.channels index = some channel) :
    m'.types = m.types ∧ m'.ready = m.ready ∧ m'.curID = m.curID ∧
    m'.kChannelCount = m.kChannelCount ∧
    ∃ c, m'.channels = Function.update m.channels index (some c) ∧ c.id = channel.id ∧
      c.typeIt = channel.typeIt ∧ c.type = channel.type := by
  unfold SoundManager.setupChannel at h
  cases hs : channel.stream with
  | none =>
    simp only [hs, Prod.mk.injEq] at h
    obtain ⟨-, rfl⟩ := h
    refine ⟨rfl, rfl, rfl, rfl, channel, ?_, rfl, rfl, rfl⟩
    rw [← hc]; exact (Function.update_eq_self index m.channels).symm
  | some s =>
    simp only [hs] at h
    by_cases he : (alGetError (alGenSources m.al channel.source).2).1 = AL_NO_ERROR
    · simp only [he, ne_eq, not_true_eq_false, if_false] at h
      have hf := createBuffers_type kOpenALBufferCount
        { channel with source := (alGenSources m.al channel.source).1, stream := some s }
        (alGetError (alGenSources m.al channel.source).2).2
      have hid := createBuffers_id kOpenALBufferCount
        { channel with source := (alGenSources m.al channel.source).1, stream := some s }
        (alGetError (alGenSources m.al channel.source).2).2
      rcases hcb : createBuffers kOpenALBufferCount
          { channel with source := (alGenSources m.al channel.source).1, stream := some s }
          (alGetError (alGenSources m.al channel.source).2).2 with ⟨r, c2, al2⟩
      rw [hcb] at h hf hid
      simp only [] at hf hid
      cases r with
      | ok u => simp at h
      | error e' =>
        simp only [Prod.mk.injEq] at h
        obtain ⟨-, rfl⟩ := h
        exact ⟨rfl, rfl, rfl, rfl, c2, rfl, hid, hf.2, hf.1⟩
    · simp only [he, ne_eq, not_false_eq_true, if_true, Prod.mk.injEq] at h
      obtain ⟨-, rfl⟩ := h
      exact ⟨rfl, rfl, rfl, rfl, _, rfl, rfl, rfl, rfl⟩

/-- The four ways in which `playAudioStream` ends: before `newChannel` (the manager is
as before), with a failed `newChannel` (only the scan cursor moved), with a failed
`try` block (followed by `freeChannel` on the new handle), or with success. -/
theorem playAudioStream_cases (m : SoundManager) (s : Option AudioStream) (T : Nat) (d : Bool) :
    (m.playAudioStream s T d).2 = m ∨
    (∃ cc, (m.playAudioStream s T d).2 = { m with curChannel := cc }) ∨
    (∃ a h m1 m2 e, s = some a ∧ m.ready = true ∧ T < m.kSoundTypeMAX ∧
      m.newChannel = (.ok h, m1) ∧
      (m1.setSlot h.channel (some
          { id := h.id, state := AL_PAUSED, stream := some a, source := 0,
            disposeAfterUse := d, type := T, typeIt := false })).setupChannel h.channel
          { id := h.id, state := AL_PAUSED, stream := some a, source := 0,
            disposeAfterUse := d, type := T, typeIt := false } = (.error e, m2) ∧
      m.playAudioStream s T d = (.error e, (m2.freeChannelHandle h).2.2)) ∨
    (∃ a h m1 m2, s = some a ∧ m.ready = true ∧ T < m.kSoundTypeMAX ∧
      m.newChannel = (.ok h, m1) ∧
      (m1.setSlot h.channel (some
          { id := h.id, state := AL_PAUSED, stream := some a, source := 0,
            disposeAfterUse := d, type := T, typeIt := false })).setupChannel h.channel
          { id := h.id, state := AL_PAUSED, stream := some a, source := 0,
            disposeAfterUse := d, type := T, typeIt := false } = (.ok (), m2) ∧
      m.playAudioStream s T d = (.ok h, m2)) := by
  unfold SoundManager.playAudioStream
  by_cases hT : T < m.kSoundTypeMAX
  · rw [if_neg (not_not.2 hT)]
    cases hr : m.checkReady with
    | error e => exact Or.inl rfl
    | ok u =>
      have hready : m.ready = true := by
        unfold SoundManager.checkReady at hr
        by_cases hrr : m.ready = true
        · exact hrr
        · simp [hrr] at hr
      cases s with
      | none => exact Or.inl rfl
      | some a =>
        simp only []
        rcases hn : m.newChannel with ⟨r, m1⟩
        cases r with
        | error e =>
          obtain ⟨cc, rfl⟩ := newChannel_error m e m1 hn
          exact Or.inr (Or.inl ⟨cc, rfl⟩)
        | ok h =>
          simp only []
          rcases hsu : (m1.setSlot h.channel (some
            { id := h.id, state := AL_PAUSED, stream := some a, source := 0,
              disposeAfterUse := d, type := T, typeIt := false })).setupChannel h.channel
            { id := h.id, state := AL_PAUSED, stream := some a, source := 0,
              disposeAfterUse := d, type := T, typeIt := false } with ⟨r2, m2⟩
          cases r2 with
          | error e2 =>
            exact Or.inr (Or.inr (Or.inl ⟨a, h, m1, m2, e2, rfl, hready, hT, rfl, hsu, rfl⟩))
          | ok u2 =>
            exact Or.inr (Or.inr (Or.inr ⟨a, h, m1, m2, rfl, hready, hT, rfl, hsu, rfl⟩))
  · rw [if_pos hT]
    exact Or.inl rfl

/-- `newChannel` on a table of at most `2 ^ 16` slots hands out an empty slot inside
the table. -/
theorem newChannel_slot (m : SoundManager) (h : ChannelHandle) (m1 : SoundManager)
    (hK : m.kChannelCount ≤ 65536) (hn : m.newChannel = (.ok h, m1)) :
    h.channel ≠ 0 ∧ h.channel < m.kChannelCount ∧ m.channels h.channel = none ∧
    h.id = m.curID ∧ ∃ cc, m1 = { m with curChannel := cc, curID := nextID m.curID } := by
  obtain ⟨n1, n2, ⟨j, j1, j2, j3⟩, cc, hm1⟩ := newChannel_ok m h m1 hn
  have hjj : j % 65536 = j := Nat.mod_eq_of_lt (by omega)
  rw [hjj] at j3
  exact ⟨n1, by rw [j3]; exact j1, by rw [j3]; exact j2, n2, cc, hm1⟩

theorem playAudioStream_preserves (m : SoundManager) (s : Option AudioStream) (T : Nat)
    (d : Bool) (h : TypeListsOk m) : TypeListsOk (m.playAudioStream s T d).2 := by
  obtain ⟨h1, h2, h3, h4, h5, h6⟩ := h
  have hinv : TypeListsOk m := ⟨h1, h2, h3, h4, h5, h6⟩
  rcases playAudioStream_cases m s T d with hc | ⟨cc, hc⟩ |
    ⟨a, hd, m1, m2, e, -, hready, hT, hn, hsu, hp⟩ | ⟨a, hd, m1, m2, -, hready, hT, hn, hsu, hp⟩
  · rw [hc]; exact hinv
  · rw [hc]; exact TypeListsOk.of_tables m _ hinv rfl rfl h5 rfl rfl
  · -- the try block failed: the new channel is freed again
    obtain ⟨n1, n2, n3, n4, cc, hm1⟩ := newChannel_slot m hd m1 h6 hn
    obtain ⟨e1, e2, e3, e4, c, e5, e6, e7, e8⟩ := setupChannel_error _ _ _ _ _ hsu
      (by simp [SoundManager.setSlot])
    subst hm1
    simp only [SoundManager.setSlot, Function.update_idem] at e1 e2 e3 e4 e5
    simp only [] at e6 e7 e8
    have hid0 : hd.id ≠ 0 := by rw [n4]; have := (h5 hready).1; omega
    have hslot : m2.slot hd.channel = .ok (some c) := by
      simp [SoundManager.slot, e4, n2, e5]
    have hfree : (m2.freeChannelHandle hd).2.2 = m2.freeChannel hd.channel := by
      simp [SoundManager.freeChannelHandle, n1, hid0, hslot, e6]
    have hc2 : m2.channels hd.channel = some c := by rw [e5]; simp
    rw [hp]
    simp only []
    rw [hfree]
    have hty := freeChannel_types m2 hd.channel c n1 hc2
    rw [e7] at hty
    simp only [Bool.false_eq_true, if_false] at hty
    have hch := freeChannel_channels m2 hd.channel n1
    rw [e5, Function.update_idem] at hch
    have hch' : (m2.freeChannel hd.channel).channels = m.channels := by
      rw [hch, ← n3]; exact Function.update_eq_self _ _
    refine TypeListsOk.of_tables m _ hinv (by rw [freeChannel_kChannelCount, e4])
      (by rw [(freeChannel_ready m2 _).1, e2]) ?_ (by rw [hty, e1]) hch'
    intro _
    rw [freeChannel_curID, e3]
    exact nextID_range m.curID
  · -- success: the new channel is appended to the list of its type
    obtain ⟨n1, n2, n3, n4, cc, hm1⟩ := newChannel_slot m hd m1 h6 hn
    obtain ⟨c, src, s1, s2, s3, s4, s5, s6, s7, s8, s9, s10, s11, s12, s13, s14⟩ :=
      setupChannel_ok _ _ _ _ hsu
    obtain ⟨-, -, -, -, -, -, -, -, -, -, -, -, -, d1, d2, -⟩ :=
      setupChannel_detail _ _ _ _ a hsu rfl rfl
    subst hm1
    simp only [SoundManager.setSlot, Function.update_idem] at s1 s13 s14 d1 d2
    simp only [] at s5
    rw [hp]
    simp only []
    have hnot : ∀ T', hd.channel ∉ (m.types T').list := by
      intro T' hmem
      obtain ⟨c', hc', -⟩ := (h1 T' hd.channel).1 hmem
      rw [n3] at hc'; cases hc'
    refine ⟨?_, ?_, ?_, ?_, ?_, by rw [s14]; exact h6⟩
    · intro T' i
      rw [s13, s1]
      by_cases hT' : T' = T
      · subst hT'
        simp only [Function.update_same, List.mem_append, List.mem_singleton]
        by_cases hi : i = hd.channel
        · subst hi; simp [s5]
        · simp only [hi, or_false, Function.update_apply, if_false]
          exact h1 T' i
      · simp only [Function.update_apply, hT', if_false]
        by_cases hi : i = hd.channel
        · subst hi
          simp only [if_true, Option.some.injEq, exists_eq_left']
          constructor
          · intro hmem; exact absurd hmem (hnot T')
          · intro hc; exact absurd (s5.symm.trans hc).symm hT'
        · simp only [hi, if_false]
          exact h1 T' i
    · intro T'
      rw [s13]
      by_cases hT' : T' = T
      · subst hT'
        simp only [Function.update_same]
        exact List.Nodup.append (h2 T') (List.nodup_singleton _)
          (by
            simp only [List.Disjoint, List.mem_singleton]
            intro x hx hx'
            subst hx'
            exact hnot T' hx)
      · simp only [Function.update_apply, hT', if_false]
        exact h2 T'
    · intro i c' hc'
      rw [s1] at hc'
      rw [s14]
      by_cases hi : i = hd.channel
      · subst hi
        simp only [Function.update_same, Option.some.injEq] at hc'
        subst hc'
        exact ⟨s6, by omega, n2⟩
      · simp only [Function.update_apply, hi, if_false] at hc'
        exact h3 i c' hc'
    · intro hr'
      rw [d1] at hr'
      rw [hready] at hr'
      cases hr'
    · intro _
      rw [d2]
      exact nextID_range m.curID

theorem setSlot_preserves (m : SoundManager) (i : Nat) (c c' : Channel) (h : TypeListsOk m)
    (hc : m.channels i = some c) (ht : c'.type = c.type) (hti : c'.typeIt = c.typeIt) :
    TypeListsOk (m.setSlot i (some c')) := by
  refine TypeListsOk.of_same m _ h rfl rfl h.2.2.2.2.1 (fun _ => rfl) ?_
  intro j
  by_cases hj : j = i
  · subst hj; simp [SoundManager.setSlot, hc, ht, hti]
  · simp [SoundManager.setSlot, Function.update_apply, hj]

theorem triggerUpdate_preserves (m : SoundManager) (h : TypeListsOk m) :
    TypeListsOk m.triggerUpdate.2 := by
  unfold SoundManager.triggerUpdate
  split
  · exact h
  · exact TypeListsOk.of_tables m _ h rfl rfl h.2.2.2.2.1 rfl rfl

theorem al_preserves (m : SoundManager) (al : OpenAL) (h : TypeListsOk m) :
    TypeListsOk { m with al := al } :=
  TypeListsOk.of_tables m _ h rfl rfl h.2.2.2.2.1 rfl rfl

theorem startChannel_preserves (m : SoundManager) (hd : ChannelHandle) (h : TypeListsOk m) :
    TypeListsOk (m.startChannel hd).2 := by
  unfold SoundManager.startChannel
  cases hg : m.getChannel hd with
  | error e => exact h
  | ok oc =>
    cases oc with
    | none => exact h
    | some c =>
      simp only []
      split
      · exact h
      · exact triggerUpdate_preserves _
          (setSlot_preserves m hd.channel c _ h (getChannel_some m hd c hg) rfl rfl)

theorem pauseChannel_preserves (m : SoundManager) (hd : ChannelHandle) (p : Bool)
    (h : TypeListsOk m) : TypeListsOk (m.pauseChannel hd p).2 := by
  unfold SoundManager.pauseChannel
  cases hg : m.getChannel hd with
  | error e => exact h
  | ok oc =>
    cases oc with
    | none => exact h
    | some c =>
      have hc := getChannel_some m hd c hg
      simp only []
      split
      · exact h
      · split
        · split
          · exact al_preserves m _ h
          · exact triggerUpdate_preserves _
              (setSlot_preserves _ hd.channel c _ (al_preserves m _ h) hc rfl rfl)
        · exact triggerUpdate_preserves _ (setSlot_preserves m hd.channel c _ h hc rfl rfl)

theorem freeChannelHandle_preserves (m : SoundManager) (hd : ChannelHandle) (h : TypeListsOk m) :
    TypeListsOk (m.freeChannelHandle hd).2.2 := by
  unfold SoundManager.freeChannelHandle
  split
  · split
    · exact h
    · exact h
    · split
      · exact freeChannel_preserves m _ h
      · exact h
  · exact h

theorem isPlaying_preserves (m : SoundManager) (hd : ChannelHandle) (h : TypeListsOk m) :
    TypeListsOk (m.isPlaying hd).2 := by
  unfold SoundManager.isPlaying
  split
  · exact h
  · split
    · exact h
    · exact h
    · split
      · exact h
      · exact isPlayingChannel_preserves m _ h

theorem setListenerGain_preserves (m : SoundManager) (g : ALfloat) (h : TypeListsOk m) :
    TypeListsOk (m.setListenerGain g).2 := by
  unfold SoundManager.setListenerGain
  split
  · exact h
  · exact al_preserves m _ h

theorem setChannelPosition_preserves (m : SoundManager) (hd : ChannelHandle) (x y z : ALfloat)
    (h : TypeListsOk m) : TypeListsOk (m.setChannelPosition hd x y z).2 := by
  unfold SoundManager.setChannelPosition
  repeat' split
  all_goals exact h

theorem getChannelPosition_preserves (m : SoundManager) (hd : ChannelHandle)
    (out : ALfloat × ALfloat × ALfloat) (h : TypeListsOk m) :
    TypeListsOk (m.getChannelPosition hd out).2 := by
  unfold SoundManager.getChannelPosition
  repeat' split
  all_goals exact h

theorem setChannelGain_preserves (m : SoundManager) (hd : ChannelHandle) (g : ALfloat)
    (h : TypeListsOk m) : TypeListsOk (m.setChannelGain hd g).2 := by
  unfold SoundManager.setChannelGain
  repeat' split
  all_goals exact h

theorem setTypeGain_preserves (m : SoundManager) (T : Nat) (g : ALfloat) (h : TypeListsOk m) :
    TypeListsOk (m.setTypeGain T g).2 := by
  unfold SoundManager.setTypeGain
  split
  · exact h
  · refine TypeListsOk.of_same m _ h rfl rfl h.2.2.2.2.1 ?_ (fun _ => rfl)
    intro T'
    by_cases hT : T' = T
    · subst hT; simp
    · simp [Function.update_apply, hT]

/-- One operation keeps the invariant of the type lists, provided `init()` is not
called on a ready manager. -/
theorem step_preserves (m : SoundManager) (op : Op) (h : TypeListsOk m)
    (hinit : op.isInit = true → m.ready = false) : TypeListsOk (step m op) := by
  cases op with
  | init a b c => exact init_preserves m a b c h (hinit rfl)
  | deinit => exact deinit_preserves m h
  | triggerUpdate => exact triggerUpdate_preserves m h
  | playAudioStream s t d => exact playAudioStream_preserves m s t d h
  | startChannel hd => exact startChannel_preserves m hd h
  | pauseChannel hd p => exact pauseChannel_preserves m hd p h
  | stopChannel hd => exact freeChannelHandle_preserves m hd h
  | isPlaying hd => exact isPlaying_preserves m hd h
  | setListenerGain g => exact setListenerGain_preserves m g h
  | setChannelPosition hd x y z => exact setChannelPosition_preserves m hd x y z h
  | getChannelPosition hd => exact getChannelPosition_preserves m hd _ h
  | setChannelGain hd g => exact setChannelGain_preserves m hd g h
  | setTypeGain t g => exact setTypeGain_preserves m t g h
  | update => exact updateLoop_preserves _ _ m h
  | hardware al => exact al_preserves m al h

theorem run_preserves (ops : List Op) : ∀ (m : SoundManager), TypeListsOk m →
    lifecycle m ops = true → TypeListsOk (run m ops) := by
  induction ops with
  | nil => intro m h _; exact h
  | cons op rest ih =>
    intro m h hl
    rw [lifecycle, Bool.and_eq_true] at hl
    have hstep := step_preserves m op h (by
      intro hi
      have := hl.1
      rw [hi] at this
      simpa using this)
    exact ih (step m op) hstep hl.2

theorem constructed_typeLists (K T : Nat) (hK : K ≤ 65536) :
    TypeListsOk (SoundManager.constructed K T) := by
  refine ⟨?_, ?_, ?_, fun _ _ => rfl, ?_, hK⟩
  · intro t i; simp [SoundManager.constructed]
  · intro t; exact List.nodup_nil
  · intro i c hc; cases hc
  · intro hr; cases hr

/-- C27, amended: in every state that a manager with a table of at most `2 ^ 16` slots
reaches from its construction by `init()`, the public operations, `update()` and moves
of the device, with `init()` called only while the manager is not ready, the list of
every sound type holds exactly the occupied slots whose channel has that type, each
once, and so no released channel.  `playAudioStream` (whether it succeeds or fails),
`stopChannel`, `update` and `deinit` keep this invariant. -/
theorem type_lists_spec (K Tmax : Nat) (hK : K ≤ 65536) :
    (∀ ops, lifecycle (SoundManager.constructed K Tmax) ops = true →
      ∀ T, (∀ i, i ∈ ((run (SoundManager.constructed K Tmax) ops).types T).list ↔
          ∃ c, (run (SoundManager.constructed K Tmax) ops).channels i = some c ∧ c.type = T) ∧
        ((run (SoundManager.constructed K Tmax) ops).types T).list.Nodup ∧
        (∀ i, ((run (SoundManager.constructed K Tmax) ops).types T).list.count i ≤ 1)) ∧
    (∀ m, TypeListsOk m →
      (∀ s T d, TypeListsOk (m.playAudioStream s T d).2) ∧
      (∀ h, TypeListsOk (m.stopChannel h).2.2) ∧
      TypeListsOk m.update.2 ∧ TypeListsOk m.deinit) := by
  constructor
  · intro ops hl T
    obtain ⟨h1, h2, -⟩ := run_preserves ops _ (constructed_typeLists K Tmax hK) hl
    exact ⟨h1 T, h2 T, fun i => List.nodup_iff_count_le_one.1 (h2 T) i⟩
  · intro m h
    exact ⟨fun s T d => playAudioStream_preserves m s T d h,
      fun hd => freeChannelHandle_preserves m hd h, updateLoop_preserves _ _ m h,
      deinit_preserves m h⟩

/-- C27, witness: the list of type 1 in the manager with 4 slots and 3 sound types
after `init()`, `playAudioStream` and `stopChannel`. -/
theorem type_lists_spec_witness :
    (∀ i, i ∈ ((run (SoundManager.constructed 4 3)
          [.init true true true, .playAudioStream (some monoStream) 1 true,
           .stopChannel ⟨1, 1⟩]).types 1).list ↔
        ∃ c, (run (SoundManager.constructed 4 3)
          [.init true true true, .playAudioStream (some monoStream) 1 true,
           .stopChannel ⟨1, 1⟩]).channels i = some c ∧ c.type = 1) ∧
      ((run (SoundManager.constructed 4 3)
          [.init true true true, .playAudioStream (some monoStream) 1 true,
           .stopChannel ⟨1, 1⟩]).types 1).list.Nodup ∧
      (∀ i, ((run (SoundManager.constructed 4 3)
          [.init true true true, .playAudioStream (some monoStream) 1 true,
           .stopChannel ⟨1, 1⟩]).types 1).list.count i ≤ 1) :=
  (type_lists_spec 4 3 (by decide)).1 _ (by decide) 1

/-- C27, counterexample: a second `init()` on a ready manager empties the table but
not the lists: after `init()`, `playAudioStream` and `init()` the list of type 1 still
names the channel of slot 1, and slot 1 is empty. -/
theorem second_init_keeps_lists :
    ((run (SoundManager.constructed 4 3)
      [.init true true true, .playAudioStream (some monoStream) 1 true,
       .init true true true]).types 1).list = [1] ∧
    (run (SoundManager.constructed 4 3)
      [.init true true true, .playAudioStream (some monoStream) 1 true,
       .init true true true]).channels 1 = none := by
  decide

/-! ### Threads and the mutex -/

/-- Run without interruption, the two statements of `isValidChannelProgram` give the
answer of `isValidChannel`. -/
theorem isValidChannelProgram_sequential (m : SoundManager) (h : ChannelHandle) (a : Answer) :
    (isValidChannelCompare h (isValidChannelTest h (m, a))).2 =
      match m.isValidChannel h with
      | .ok b => .returned b
      | .error _ => .outsideTable := by
  unfold isValidChannelCompare isValidChannelTest SoundManager.isValidChannel
  by_cases h0 : h.channel = 0 ∨ h.id = 0
  · simp [h0]
  · simp only [h0, if_false]
    cases hs : m.slot h.channel with
    | error e => simp
    | ok oc =>
      cases oc with
      | none => simp
      | some c =>
        simp only [hs]
        by_cases hid : c.id = h.id <;> simp [hid]

/-- C22: `isValidChannel` reads the channel table without holding the mutex.  On
`startedManager` the handle (1, 1) is valid and its channel has finished.  The
application thread runs `isValidChannel` on it while the sound thread runs `update()`:
the application thread tests the pointer in slot 1 (line 100), the sound thread takes
the mutex, releases the channel and gives the mutex back, the application thread
dereferences the pointer in slot 1 (line 103), which is null by now.  The schedule
runs to its end, both threads finish, and nothing ever waited for the mutex. -/
theorem isValidChannel_races_with_update :
    startedManager.isValidChannel ⟨1, 1⟩ = .ok true ∧
    (isValidChannelProgram ⟨1, 1⟩).all (fun s => match s with
      | .lock => false
      | _ => true) = true ∧
    (Threads.run [false, true, true, true, false]
      { shared := (startedManager, .pending), owner := none,
        app := isValidChannelProgram ⟨1, 1⟩, sound := updateProgram }).map Threads.observe
      = some (.nullDereference, 0, 0, none) := by
  decide

theorem Threads.run_done (x : SoundManager × Answer) (o : Option Bool) (sched : List Bool)
    (c' : Threads)
    (h : Threads.run sched { shared := x, owner := o, app := [], sound := [] } = some c') :
    c'.shared = x ∧ c'.owner = o := by
  cases sched with
  | nil =>
    simp only [Threads.run, Option.some.injEq] at h
    subst h
    exact ⟨rfl, rfl⟩
  | cons t ts =>
    cases t <;> simp [Threads.run, Threads.step] at h

/-- The sound thread alone, with a critical section still to run. -/
theorem Threads.run_sound (g : SoundManager × Answer → SoundManager × Answer)
    (x : SoundManager × Answer) (sched : List Bool) (c' : Threads)
    (h : Threads.run sched
      { shared := x, owner := none, app := [], sound := [.lock, .act g, .unlock] } = some c')
    (hfin : c'.sound = []) : c'.shared = g x ∧ c'.owner = none := by
  rcases sched with _ | ⟨t1, _ | ⟨t2, _ | ⟨t3, rest⟩⟩⟩
  · simp only [Threads.run, Option.some.injEq] at h
    subst h; simp at hfin
  · cases t1 <;> simp [Threads.run, Threads.step] at h
    subst h; simp at hfin
  · cases t1 <;> cases t2 <;> simp [Threads.run, Threads.step] at h
    subst h; simp at hfin
  · cases t1 <;> cases t2 <;> cases t3 <;> simp [Threads.run, Threads.step] at h
    exact Threads.run_done _ _ _ _ h

/-- The application thread alone, with a critical section still to run. -/
theorem Threads.run_app (f : SoundManager × Answer → SoundManager × Answer)
    (x : SoundManager × Answer) (sched : List Bool) (c' : Threads)
    (h : Threads.run sched
      { shared := x, owner := none, app := [.lock, .act f, .unlock], sound := [] } = some c')
    (hfin : c'.app = []) : c'.shared = f x ∧ c'.owner = none := by
  rcases sched with _ | ⟨t1, _ | ⟨t2, _ | ⟨t3, rest⟩⟩⟩
  · simp only [Threads.run, Option.some.injEq] at h
    subst h; simp at hfin
  · cases t1 <;> simp [Threads.run, Threads.step] at h
    subst h; simp at hfin
  · cases t1 <;> cases t2 <;> simp [Threads.run, Threads.step] at h
    subst h; simp at hfin
  · cases t1 <;> cases t2 <;> cases t3 <;> simp [Threads.run, Threads.step] at h
    exact Threads.run_done _ _ _ _ h

/-- Two critical sections: whatever the schedule, if both threads finish, one section
ran as a whole before the other. -/
theorem Threads.serialised (f g : SoundManager × Answer → SoundManager × Answer)
    (x : SoundManager × Answer) (sched : List Bool) (c' : Threads)
    (h : Threads.run sched
      { shared := x, owner := none, app := [.lock, .act f, .unlock],
        sound := [.lock, .act g, .unlock] } = some c')
    (hfin : c'.app = [] ∧ c'.sound = []) :
    (c'.shared = g (f x) ∨ c'.shared = f (g x)) ∧ c'.owner = none := by
  rcases sched with _ | ⟨t1, _ | ⟨t2, _ | ⟨t3, rest⟩⟩⟩
  · simp only [Threads.run, Option.some.injEq] at h
    subst h; simp at hfin
  · cases t1 <;> simp [Threads.run, Threads.step] at h <;> (subst h; simp at hfin)
  · cases t1 <;> cases t2 <;> simp [Threads.run, Threads.step] at h <;>
      (subst h; simp at hfin)
  · cases t1 <;> cases t2 <;> cases t3 <;> simp [Threads.run, Threads.step] at h
    · obtain ⟨a, b⟩ := Threads.run_sound g (f x) rest c' h hfin.2
      exact ⟨Or.inl a, b⟩
    · obtain ⟨a, b⟩ := Threads.run_app f (g x) rest c' h hfin.1
      exact ⟨Or.inr a, b⟩

/-- `stopChannel` on the application thread while the sound thread runs `update()`:
in every schedule in which both finish the outcome is that of `stopChannel` followed by
`update()` or of `update()` followed by `stopChannel`, and for a handle inside the
table the slot of a handle that was valid is empty at the end. -/
theorem stopChannel_while_update (m : SoundManager) (a : Answer) (h : ChannelHandle)
    (sched : List Bool) (c' : Threads)
    (hrun : Threads.run sched
      { shared := (m, a), owner := none, app := stopChannelProgram h, sound := updateProgram }
        = some c')
    (hfin : c'.app = [] ∧ c'.sound = []) :
    (c'.shared.1 = (m.stopChannel h).2.2.update.2 ∨
      c'.shared.1 = (m.update.2.stopChannel h).2.2) ∧
    c'.owner = none ∧
    (h.channel < m.kChannelCount → m.isValidChannel h = .ok true →
      c'.shared.1.channels h.channel = none) := by
  obtain ⟨hs, ho⟩ := Threads.serialised _ _ (m, a) sched c' hrun hfin
  have hs' : c'.shared.1 = (m.stopChannel h).2.2.update.2 ∨
      c'.shared.1 = (m.update.2.stopChannel h).2.2 := by
    rcases hs with hs | hs
    · left; rw [hs]
    · right; rw [hs]
  refine ⟨hs', ho, ?_⟩
  intro hin hv
  obtain ⟨h0, hid0, c, hc, hcid⟩ := (isValidChannel_true_iff m h hin).1 hv
  rcases hs' with hs | hs
  · -- stopChannel first: the slot is empty and update() leaves it empty
    rw [hs, stopChannel_valid m h hv hin]
    obtain ⟨-, -, hk⟩ := update_keeps (m.freeChannel h.channel)
    rcases hk h.channel with hk | hk
    · exact hk
    · rw [freeChannel_channels m h.channel h0] at hk
      simp only [Function.update_same, Option.map_none'] at hk
      cases hx : (m.freeChannel h.channel).update.2.channels h.channel with
      | none => rfl
      | some y => rw [hx] at hk; simp at hk
  · -- update() first: it has released the slot, or stopChannel does
    rw [hs]
    obtain ⟨hK, -, hk⟩ := update_keeps m
    have hin' : h.channel < m.update.2.kChannelCount := by rw [hK]; exact hin
    rcases isValidChannel_total m.update.2 h hin' with hv' | hv'
    · rw [stopChannel_valid _ h hv' hin', freeChannel_channels _ _ h0]
      simp
    · rw [stopChannel_invalid _ h hv' hin']
      rcases hk h.channel with hk | hk
      · exact hk
      · rw [hc] at hk
        cases hx : m.update.2.channels h.channel with
        | none => rfl
        | some y =>
          rw [hx] at hk
          simp only [Option.map_some', Option.some.injEq] at hk
          have := (isValidChannel_false_iff m.update.2 h hin').1 hv'
          rcases this with t | t | t
          · exact absurd t h0
          · exact absurd t hid0
          · exact absurd (hk.trans hcid) (t y hx)

/-! ### The buffers of a channel -/

theorem Gentle.same (al : OpenAL) : Gentle al al := ⟨rfl, rfl, rfl, rfl, fun _ => rfl⟩

theorem Gentle.after {a b c : OpenAL} (h1 : Gentle a b) (h2 : Gentle b c) : Gentle a c :=
  ⟨h2.1.trans h1.1, h2.2.1.trans h1.2.1, h2.2.2.1.trans h1.2.2.1, h2.2.2.2.1.trans h1.2.2.2.1,
    fun s => (h2.2.2.2.2 s).trans (h1.2.2.2.2 s)⟩

theorem Gentle.source {al al' : OpenAL} (h : Gentle al al') (s : Nat) (src : Source)
    (hs : al.sources s = some src) :
    ∃ src', al'.sources s = some src' ∧ src'.queue = src.queue ∧
      src'.processed = src.processed := by
  have := h.2.2.2.2 s
  rw [hs] at this
  cases hs' : al'.sources s with
  | none => rw [hs'] at this; simp at this
  | some src' =>
    rw [hs'] at this
    simp only [Option.map_some', Option.some.injEq, Prod.mk.injEq] at this
    exact ⟨src', rfl, this.1, this.2⟩

/-- A channel in order stays in order when the name counter does not go back, its
buffers stay, and its source keeps the buffers of the free list and the queue. -/
theorem ChannelOk.transfer (al al' : OpenAL) (c c' : Channel) (h : ChannelOk al c)
    (hsrc : c'.source = c.source) (hbuf : c'.buffers = c.buffers)
    (hst : c'.stream.isSome = true) (hl : al.lastName ≤ al'.lastName)
    (hex : ∀ b ∈ c.buffers, (al.buffers b).isSome = true → (al'.buffers b).isSome = true)
    (hq : ∀ src, al.sources c.source = some src → src.processed ≤ src.queue.length →
      ∃ src', al'.sources c.source = some src' ∧ src'.processed ≤ src'.queue.length ∧
        (c'.freeBuffers ++ src'.queue).Perm (c.freeBuffers ++ src.queue)) :
    ChannelOk al' c' := by
  obtain ⟨h1, h2, h3, h4, h5, h6, src, h7, h8, h9⟩ := h
  obtain ⟨src', q1, q2, q3⟩ := hq src h7 h8
  refine ⟨by rw [hsrc]; exact h1, by rw [hsrc]; omega, hst, by rw [hbuf]; exact h4,
    by rw [hbuf]; exact h5, ?_, src', by rw [hsrc]; exact q1, q2, by rw [hbuf]; exact q3.trans h9⟩
  intro b hb
  rw [hbuf] at hb
  obtain ⟨a1, a2⟩ := h6 b hb
  exact ⟨by omega, hex b hb a2⟩

theorem ChannelOk.of_gentle {al al' : OpenAL} (c c' : Channel) (h : ChannelOk al c)
    (hg : Gentle al al') (hsrc : c'.source = c.source) (hbuf : c'.buffers = c.buffers)
    (hfree : c'.freeBuffers = c.freeBuffers) (hst : c'.stream.isSome = true) :
    ChannelOk al' c' := by
  refine ChannelOk.transfer al al' c c' h hsrc hbuf hst (by rw [hg.2.2.1])
    (fun b _ hb => by rw [hg.2.2.2.1]; exact hb) ?_
  intro src hs hp
  obtain ⟨src', s1, s2, s3⟩ := hg.source c.source src hs
  exact ⟨src', s1, by rw [s2, s3]; exact hp, by rw [hfree, s2]⟩

/-- The invariant carries over to a state whose device changed gently and whose
channels kept their sources, buffers, free lists and streams. -/
theorem BuffersOk.after_gentle (m m' : SoundManager) (h : BuffersOk m) (hg : Gentle m.al m'.al)
    (hK : m'.kChannelCount = m.kChannelCount)
    (hch : ∀ i c', m'.channels i = some c' → ∃ c, m.channels i = some c ∧
      c'.source = c.source ∧ c'.buffers = c.buffers ∧ c'.freeBuffers = c.freeBuffers ∧
      c'.stream.isSome = true) : BuffersOk m' := by
  obtain ⟨h1, h2, h3, h4, h5⟩ := h
  refine ⟨by rw [hg.1, h1], by rw [hg.2.1, h2], by rw [hK]; exact h3, ?_, ?_⟩
  · intro i c' hc'
    obtain ⟨c, hc, e1, e2, e3, e4⟩ := hch i c' hc'
    exact ChannelOk.of_gentle c c' (h4 i c hc) hg e1 e2 e3 e4
  · intro i j c c' hij hc hc'
    obtain ⟨c0, hc0, e1, e2, -⟩ := hch i c hc
    obtain ⟨c1, hc1, f1, f2, -⟩ := hch j c' hc'
    rw [e1, f1, e2, f2]
    exact h5 i j c0 c1 hij hc0 hc1

theorem BuffersOk.of_al (m : SoundManager) (al : OpenAL) (h : BuffersOk m)
    (hg : Gentle m.al al) : BuffersOk { m with al := al } :=
  BuffersOk.after_gentle m _ h hg rfl
    (fun i c' hc' => ⟨c', hc', rfl, rfl, rfl, (h.2.2.2.1 i c' hc').2.2.1⟩)

theorem gentle_sourcef (al : OpenAL) (s : Nat) (g : ALfloat)
    (hs : (al.sources s).isSome = true) : Gentle al (alSourcef al s g) := by
  obtain ⟨src, hs⟩ := Option.isSome_iff_exists.1 hs
  refine ⟨?_, ?_, ?_, ?_, ?_⟩ <;> simp only [alSourcef, OpenAL.record, hs]
  intro k
  by_cases hk : k = s
  · subst hk; simp [hs]
  · simp [Function.update_apply, hk]

theorem gentle_source3f (al : OpenAL) (s : Nat) (x y z : ALfloat)
    (hs : (al.sources s).isSome = true) : Gentle al (alSource3f al s x y z) := by
  obtain ⟨src, hs⟩ := Option.isSome_iff_exists.1 hs
  refine ⟨?_, ?_, ?_, ?_, ?_⟩ <;> simp only [alSource3f, OpenAL.record, hs]
  intro k
  by_cases hk : k = s
  · subst hk; simp [hs]
  · simp [Function.update_apply, hk]

theorem gentle_play (al : OpenAL) (s : Nat)
    (hs : (al.sources s).isSome = true) : Gentle al (alSourcePlay al s) := by
  obtain ⟨src, hs⟩ := Option.isSome_iff_exists.1 hs
  refine ⟨?_, ?_, ?_, ?_, ?_⟩ <;> simp only [alSourcePlay, OpenAL.record, hs]
  intro k
  by_cases hk : k = s
  · subst hk; simp [hs]
  · simp [Function.update_apply, hk]

theorem gentle_pause (al : OpenAL) (s : Nat) (hf : al.faults = [])
    (hs : (al.sources s).isSome = true) : Gentle al (alSourcePause al s) := by
  obtain ⟨src, hs⟩ := Option.isSome_iff_exists.1 hs
  by_cases hp : src.state = AL_PLAYING
  · refine ⟨?_, ?_, ?_, ?_, ?_⟩ <;>
      simp only [alSourcePause, OpenAL.record, OpenAL.attempt, hf, hs, hp, AL_NO_ERROR, ne_eq,
        not_true_eq_false, if_false, if_true]
    intro k
    by_cases hk : k = s
    · subst hk; simp [hs]
    · simp [Function.update_apply, hk]
  · refine ⟨?_, ?_, ?_, ?_, ?_⟩ <;>
      simp only [alSourcePause, OpenAL.record, OpenAL.attempt, hf, hs, hp, AL_NO_ERROR, ne_eq,
        not_true_eq_false, if_false]
    intro k; trivial

theorem alDeleteSources_lastName (al : OpenAL) (s : Nat) :
    (alDeleteSources al s).lastName = al.lastName := by
  unfold alDeleteSources
  simp only []
  split <;> simp [OpenAL.raise_lastName, OpenAL.record]

theorem alDeleteBuffers_lastName (al : OpenAL) (b : Nat) :
    (alDeleteBuffers al b).lastName = al.lastName := by
  unfold alDeleteBuffers
  simp only []
  split <;> simp [OpenAL.raise_lastName, OpenAL.record]

theorem deleteAll_lastName (l : List Nat) : ∀ al : OpenAL,
    (l.foldl alDeleteBuffers al).lastName = al.lastName := by
  induction l with
  | nil => intro al; rfl
  | cons b rest ih => intro al; rw [List.foldl_cons, ih, alDeleteBuffers_lastName]

/-- `freeChannel` keeps the invariant of the buffers. -/
theorem freeChannel_buffersOk (m : SoundManager) (i : Nat) (h : BuffersOk m) :
    BuffersOk (m.freeChannel i) := by
  by_cases hi : i = 0
  · subst hi; rw [freeChannel_zero]; exact h
  · cases hc : m.channels i with
    | none => rw [freeChannel_empty m i hc]; exact h
    | some c =>
      obtain ⟨h1, h2, h3, h4, h5⟩ := h
      obtain ⟨c1, c2, c3, c4, c5, c6, src, c7, c8, c9⟩ := h4 i c hc
      obtain ⟨q1, q2⟩ := freeChannel_quiet m i c src hi hc c7 c5 (fun b hb => (c6 b hb).2)
      have hal := freeChannel_al m i c hi hc
      rw [if_pos c1] at hal
      have hch := freeChannel_channels m i hi
      have hln : (m.freeChannel i).al.lastName = m.al.lastName := by
        rw [hal, deleteAll_lastName, alDeleteSources_lastName]
      refine ⟨by rw [q2, h1], by rw [q1, h2], by rw [freeChannel_kChannelCount]; exact h3, ?_, ?_⟩
      · intro j c' hc'
        rw [hch] at hc'
        by_cases hj : j = i
        · subst hj; simp at hc'
        · simp only [Function.update_apply, hj, if_false] at hc'
          obtain ⟨d1, d2⟩ := h5 j i c' c hj hc' hc
          refine ChannelOk.transfer m.al _ c' c' (h4 j c' hc') rfl rfl (h4 j c' hc').2.2.1
            (by rw [hln]) ?_ ?_
          · intro b hb hex
            rw [hal, deleteAll_buffers, if_neg (fun hbc => d2 b hb hbc), alDeleteSources_buffers]
            exact hex
          · intro src' hs' hp'
            refine ⟨src', ?_, hp', List.Perm.refl _⟩
            rw [hal, deleteAll_sources, alDeleteSources_sources]
            simp only [Function.update_apply, d1, if_false]
            exact hs'
      · intro j k c' c'' hjk hc' hc''
        rw [hch] at hc' hc''
        by_cases hj : j = i
        · subst hj; simp at hc'
        · by_cases hk : k = i
          · subst hk; simp at hc''
          · simp only [Function.update_apply, hj, hk, if_false] at hc' hc''
            exact h5 j k c' c'' hjk hc' hc''

theorem freeAll_buffersOk (fuel : Nat) : ∀ (i : Nat) (m : SoundManager), BuffersOk m →
    BuffersOk (m.freeAll fuel i) := by
  induction fuel with
  | zero => intro i m h; exact h
  | succ n ih =>
    intro i m h
    rw [SoundManager.freeAll]
    exact ih _ _ (freeChannel_buffersOk m i h)

/-- `bufferData` keeps the invariant of the buffers. -/
theorem bufferData_buffersOk (m : SoundManager) (i : Nat) (h : BuffersOk m) :
    BuffersOk (m.bufferData i).2 := by
  by_cases hi : i = 0
  · have : m.bufferData i = (.ok (), m) := by simp [SoundManager.bufferData, hi]
    rw [this]; exact h
  · cases hc : m.channels i with
    | none =>
      have : m.bufferData i = (.ok (), m) := by simp [SoundManager.bufferData, hi, hc]
      rw [this]; exact h
    | some c =>
      obtain ⟨h1, h2, h3, h4, h5⟩ := h
      obtain ⟨c1, c2, c3, c4, c5, c6, src, c7, c8, c9⟩ := h4 i c hc
      obtain ⟨s, hs⟩ := Option.isSome_iff_exists.1 c3
      by_cases hd : s.endOfData = true
      · rw [bufferData_endOfData m i c s hc hs hd]
        exact ⟨h1, h2, h3, h4, h5⟩
      · have hd' : s.endOfData = false := by simpa using hd
        have hex : ∀ b ∈ c.freeBuffers ++ src.queue, (m.al.buffers b).isSome = true := by
          intro b hb
          exact (c6 b ((List.Perm.mem_iff c9).1 hb)).2
        obtain ⟨al', q1, q2, q3, q4, q5, q6, q7⟩ :=
          bufferDataChannel_quiet c m.al s src hs hd' c7 h1 h2 c8 hex
        have hb := bufferData_eq m i c hi hc
        rw [q1] at hb
        rw [hb]
        simp only [SoundManager.setSlot]
        have hperm := refill_perm c.freeBuffers src.queue src.processed
          (readRounds (c.freeBuffers ++ src.queue.take src.processed).length s).1
        refine ⟨q5, q6, h3, ?_, ?_⟩
        · intro j c' hc'
          by_cases hj : j = i
          · subst hj
            simp only [Function.update_same, Option.some.injEq] at hc'
            subst hc'
            refine ChannelOk.transfer m.al al' c _ (h4 j c hc) rfl rfl rfl (by rw [q7])
              (fun b _ hb => by rw [q4]; exact hb) ?_
            intro src0 hs0 _
            rw [c7] at hs0
            cases hs0
            exact ⟨_, q2, by simp, hperm⟩
          · simp only [Function.update_apply, hj, if_false] at hc'
            obtain ⟨d1, -⟩ := h5 j i c' c hj hc' hc
            refine ChannelOk.transfer m.al al' c' c' (h4 j c' hc') rfl rfl (h4 j c' hc').2.2.1
              (by rw [q7]) (fun b _ hb => by rw [q4]; exact hb) ?_
            intro src' hs' hp'
            exact ⟨src', by rw [q3 _ d1]; exact hs', hp', List.Perm.refl _⟩
        · intro j k c' c'' hjk hc' hc''
          have key : ∀ j c', Function.update m.channels i (some
              { c with
                freeBuffers := (c.freeBuffers ++ src.queue.take src.processed).drop
                  (readRounds (c.freeBuffers ++ src.queue.take src.processed).length s).1,
                stream := some
                  (readRounds (c.freeBuffers ++ src.queue.take src.processed).length s).2 }) j
              = some c' →
              ∃ c0, m.channels j = some c0 ∧ c'.source = c0.source ∧ c'.buffers = c0.buffers := by
            intro j c' hc'
            by_cases hj : j = i
            · subst hj
              simp only [Function.update_same, Option.some.injEq] at hc'
              subst hc'
              exact ⟨c, hc, rfl, rfl⟩
            · simp only [Function.update_apply, hj, if_false] at hc'
              exact ⟨c', hc', rfl, rfl⟩
          obtain ⟨a0, ha0, e1, e2⟩ := key j c' hc'
          obtain ⟨b0, hb0, f1, f2⟩ := key k c'' hc''
          rw [e1, e2, f1, f2]
          exact h5 j k a0 b0 hjk ha0 hb0

/-- `isPlaying(uint16)` keeps the invariant of the buffers. -/
theorem isPlayingChannel_buffersOk (m : SoundManager) (i : Nat) (h : BuffersOk m) :
    BuffersOk (m.isPlayingChannel i).2 := by
  by_cases hi : i = 0
  · have : (m.isPlayingChannel i).2 = m := by simp [SoundManager.isPlayingChannel, hi]
    rw [this]; exact h
  · cases hc : m.channels i with
    | none =>
      have : (m.isPlayingChannel i).2 = m := by simp [SoundManager.isPlayingChannel, hi, hc]
      rw [this]; exact h
    | some c =>
      obtain ⟨src, c7, -⟩ := (h.2.2.2.1 i c hc).2.2.2.2.2.2
      rw [isPlayingChannel_eq m i c src hi hc c7]
      split
      · exact BuffersOk.of_al m _ h (gentle_play m.al c.source (by rw [c7]; rfl))
      · exact h

theorem updateLoop_buffersOk (fuel : Nat) : ∀ (i : Nat) (m : SoundManager), BuffersOk m →
    BuffersOk (m.updateLoop fuel i).2 := by
  induction fuel with
  | zero => intro i m h; exact h
  | succ n ih =>
    intro i m h
    rw [SoundManager.updateLoop]
    cases hc : m.channels i with
    | none => exact ih (i + 1) m h
    | some c =>
      simp only []
      have h1 := isPlayingChannel_buffersOk m i h
      rcases hp : m.isPlayingChannel i with ⟨playing, m1⟩
      rw [hp] at h1
      simp only [] at h1
      cases playing with
      | false =>
        simp only [Bool.not_false, if_true]
        exact ih _ _ (freeChannel_buffersOk m1 i h1)
      | true =>
        simp only [Bool.not_true, Bool.false_eq_true, if_false]
        have h2 := bufferData_buffersOk m1 i h1
        rcases hb : m1.bufferData i with ⟨r, m2⟩
        rw [hb] at h2
        simp only [] at h2
        cases r with
        | error e => exact h2
        | ok u => exact ih _ _ h2

theorem range'_perm (s k n : Nat) (h : k ≤ n) :
    (List.range' (s + k) (n - k) ++ List.range' s k).Perm (List.range' s n) := by
  rw [range'_split s k n h]
  exact List.perm_append_comm

/-- `playAudioStream` keeps the invariant of the buffers. -/
theorem playAudioStream_buffersOk (m : SoundManager) (s : Option AudioStream) (T : Nat)
    (d : Bool) (h : BuffersOk m) : BuffersOk (m.playAudioStream s T d).2 := by
  obtain ⟨h1, h2, h3, h4, h5⟩ := h
  have hinv : BuffersOk m := ⟨h1, h2, h3, h4, h5⟩
  rcases playAudioStream_cases m s T d with hc | ⟨cc, hc⟩ |
    ⟨a, hd, m1, m2, e, -, hready, hT, hn, hsu, hp⟩ | ⟨a, hd, m1, m2, -, hready, hT, hn, hsu, hp⟩
  · rw [hc]; exact hinv
  · rw [hc]; exact hinv
  · -- on a device that does not fail the try block does not fail
    obtain ⟨n1, n2, n3, n4, cc, hm1⟩ := newChannel_slot m hd m1 h3 hn
    have hal : m1.al = m.al := by rw [hm1]
    obtain ⟨m', hq, -⟩ := setupChannel_quiet
      (m1.setSlot hd.channel (some
        { id := hd.id, state := AL_PAUSED, stream := some a, source := 0,
          disposeAfterUse := d, type := T, typeIt := false }))
      hd.channel
      { id := hd.id, state := AL_PAUSED, stream := some a, source := 0,
        disposeAfterUse := d, type := T, typeIt := false } a rfl
      (by simp only [SoundManager.setSlot]; rw [hal]; exact h1)
      (by simp only [SoundManager.setSlot]; rw [hal]; exact h2)
    rw [hq] at hsu
    cases hsu
  · obtain ⟨n1, n2, n3, n4, cc, hm1⟩ := newChannel_slot m hd m1 h3 hn
    have hal : m1.al = m.al := by rw [hm1]
    obtain ⟨m', hq, q1, q2⟩ := setupChannel_quiet
      (m1.setSlot hd.channel (some
        { id := hd.id, state := AL_PAUSED, stream := some a, source := 0,
          disposeAfterUse := d, type := T, typeIt := false }))
      hd.channel
      { id := hd.id, state := AL_PAUSED, stream := some a, source := 0,
        disposeAfterUse := d, type := T, typeIt := false } a rfl
      (by simp only [SoundManager.setSlot]; rw [hal]; exact h1)
      (by simp only [SoundManager.setSlot]; rw [hal]; exact h2)
    rw [hsu] at hq
    simp only [Prod.mk.injEq, true_and] at hq
    subst hq
    obtain ⟨c, src, s1, s2, s3, s4, s5, s6, s7, s8, s9, s10, s11, s12, s13, s14⟩ :=
      setupChannel_ok _ _ _ _ hsu
    obtain ⟨c', src', t1, t2, t3, t4, t5, t6, t7, t8, t9, t10, t11, -⟩ :=
      setupChannel_detail _ _ _ _ a hsu rfl rfl
    subst hm1
    simp only [SoundManager.setSlot, Function.update_idem, List.nil_append] at s1 s8 s11 s12 s14
    simp only [SoundManager.setSlot, Function.update_idem, List.nil_append] at t1 t2 t5 t6 t9 t10 t11
    have hcc : c' = c := by
      rw [s1] at t1
      simpa using t1.symm
    subst hcc
    have hss : src' = src := by
      rw [s9] at t3
      simpa using t3.symm
    subst hss
    have hk5 : kOpenALBufferCount = 5 := rfl
    have hle := readRounds_le kOpenALBufferCount a
    rw [hp]
    simp only []
    have hnew : ChannelOk m2.al c' := by
      refine ⟨by rw [s8]; omega, by rw [s8, t10]; omega, by rw [t4]; rfl,
        by rw [s11]; simp, by rw [s11]; exact List.nodup_range' _ _, ?_, src', s9,
        by rw [t7]; omega, ?_⟩
      · intro b hb
        rw [s11, List.mem_range'_1] at hb
        exact ⟨by rw [t10]; omega, s12 b ⟨by omega, by omega⟩⟩
      · rw [t5, t6, s11]
        exact range'_perm _ _ _ hle
    have hold : ∀ j cj, m.channels j = some cj → ChannelOk m2.al cj ∧ cj.source ≤ m.al.lastName ∧
        ∀ b ∈ cj.buffers, b ≤ m.al.lastName := by
      intro j cj hcj
      have hok := h4 j cj hcj
      refine ⟨?_, hok.2.1, fun b hb => (hok.2.2.2.2.2.1 b hb).1⟩
      refine ChannelOk.transfer m.al m2.al cj cj hok rfl rfl hok.2.2.1 (by rw [t10]; omega)
        (fun b _ hb => t11 b hb) ?_
      intro srcj hsj hpj
      refine ⟨srcj, ?_, hpj, List.Perm.refl _⟩
      rw [t9 cj.source (by have := hok.2.1; omega)]
      exact hsj
    refine ⟨q1, q2, by rw [s14]; exact h3, ?_, ?_⟩
    · intro j cj hcj
      rw [s1] at hcj
      by_cases hj : j = hd.channel
      · subst hj
        simp only [Function.update_same, Option.some.injEq] at hcj
        subst hcj
        exact hnew
      · simp only [Function.update_apply, hj, if_false] at hcj
        exact (hold j cj hcj).1
    · intro j k cj ck hjk hcj hck
      rw [s1] at hcj hck
      by_cases hj : j = hd.channel
      · subst hj
        have hk : k ≠ hd.channel := fun e => hjk e.symm
        simp only [Function.update_same, Option.some.injEq] at hcj
        simp only [Function.update_apply, hk, if_false] at hck
        subst hcj
        obtain ⟨-, o1, o2⟩ := hold k ck hck
        refine ⟨by rw [s8]; omega, ?_⟩
        intro b hb hb'
        rw [s11, List.mem_range'_1] at hb
        have := o2 b hb'
        omega
      · simp only [Function.update_apply, hj, if_false] at hcj
        by_cases hk : k = hd.channel
        · subst hk
          simp only [Function.update_same, Option.some.injEq] at hck
          subst hck
          obtain ⟨-, o1, o2⟩ := hold j cj hcj
          refine ⟨by rw [s8]; omega, ?_⟩
          intro b hb hb'
          rw [s11, List.mem_range'_1] at hb'
          have := o2 b hb
          omega
        · simp only [Function.update_apply, hk, if_false] at hck
          exact h5 j k cj ck hjk hcj hck

theorem init_buffersOk (m : SoundManager) (d c t : Bool) (h : BuffersOk m) :
    BuffersOk (m.init d c t).2 := by
  obtain ⟨h1, h2, h3, h4, h5⟩ := h
  have hal : (m.init d c t).2.al = m.al := by
    cases d <;> cases c <;> cases t <;> rfl
  have hK : (m.init d c t).2.kChannelCount = m.kChannelCount := by
    cases d <;> cases c <;> cases t <;> rfl
  have hch : ∀ i ci, (m.init d c t).2.channels i = some ci → m.channels i = some ci := by
    intro i ci hci
    have : (m.init d c t).2.channels i = if i < m.kChannelCount then none else m.channels i := by
      cases d <;> cases c <;> cases t <;> rfl
    rw [this] at hci
    split at hci
    · cases hci
    · exact hci
  refine ⟨by rw [hal]; exact h1, by rw [hal]; exact h2, by rw [hK]; exact h3, ?_, ?_⟩
  · intro i ci hci
    rw [hal]
    exact h4 i ci (hch i ci hci)
  · intro i j ci cj hij hci hcj
    exact h5 i j ci cj hij (hch i ci hci) (hch j cj hcj)

theorem deinit_buffersOk (m : SoundManager) (h : BuffersOk m) : BuffersOk m.deinit := by
  by_cases hr : m.ready = true
  · have hd : m.deinit = { (({ m with thread := false } : SoundManager).freeAll
        (m.kChannelCount - 1) 1) with dev := false, ctx := false, ready := false } := by
      simp [SoundManager.deinit, hr]
    have h0 : BuffersOk ({ m with thread := false } : SoundManager) := h
    have h1 := freeAll_buffersOk (m.kChannelCount - 1) 1 _ h0
    rw [hd]
    exact h1
  · have : m.deinit = m := by simp [SoundManager.deinit, hr]
    rw [this]; exact h

theorem setSlot_buffersOk (m : SoundManager) (i : Nat) (c c' : Channel) (h : BuffersOk m)
    (hc : m.channels i = some c) (h1 : c'.source = c.source) (h2 : c'.buffers = c.buffers)
    (h3 : c'.freeBuffers = c.freeBuffers) (h4 : c'.stream = c.stream) :
    BuffersOk (m.setSlot i (some c')) := by
  refine BuffersOk.after_gentle m _ h (Gentle.same _) rfl ?_
  intro j cj hcj
  by_cases hj : j = i
  · subst hj
    simp only [SoundManager.setSlot, Function.update_same, Option.some.injEq] at hcj
    subst hcj
    exact ⟨c, hc, h1, h2, h3, by rw [h4]; exact (h.2.2.2.1 j c hc).2.2.1⟩
  · simp only [SoundManager.setSlot, Function.update_apply, hj, if_false] at hcj
    exact ⟨cj, hcj, rfl, rfl, rfl, (h.2.2.2.1 j cj hcj).2.2.1⟩

theorem triggerUpdate_buffersOk (m : SoundManager) (h : BuffersOk m) :
    BuffersOk m.triggerUpdate.2 := by
  unfold SoundManager.triggerUpdate
  split
  · exact h
  · exact h

theorem startChannel_buffersOk (m : SoundManager) (hd : ChannelHandle) (h : BuffersOk m) :
    BuffersOk (m.startChannel hd).2 := by
  unfold SoundManager.startChannel
  cases hg : m.getChannel hd with
  | error e => exact h
  | ok oc =>
    cases oc with
    | none => exact h
    | some c =>
      simp only []
      split
      · exact h
      · exact triggerUpdate_buffersOk _
          (setSlot_buffersOk m hd.channel c _ h (getChannel_some m hd c hg) rfl rfl rfl rfl)

theorem pauseChannel_buffersOk (m : SoundManager) (hd : ChannelHandle) (p : Bool)
    (h : BuffersOk m) : BuffersOk (m.pauseChannel hd p).2 := by
  unfold SoundManager.pauseChannel
  cases hg : m.getChannel hd with
  | error e => exact h
  | ok oc =>
    cases oc with
    | none => exact h
    | some c =>
      have hc := getChannel_some m hd c hg
      obtain ⟨src, c7, -⟩ := (h.2.2.2.1 _ c hc).2.2.2.2.2.2
      have hg' : Gentle m.al (alGetError (alSourcePause m.al c.source)).2 := by
        have g := gentle_pause m.al c.source h.1 (by rw [c7]; rfl)
        refine ⟨g.1, ?_, g.2.2.1, g.2.2.2.1, g.2.2.2.2⟩
        show AL_NO_ERROR = m.al.error
        rw [h.2.1]
      have hm := BuffersOk.of_al m _ h hg'
      simp only []
      split
      · exact h
      · split
        · split
          · exact hm
          · exact triggerUpdate_buffersOk _
              (setSlot_buffersOk _ hd.channel c _ hm hc rfl rfl rfl rfl)
        · exact triggerUpdate_buffersOk _
            (setSlot_buffersOk m hd.channel c _ h hc rfl rfl rfl rfl)

theorem freeChannelHandle_buffersOk (m : SoundManager) (hd : ChannelHandle) (h : BuffersOk m) :
    BuffersOk (m.freeChannelHandle hd).2.2 := by
  unfold SoundManager.freeChannelHandle
  split
  · split
    · exact h
    · exact h
    · split
      · exact freeChannel_buffersOk m _ h
      · exact h
  · exact h

theorem isPlaying_buffersOk (m : SoundManager) (hd : ChannelHandle) (h : BuffersOk m) :
    BuffersOk (m.isPlaying hd).2 := by
  unfold SoundManager.isPlaying
  split
  · exact h
  · split
    · exact h
    · exact h
    · split
      · exact h
      · exact isPlayingChannel_buffersOk m _ h

theorem gentle_listener (al : OpenAL) (g : ALfloat) : Gentle al (alListenerf al g) :=
  ⟨rfl, rfl, rfl, rfl, fun _ => rfl⟩

theorem setListenerGain_buffersOk (m : SoundManager) (g : ALfloat) (h : BuffersOk m) :
    BuffersOk (m.setListenerGain g).2 := by
  unfold SoundManager.setListenerGain
  split
  · exact h
  · exact BuffersOk.of_al m _ h (gentle_listener m.al g)

theorem setChannelPosition_buffersOk (m : SoundManager) (hd : ChannelHandle) (x y z : ALfloat)
    (h : BuffersOk m) : BuffersOk (m.setChannelPosition hd x y z).2 := by
  unfold SoundManager.setChannelPosition
  cases hg : m.getChannel hd with
  | error e => exact h
  | ok oc =>
    cases oc with
    | none => exact h
    | some c =>
      have hc := getChannel_some m hd c hg
      obtain ⟨src, c7, -⟩ := (h.2.2.2.1 _ c hc).2.2.2.2.2.2
      simp only []
      split
      · exact h
      · split
        · exact h
        · exact BuffersOk.of_al m _ h (gentle_source3f m.al c.source x y z (by rw [c7]; rfl))

theorem getChannelPosition_buffersOk (m : SoundManager) (hd : ChannelHandle)
    (out : ALfloat × ALfloat × ALfloat) (h : BuffersOk m) :
    BuffersOk (m.getChannelPosition hd out).2 := by
  unfold SoundManager.getChannelPosition
  cases hg : m.getChannel hd with
  | error e => exact h
  | ok oc =>
    cases oc with
    | none => exact h
    | some c =>
      have hc := getChannel_some m hd c hg
      obtain ⟨src, c7, -⟩ := (h.2.2.2.1 _ c hc).2.2.2.2.2.2
      have hget : (alGetSource3f m.al c.source out).2 = m.al := by
        simp [alGetSource3f, c7]
      simp only []
      split
      · exact h
      · split
        · exact h
        · simp only [hget]
          exact h

theorem setChannelGain_buffersOk (m : SoundManager) (hd : ChannelHandle) (g : ALfloat)
    (h : BuffersOk m) : BuffersOk (m.setChannelGain hd g).2 := by
  unfold SoundManager.setChannelGain
  cases hg : m.getChannel hd with
  | error e => exact h
  | ok oc =>
    cases oc with
    | none => exact h
    | some c =>
      have hc := getChannel_some m hd c hg
      obtain ⟨src, c7, -⟩ := (h.2.2.2.1 _ c hc).2.2.2.2.2.2
      simp only []
      split
      · exact h
      · split
        · exact h
        · exact BuffersOk.of_al m _ h (gentle_sourcef m.al c.source g (by rw [c7]; rfl))

theorem applyTypeGain_gentle (channels : Nat → Option Channel) (g : ALfloat) (al0 : OpenAL)
    (hex : ∀ t c, channels t = some c → (al0.sources c.source).isSome = true) :
    ∀ (l : List Nat) (al : OpenAL), Gentle al0 al →
      Gentle al0 (SoundManager.applyTypeGain channels g l al) := by
  intro l
  induction l with
  | nil => intro al hg; exact hg
  | cons t rest ih =>
    intro al hg
    rw [SoundManager.applyTypeGain]
    cases hc : channels t with
    | none => exact ih al hg
    | some c =>
      simp only []
      apply ih
      obtain ⟨src, hs⟩ := Option.isSome_iff_exists.1 (hex t c hc)
      obtain ⟨src', hs', -⟩ := hg.source c.source src hs
      exact hg.after (gentle_sourcef al c.source g (by rw [hs']; rfl))

theorem setTypeGain_buffersOk (m : SoundManager) (T : Nat) (g : ALfloat) (h : BuffersOk m) :
    BuffersOk (m.setTypeGain T g).2 := by
  unfold SoundManager.setTypeGain
  split
  · exact h
  · simp only []
    have hg := applyTypeGain_gentle m.channels g m.al
      (fun t c hc => by
        obtain ⟨src, c7, -⟩ := (h.2.2.2.1 t c hc).2.2.2.2.2.2
        rw [c7]; rfl)
      (m.types T).list m.al (Gentle.same _)
    refine BuffersOk.after_gentle m _ h ?_ rfl
      (fun i c' hc' => ⟨c', hc', rfl, rfl, rfl, (h.2.2.2.1 i c' hc').2.2.1⟩)
    simp only [Function.update_same]
    exact hg

theorem hardware_buffersOk (m : SoundManager) (al : OpenAL) (h : BuffersOk m)
    (hm : HardwareMove m.al al) : BuffersOk { m with al := al } := by
  obtain ⟨h1, h2, h3, h4, h5⟩ := h
  obtain ⟨m1, m2, m3, m4, m5⟩ := hm
  refine ⟨by rw [m3]; exact h1, by rw [m4]; exact h2, h3, ?_, h5⟩
  intro i c hc
  refine ChannelOk.transfer m.al al c c (h4 i c hc) rfl rfl (h4 i c hc).2.2.1 (by rw [m2])
    (fun b _ hb => by rw [m1]; exact hb) ?_
  intro src hs _
  rcases m5 c.source with ⟨a, -⟩ | ⟨a, b, ha, hb, hq, hp⟩
  · rw [hs] at a; cases a
  · rw [hs] at ha
    cases ha
    exact ⟨b, hb, hp, by rw [hq]⟩

/-- One operation keeps the invariant of the buffers, when the device moves by
`HardwareMove` only. -/
theorem step_buffersOk (m : SoundManager) (op : Op) (h : BuffersOk m)
    (hsane : match op with
      | .hardware al => HardwareMove m.al al
      | _ => True) : BuffersOk (step m op) := by
  cases op with
  | init a b c => exact init_buffersOk m a b c h
  | deinit => exact deinit_buffersOk m h
  | triggerUpdate => exact triggerUpdate_buffersOk m h
  | playAudioStream s t d => exact playAudioStream_buffersOk m s t d h
  | startChannel hd => exact startChannel_buffersOk m hd h
  | pauseChannel hd p => exact pauseChannel_buffersOk m hd p h
  | stopChannel hd => exact freeChannelHandle_buffersOk m hd h
  | isPlaying hd => exact isPlaying_buffersOk m hd h
  | setListenerGain g => exact setListenerGain_buffersOk m g h
  | setChannelPosition hd x y z => exact setChannelPosition_buffersOk m hd x y z h
  | getChannelPosition hd => exact getChannelPosition_buffersOk m hd _ h
  | setChannelGain hd g => exact setChannelGain_buffersOk m hd g h
  | setTypeGain t g => exact setTypeGain_buffersOk m t g h
  | update => exact updateLoop_buffersOk _ _ m h
  | hardware al => exact hardware_buffersOk m al h hsane

theorem run_buffersOk (ops : List Op) : ∀ (m : SoundManager), BuffersOk m → SaneRun m ops →
    BuffersOk (run m ops) := by
  induction ops with
  | nil => intro m h _; exact h
  | cons op rest ih =>
    intro m h hs
    obtain ⟨hs1, hs2⟩ := hs
    exact ih (step m op) (step_buffersOk m op h hs1) hs2

theorem constructed_buffersOk (K T : Nat) (hK : K ≤ 65536) :
    BuffersOk (SoundManager.constructed K T) := by
  refine ⟨rfl, rfl, hK, ?_, ?_⟩
  · intro i c hc
    cases hc
  · intro i j c c' _ hc
    cases hc

/-- What the invariant says about one channel: five distinct buffers; a free list
without repetition that holds buffers of the channel only; every buffer of the channel
in the queue of the source or on the free list, and none in both. -/
theorem ChannelOk.partition {al : OpenAL} {c : Channel} (h : ChannelOk al c) :
    c.buffers.length = kOpenALBufferCount ∧ c.buffers.Nodup ∧ c.freeBuffers.Nodup ∧
    (∀ b ∈ c.freeBuffers, b ∈ c.buffers) ∧
    ∃ src, al.sources c.source = some src ∧
      (∀ b ∈ src.queue, b ∈ c.buffers) ∧
      (∀ b ∈ c.buffers, b ∈ src.queue ∨ b ∈ c.freeBuffers) ∧
      (∀ b, ¬ (b ∈ src.queue ∧ b ∈ c.freeBuffers)) := by
  obtain ⟨h1, h2, h3, h4, h5, h6, src, h7, h8, h9⟩ := h
  have hnd : (c.freeBuffers ++ src.queue).Nodup := (List.Perm.nodup_iff h9).2 h5
  refine ⟨h4, h5, (List.nodup_append.1 hnd).1, ?_, src, h7, ?_, ?_, ?_⟩
  · intro b hb
    exact (List.Perm.mem_iff h9).1 (List.mem_append_left _ hb)
  · intro b hb
    exact (List.Perm.mem_iff h9).1 (List.mem_append_right _ hb)
  · intro b hb
    rcases List.mem_append.1 ((List.Perm.mem_iff h9).2 hb) with h | h
    · exact Or.inr h
    · exact Or.inl h
  · intro b hb
    exact (List.disjoint_of_nodup_append hnd) hb.2 hb.1

/-- C28, on a device that does not fail: a manager with a table of at most `2 ^ 16`
slots, constructed on such a device, runs any sequence of `init()`, `deinit()`, public
operations and `update()`, while the device moves by `HardwareMove` only.  In every
state it reaches,
every channel of the table owns exactly `kOpenALBufferCount` = 5 buffers, all
distinct; its free list holds buffers of the channel only and none twice; and every
buffer of the channel is in the queue of the source of the channel or on the free
list, but not in both.  `bufferData` keeps the invariant `BuffersOk` from which this
follows. -/
theorem buffers_spec (K Tmax : Nat) (hK : K ≤ 65536) :
    (∀ ops, SaneRun (SoundManager.constructed K Tmax) ops →
      ∀ i c, (run (SoundManager.constructed K Tmax) ops).channels i = some c →
        c.buffers.length = 5 ∧ c.buffers.Nodup ∧ c.freeBuffers.Nodup ∧
        (∀ b ∈ c.freeBuffers, b ∈ c.buffers) ∧
        ∃ src, (run (SoundManager.constructed K Tmax) ops).al.sources c.source = some src ∧
          (∀ b ∈ src.queue, b ∈ c.buffers) ∧
          (∀ b ∈ c.buffers, b ∈ src.queue ∨ b ∈ c.freeBuffers) ∧
          (∀ b, ¬ (b ∈ src.queue ∧ b ∈ c.freeBuffers))) ∧
    (∀ m i, BuffersOk m → BuffersOk (m.bufferData i).2) := by
  constructor
  · intro ops hs i c hc
    have h := run_buffersOk ops _ (constructed_buffersOk K Tmax hK) hs
    exact (h.2.2.2.1 i c hc).partition
  · intro m i h
    exact bufferData_buffersOk m i h

/-- C28, witness: the manager with 4 slots and 3 sound types after `init()`,
`playAudioStream` and `update()`. -/
theorem buffers_spec_witness :
    (run (SoundManager.constructed 4 3)
      [.init true true true, .playAudioStream (some longStream) 1 true, .update]).channels 1
        = some streamingChannel ∧
    streamingChannel.buffers.length = 5 ∧ streamingChannel.buffers.Nodup ∧
    streamingChannel.freeBuffers.Nodup ∧
    (∀ b ∈ streamingChannel.freeBuffers, b ∈ streamingChannel.buffers) ∧
    ∃ src, (run (SoundManager.constructed 4 3)
        [.init true true true, .playAudioStream (some longStream) 1 true, .update]).al.sources
          streamingChannel.source = some src ∧
      (∀ b ∈ src.queue, b ∈ streamingChannel.buffers) ∧
      (∀ b ∈ streamingChannel.buffers, b ∈ src.queue ∨ b ∈ streamingChannel.freeBuffers) ∧
      (∀ b, ¬ (b ∈ src.queue ∧ b ∈ streamingChannel.freeBuffers)) :=
  ⟨by decide, (buffers_spec 4 3 (by decide)).1
    [.init true true true, .playAudioStream (some longStream) 1 true, .update]
    ⟨trivial, trivial, trivial, trivial⟩ 1 streamingChannel (by decide)⟩

/-- C28, failing input: in `startedStreaming` the channel in slot 1 owns the buffers
2 to 6, all of them in the queue of its source.  The source finishes buffer 2 and the
device fails the next `alSourceQueueBuffers`: `update()` succeeds, and afterwards
buffer 2 is still owned by the channel but neither in the queue of the source nor on
the free list; `bufferData(1)` alone does the same. -/
theorem update_drops_buffer :
    (startedStreaming.channels 1).map Channel.buffers = some [2, 3, 4, 5, 6] ∧
    (startedStreaming.channels 1).map Channel.freeBuffers = some [] ∧
    (startedStreaming.channels 1).map Channel.source = some 1 ∧
    (startedStreaming.al.sources 1).map Source.queue = some [2, 3, 4, 5, 6] ∧
    (startedStreaming.al.sources 1).map Source.state = some AL_PLAYING ∧
    droppingManager.update.1 = .ok () ∧
    (droppingManager.update.2.channels 1).map Channel.buffers = some [2, 3, 4, 5, 6] ∧
    (droppingManager.update.2.channels 1).map Channel.source = some 1 ∧
    (droppingManager.update.2.channels 1).map Channel.freeBuffers = some [] ∧
    (droppingManager.update.2.al.sources 1).map Source.queue = some [3, 4, 5, 6] ∧
    (droppingManager.bufferData 1).1 = .ok () ∧
    ((droppingManager.bufferData 1).2.channels 1).map Channel.freeBuffers = some [] ∧
    ((droppingManager.bufferData 1).2.al.sources 1).map Source.queue = some [3, 4, 5, 6] := by
  decide

/-- On a device that has not failed, the invariant of the buffers gives every channel
a source that exists and that no other slot uses. -/
theorem BuffersOk.voices {m : SoundManager} (h : BuffersOk m) : VoicesOk m := by
  obtain ⟨-, -, -, h4, h5⟩ := h
  refine ⟨?_, fun i j c c' hij hc hc' => (h5 i j c c' hij hc hc').1⟩
  intro i c hc
  obtain ⟨src, hs, -⟩ := (h4 i c hc).2.2.2.2.2.2
  rw [hs]; rfl

/-- C25, failing input: in `droppingManager` the free list of the channel in slot 1 is
empty and its source has finished buffer 2, the first of the five buffers of its
queue.  `bufferData(1)` takes buffer 2 off the queue, fills it by one read from the
stream and sends `alSourceQueueBuffers`, which the device fails; `bufferData` returns
normally all the same and has removed buffer 2 from the free list, although the buffer
is not queued: the queue holds the buffers 3 to 6, the free list is empty, and the
stream, which still has data, has lost the samples of that read. -/
theorem bufferData_erases_unqueued_buffer :
    (droppingManager.channels 1).map Channel.freeBuffers = some [] ∧
    (droppingManager.al.sources 1).map (fun s => (s.queue, s.processed))
      = some ([2, 3, 4, 5, 6], 1) ∧
    ((droppingManager.channels 1).bind Channel.stream).map
      (fun s => (s.reads, s.remaining)) = some (5, 18080) ∧
    (droppingManager.bufferData 1).1 = .ok () ∧
    (droppingManager.bufferData 1).2.al.calls = droppingManager.al.calls ++
      [.sourceUnqueueBuffers 1, .bufferData 2 32768, .sourceQueueBuffers 1 2] ∧
    (((droppingManager.bufferData 1).2.channels 1).bind Channel.stream).map
      (fun s => (s.reads, s.remaining, s.endOfData)) = some (6, 1696, false) ∧
    ((droppingManager.bufferData 1).2.channels 1).map Channel.freeBuffers = some [] ∧
    ((droppingManager.bufferData 1).2.al.sources 1).map (fun s => (s.queue, s.processed))
      = some ([3, 4, 5, 6], 0) ∧
    (droppingManager.bufferData 1).2.al.error = AL_OUT_OF_MEMORY := by
  decide

/-! ### The sources of the channels in every reachable state -/

end Sound
